import Mathlib

/-!
# WatchX server: alert evaluation, host status and heartbeat sweep

A shallow embedding of the server side of WatchX (`server/db.js`,
`server/alertEngine.js`, `server/routes.js`, `server/index.js`).

* SQLite tables are lists of rows, kept in rowid (insertion) order.
* The JavaScript `Map`s (`sustainedSince`, `agentClients`, `serverLogs`) are
  functions from keys to optional values.
* `Math.floor(Date.now() / 1000)` is an explicit argument `now : Int`.
* Metric values and thresholds are JSON numbers, hence finite; they are
  rationals here, on which `>`, `<`, `>=`, `<=`, `===` agree with the
  comparisons of finite doubles.
* Dashboard broadcasts are appended to an event log.
* A failing SQL statement throws; the state reached before the throw is kept
  and the outcome records that the call threw.
-/

namespace WatchX

/-! ## Data model (`db.js` schema) -/

/-- Column `alerts.status`: active, acknowledged or resolved. -/
inductive AlertStatus where
  | active
  | acknowledged
  | resolved
  deriving DecidableEq, Repr

/-- Column `servers.status`: online, offline, warning or critical. -/
inductive HostStatus where
  | online
  | offline
  | warning
  | critical
  deriving DecidableEq, Repr

/-- Row of table `servers`.  The descriptive columns (hostname, ip, os,
platform, arch, meta, created_at) are written by the upsert only and read by no
operation modelled here; they are left out. -/
structure Server where
  id : String
  name : String
  status : HostStatus
  last_seen : Option Int
  deriving DecidableEq, Repr

/-- Row of table `alert_rules`.  The columns `duration_s` and `cooldown_s` are
nullable integers; `enabled` is read only through its truthiness. -/
structure Rule where
  id : String
  server_id : Option String
  metric : String
  operator : String
  threshold : ℚ
  duration_s : Option Int
  severity : String
  enabled : Bool
  cooldown_s : Option Int
  deriving DecidableEq

/-- Row of table `alerts`.  The column `message` is a display string built
from the other columns and read by no operation; it is left out. -/
structure Alert where
  id : Nat
  rule_id : Option String
  server_id : String
  metric : String
  value : ℚ
  threshold : ℚ
  severity : String
  status : AlertStatus
  fired_at : Int
  resolved_at : Option Int
  ack_at : Option Int
  deriving DecidableEq

/-- The fifteen numeric fields of a `metrics` message (`msg.data`), each one a
number or absent. -/
structure MetricData where
  cpu_pct : Option ℚ := none
  mem_total : Option ℚ := none
  mem_used : Option ℚ := none
  mem_pct : Option ℚ := none
  disk_total : Option ℚ := none
  disk_used : Option ℚ := none
  disk_pct : Option ℚ := none
  net_rx : Option ℚ := none
  net_tx : Option ℚ := none
  load_1 : Option ℚ := none
  load_5 : Option ℚ := none
  load_15 : Option ℚ := none
  uptime : Option ℚ := none
  processes : Option ℚ := none
  temp : Option ℚ := none
  deriving DecidableEq

/-- The object `metricRow` of the metrics handler, also the row of table
`metrics`: `x ?? null` keeps every present number, zero included. -/
structure MetricRow where
  server_id : String
  ts : Int
  data : MetricData
  deriving DecidableEq

/-- The lookup `metric[rule.metric]` on a `metricRow`, for the numeric
columns: `none` stands for undefined or null.  The key `server_id` holds a
string and the keys inherited from `Object.prototype` hold functions; a rule on
one of them is outside this model. -/
def MetricRow.get (row : MetricRow) (field : String) : Option ℚ :=
  match field with
  | "ts" => some (row.ts : ℚ)
  | "cpu_pct" => row.data.cpu_pct
  | "mem_total" => row.data.mem_total
  | "mem_used" => row.data.mem_used
  | "mem_pct" => row.data.mem_pct
  | "disk_total" => row.data.disk_total
  | "disk_used" => row.data.disk_used
  | "disk_pct" => row.data.disk_pct
  | "net_rx" => row.data.net_rx
  | "net_tx" => row.data.net_tx
  | "load_1" => row.data.load_1
  | "load_5" => row.data.load_5
  | "load_15" => row.data.load_15
  | "uptime" => row.data.uptime
  | "processes" => row.data.processes
  | "temp" => row.data.temp
  | _ => none

/-- One entry of a host's log buffer. -/
structure LogEntry where
  ts : Int
  message : String
  level : String
  deriving DecidableEq

/-- The payloads handed to `broadcast`.  The `data` of a details message is an
opaque snapshot, kept as its text (`none` when the message has no `data`). -/
inductive Event where
  | serverOnline (serverId : String) (server : Option Server)
  | serverOffline (serverId : String)
  | alertNew (alert : Alert)
  | alertResolved (alertId : Nat) (serverId : String)
  | metric (serverId : String) (row : MetricRow)
  | details (serverId : String) (data : Option String)
  | log (serverId : String) (entry : LogEntry)
  deriving DecidableEq

/-- Value of `serverDetails`: the snapshot `{ ...msg.data, _updated }`. -/
structure DetailsSnapshot where
  data : Option String
  updated : Int
  deriving DecidableEq

/-- What `ws.send` hands to a dashboard connection: a broadcast event, the
`init` message (its payload, the count and ids of the registered agents, is not
modelled), or the reply to a subscribe request. -/
inductive WsMsg where
  | event (data : Event)
  | init
  | logsSnapshot (serverId : String) (entries : List LogEntry)
  | details (serverId : String) (data : DetailsSnapshot)
  deriving DecidableEq

/-- The branch of the connection handler a connection was bound in. -/
inductive ConnKind where
  | agent
  | dashboard
  deriving DecidableEq

/-- The server state: the four tables, the sustained-condition tracker of
`alertEngine.js`, the maps of `index.js`, the closure variable `serverId` of
every agent connection, and the log of broadcast events.

The handlers are modelled at the level of their calls to `broadcast`: a call
appends its argument to `events`.  What one call does to the dashboard
connections is the function `broadcast` further down, on the fields
`dashboardClients` (the set, in insertion order), `readyState` (of every
connection, 1 for open) and `sent` (what `ws.send` was given, per
connection). -/
structure State where
  servers : List Server := []
  metrics : List MetricRow := []
  rules : List Rule := []
  alerts : List Alert := []
  sustainedSince : String → Option Int := fun _ => none
  agentClients : String → Option Nat := fun _ => none
  serverLogs : String → Option (List LogEntry) := fun _ => none
  connServerId : Nat → Option String := fun _ => none
  events : List Event := []
  serverDetails : String → Option DetailsSnapshot := fun _ => none
  connKind : Nat → Option ConnKind := fun _ => none
  dashboardClients : List Nat := []
  readyState : Nat → Nat := fun _ => 1
  sent : Nat → List WsMsg := fun _ => []

/-- Result of a call that may throw: the state it left and whether it threw. -/
structure Outcome where
  state : State
  threw : Bool

/-! ## Prepared statements (`db.js`) -/

/-- Statement `getServer`. -/
def getServer (servers : List Server) (id : String) : Option Server :=
  servers.find? (fun s => decide (s.id = id))

/-- Statement `updateServerStatus`: sets `status` and `last_seen` of the row
with the given id. -/
def updateServerStatus (status : HostStatus) (now : Int) (id : String)
    (servers : List Server) : List Server :=
  servers.map (fun s => if s.id = id then { s with status := status, last_seen := some now } else s)

/-- Statement `upsertServer`: insert, or on conflict of the id overwrite the
row. -/
def upsertServer (row : Server) (servers : List Server) : List Server :=
  if servers.any (fun s => decide (s.id = row.id)) then
    servers.map (fun s => if s.id = row.id then row else s)
  else servers ++ [row]

/-- Statement `getRulesForServer`: the rules scoped to the host and the
global ones. -/
def getRulesForServer (rules : List Rule) (serverId : String) : List Rule :=
  rules.filter (fun r => decide (r.server_id = some serverId ∨ r.server_id = none))

/-- Statement `getActiveAlerts`: the active rows, `ORDER BY fired_at DESC`.
No index serves the statement, so the table is scanned in rowid order and the
rows are sorted; rows with equal `fired_at` stay in rowid order. -/
def getActiveAlerts (alerts : List Alert) : List Alert :=
  (alerts.filter (fun a => decide (a.status = AlertStatus.active))).insertionSort
    (fun a b => b.fired_at ≤ a.fired_at)

/-- Statement `ackAlert`: no condition on the current status. -/
def ackAlert (now : Int) (id : Nat) (alerts : List Alert) : List Alert :=
  alerts.map (fun a =>
    if a.id = id then { a with status := AlertStatus.acknowledged, ack_at := some now } else a)

/-- Statement `resolveAlert`: no condition on the current status. -/
def resolveAlert (now : Int) (id : Nat) (alerts : List Alert) : List Alert :=
  alerts.map (fun a =>
    if a.id = id then { a with status := AlertStatus.resolved, resolved_at := some now } else a)

/-- Row `a` comes before row `b` in `ORDER BY fired_at DESC`; rows with equal
`fired_at` come out largest rowid first, the order in which the reverse scan of
the index `idx_alerts_server (server_id, fired_at)` yields them. -/
def firedAfter (a b : Alert) : Bool :=
  decide (b.fired_at < a.fired_at) || (decide (a.fired_at = b.fired_at) && decide (b.id < a.id))

/-- Keeps the better of the best row so far and the next row. -/
def laterOf (best : Option Alert) (a : Alert) : Option Alert :=
  match best with
  | none => some a
  | some b => if firedAfter a b then some a else some b

/-- Row selection of `getLastFiredAlert`. -/
def alertMatches (ruleId serverId : String) (a : Alert) : Bool :=
  decide (a.rule_id = some ruleId) && decide (a.server_id = serverId)

/-- Statement `getLastFiredAlert`: the first row of the rows of the rule and
host in `ORDER BY fired_at DESC`. -/
def getLastFiredAlert (alerts : List Alert) (ruleId serverId : String) : Option Alert :=
  (alerts.filter (alertMatches ruleId serverId)).foldl laterOf none

/-- The rowid `insertAlert` gives the next row (`AUTOINCREMENT`, no row of
this table is deleted here): one more than the largest rowid. -/
def nextAlertId (alerts : List Alert) : Nat :=
  (alerts.map (fun a => a.id)).foldl max 0 + 1

/-! ## Alert engine (`alertEngine.js`) -/

/-- Function `evaluate`: the switch on the operator. -/
def evaluate (value : ℚ) (operator : String) (threshold : ℚ) : Bool :=
  match operator with
  | "gt" => decide (value > threshold)
  | "lt" => decide (value < threshold)
  | "gte" => decide (value >= threshold)
  | "lte" => decide (value <= threshold)
  | "eq" => decide (value = threshold)
  | _ => false

/-- The JavaScript `x || d` on a nullable integer: `d` for null and for 0. -/
def orDefault (x : Option Int) (d : Int) : Int :=
  match x with
  | none => d
  | some v => if v = 0 then d else v

/-- The tracker key, the template string of rule id, colon, server id. -/
def trackerKey (ruleId serverId : String) : String :=
  ruleId ++ ":" ++ serverId

/-- Method `Map.set` on the tracker. -/
def trackerSet (m : String → Option Int) (key : String) (v : Int) : String → Option Int :=
  fun k => if k = key then some v else m k

/-- Method `Map.delete` on the tracker. -/
def trackerDelete (m : String → Option Int) (key : String) : String → Option Int :=
  fun k => if k = key then none else m k

/-- The cooldown test of `evaluateMetric`: the last alert exists, is active
and was fired less than `cooldown_s || 300` seconds ago. -/
def inCooldown (lastAlert : Option Alert) (rule : Rule) (now : Int) : Bool :=
  match lastAlert with
  | none => false
  | some a => decide (a.status = AlertStatus.active) &&
      decide (now - a.fired_at < orDefault rule.cooldown_s 300)

/-- The step "resolve previous active alert for this rule if it exists". -/
def resolveStale (lastAlert : Option Alert) (now : Int) (alerts : List Alert) : List Alert :=
  match lastAlert with
  | none => alerts
  | some a => if a.status = AlertStatus.active then resolveAlert now a.id alerts else alerts

/-- The object `alertData` with the rowid of the insert. -/
def mkAlert (id : Nat) (rule : Rule) (serverId : String) (value : ℚ) (now : Int) : Alert :=
  { id := id, rule_id := some rule.id, server_id := serverId, metric := rule.metric,
    value := value, threshold := rule.threshold, severity := rule.severity,
    status := AlertStatus.active, fired_at := now, resolved_at := none, ack_at := none }

/-- The block "update server status" after a firing. -/
def statusOnFire (severity : String) (now : Int) (serverId : String)
    (servers : List Server) : List Server :=
  if severity = "critical" then updateServerStatus HostStatus.critical now serverId servers
  else if severity = "warning" then
    match getServer servers serverId with
    | some server =>
        if server.status ≠ HostStatus.critical then
          updateServerStatus HostStatus.warning now serverId servers
        else servers
    | none => servers
  else servers

/-- The block "re-evaluate server status" of the clear branch. -/
def statusOnClear (alerts : List Alert) (serverId : String) : HostStatus :=
  let remaining := (getActiveAlerts alerts).filter (fun a => decide (a.server_id = serverId))
  let hasCritical := remaining.any (fun a => decide (a.severity = "critical"))
  let hasWarning := remaining.any (fun a => decide (a.severity = "warning"))
  if hasCritical then HostStatus.critical
  else if hasWarning then HostStatus.warning
  else HostStatus.online

/-- The part of the loop body that fires: cooldown check, stale resolve,
insert, status update, broadcast, tracker reset.  The insert fails on the
foreign key `alerts.server_id` when the host has no row, and throws.  The
broadcast function is the one `index.js` installs at start; `sendEmail` and
`sendWebhook` are asynchronous, catch their own errors and write no state. -/
def fireRule (serverId : String) (value : ℚ) (now : Int) (rule : Rule) (s : State) : Outcome :=
  let key := trackerKey rule.id serverId
  let lastAlert := getLastFiredAlert s.alerts rule.id serverId
  if inCooldown lastAlert rule now then ⟨s, false⟩
  else
    let s2 := { s with alerts := resolveStale lastAlert now s.alerts }
    match getServer s2.servers serverId with
    | none => ⟨s2, true⟩
    | some _ =>
      let newAlert := mkAlert (nextAlertId s2.alerts) rule serverId value now
      let s3 := { s2 with alerts := s2.alerts ++ [newAlert] }
      let s4 := { s3 with servers := statusOnFire rule.severity now serverId s3.servers }
      let s5 := { s4 with events := s4.events ++ [Event.alertNew newAlert] }
      ⟨{ s5 with sustainedSince := trackerDelete s5.sustainedSince key }, false⟩

/-- The else branch of the loop body: the condition is false. -/
def clearRule (serverId : String) (now : Int) (rule : Rule) (s : State) : State :=
  let key := trackerKey rule.id serverId
  let s1 := { s with sustainedSince := trackerDelete s.sustainedSince key }
  match getLastFiredAlert s1.alerts rule.id serverId with
  | none => s1
  | some lastAlert =>
    if lastAlert.status = AlertStatus.active then
      let s2 := { s1 with alerts := resolveAlert now lastAlert.id s1.alerts }
      let s3 := { s2 with events := s2.events ++ [Event.alertResolved lastAlert.id serverId] }
      { s3 with servers := updateServerStatus (statusOnClear s3.alerts serverId) now serverId s3.servers }
    else s1

/-- The statement `if (!sustainedSince.has(key)) sustainedSince.set(key, now)`. -/
def trackSince (key : String) (now : Int) (s : State) : State :=
  if (s.sustainedSince key).isSome then s
  else { s with sustainedSince := trackerSet s.sustainedSince key now }

/-- One iteration of the loop of `evaluateMetric`. -/
def evalRule (serverId : String) (metric : String → Option ℚ) (now : Int) (rule : Rule)
    (s : State) : Outcome :=
  if rule.enabled = false then ⟨s, false⟩
  else
    match metric rule.metric with
    | none => ⟨s, false⟩
    | some value =>
      let key := trackerKey rule.id serverId
      if evaluate value rule.operator rule.threshold then
        let s1 := trackSince key now s
        let elapsed := now - (s1.sustainedSince key).getD now
        if elapsed ≥ orDefault rule.duration_s 0 then fireRule serverId value now rule s1
        else ⟨s1, false⟩
      else ⟨clearRule serverId now rule s, false⟩

/-- The loop over the rules; a throw leaves the loop. -/
def evalRules (serverId : String) (metric : String → Option ℚ) (now : Int) :
    List Rule → State → Outcome
  | [], s => ⟨s, false⟩
  | rule :: rest, s =>
    let o := evalRule serverId metric now rule s
    if o.threw then o else evalRules serverId metric now rest o.state

/-- Function `evaluateMetric`; `metric` is the lookup `metric[rule.metric]`. -/
def evaluateMetric (serverId : String) (metric : String → Option ℚ) (now : Int)
    (s : State) : Outcome :=
  evalRules serverId metric now (getRulesForServer s.rules serverId) s

/-! ## Operator routes (`routes.js`) -/

/-- Route `POST /alerts/:id/acknowledge`. -/
def acknowledgeRoute (id : Nat) (now : Int) (s : State) : State :=
  { s with alerts := ackAlert now id s.alerts }

/-- Route `POST /alerts/:id/resolve`. -/
def resolveRoute (id : Nat) (now : Int) (s : State) : State :=
  { s with alerts := resolveAlert now id s.alerts }

/-! ## Agent connections and the heartbeat sweep (`index.js`) -/

/-- The `server` object of a register message, as far as it is read here. -/
structure ServerDescr where
  id : String
  name : Option String
  hostname : Option String
  deriving DecidableEq

/-- The expression `msg.server.name || msg.server.hostname`: an absent or
empty name gives the hostname. -/
def nameOrHostname (d : ServerDescr) : Option String :=
  match d.name with
  | none => d.hostname
  | some n => if n = "" then d.hostname else some n

/-- Handler of a `register` message on agent connection `conn`.  The closure
variable `serverId` is assigned first; the upsert throws when the name column
(`NOT NULL`) would be null. -/
def onRegister (conn : Nat) (d : ServerDescr) (now : Int) (s : State) : Outcome :=
  let s1 := { s with connServerId := fun c => if c = conn then some d.id else s.connServerId c }
  match nameOrHostname d with
  | none => ⟨s1, true⟩
  | some name =>
    let row : Server := { id := d.id, name := name, status := HostStatus.online, last_seen := some now }
    let s2 := { s1 with servers := upsertServer row s1.servers }
    let s3 := { s2 with agentClients := fun k => if k = d.id then some conn else s2.agentClients k }
    let s4 := if (s3.serverLogs d.id).isSome then s3
      else { s3 with serverLogs := fun k => if k = d.id then some [] else s3.serverLogs k }
    ⟨{ s4 with events := s4.events ++ [Event.serverOnline d.id (getServer s4.servers d.id)] }, false⟩

/-- The closure variable `serverId` of the connection when it is truthy:
neither null nor the empty string. -/
def registeredId (s : State) (conn : Nat) : Option String :=
  match s.connServerId conn with
  | none => none
  | some id => if id = "" then none else some id

/-- The status the metrics handler writes back: critical and warning are
kept, everything else becomes online. -/
def keepStatus (current : Option Server) : HostStatus :=
  match current with
  | none => HostStatus.online
  | some server =>
    if server.status = HostStatus.critical then HostStatus.critical
    else if server.status = HostStatus.warning then HostStatus.warning
    else HostStatus.online

/-- Handler of a `metrics` message on agent connection `conn`: `now` is the
clock read by the handler, `evalNow` the clock read by `evaluateMetric`.  The
insert into `metrics` fails on the foreign key when the host has no row. -/
def onMetrics (conn : Nat) (data : MetricData) (now evalNow : Int) (s : State) : Outcome :=
  match registeredId s conn with
  | none => ⟨s, false⟩
  | some serverId =>
    let metricRow : MetricRow := { server_id := serverId, ts := now, data := data }
    match getServer s.servers serverId with
    | none => ⟨s, true⟩
    | some _ =>
      let s1 := { s with metrics := s.metrics ++ [metricRow] }
      let s2 := { s1 with servers :=
        updateServerStatus (keepStatus (getServer s1.servers serverId)) now serverId s1.servers }
      let o := evaluateMetric serverId metricRow.get evalNow s2
      if o.threw then o
      else ⟨{ o.state with events := o.state.events ++ [Event.metric serverId metricRow] }, false⟩

/-- Handler of the `close` event of agent connection `conn`. -/
def onClose (conn : Nat) (now : Int) (s : State) : State :=
  match registeredId s conn with
  | none => s
  | some serverId =>
    { s with
      agentClients := fun k => if k = serverId then none else s.agentClients k
      servers := updateServerStatus HostStatus.offline now serverId s.servers
      events := s.events ++ [Event.serverOffline serverId] }

/-- Statement `getServers`: all rows, `ORDER BY name`.  The order is the
lexicographic order of the code points of the names, which is the byte order
of their UTF-8 encoding (collation `BINARY`); the sort is stable. -/
def getServers (servers : List Server) : List Server :=
  servers.insertionSort (fun a b => a.name.data ≤ b.name.data)

/-- The test of the offline detection: status not offline, `last_seen`
truthy (neither null nor 0) and more than 60 seconds old. -/
def isStale (now : Int) (row : Server) : Bool :=
  decide (row.status ≠ HostStatus.offline) &&
    (match row.last_seen with
     | none => false
     | some t => decide (t ≠ 0) && decide (now - t > 60))

/-- One iteration of the offline detection on a row of the snapshot. -/
def sweepStep (now : Int) (s : State) (row : Server) : State :=
  if isStale now row then
    { s with
      servers := updateServerStatus HostStatus.offline now row.id s.servers
      events := s.events ++ [Event.serverOffline row.id] }
  else s

/-- The offline detection interval: one pass over the snapshot of `servers`. -/
def heartbeatSweep (now : Int) (s : State) : State :=
  (getServers s.servers).foldl (sweepStep now) s

/-! ## Logs, details and the agent message handler (`index.js`) -/

/-- Constant `MAX_LOG_ENTRIES`. -/
def MAX_LOG_ENTRIES : Nat := 500

/-- The statements `logs.push(entry); if (logs.length > MAX_LOG_ENTRIES)
logs.shift()`. -/
def pushLog (logs : List LogEntry) (entry : LogEntry) : List LogEntry :=
  let pushed := logs ++ [entry]
  if pushed.length > MAX_LOG_ENTRIES then pushed.tail else pushed

/-- Handler of a `log` message on agent connection `conn`. -/
def onLog (conn : Nat) (entry : LogEntry) (s : State) : State :=
  match registeredId s conn with
  | none => s
  | some serverId =>
    let logs := pushLog ((s.serverLogs serverId).getD []) entry
    { s with
      serverLogs := fun k => if k = serverId then some logs else s.serverLogs k
      events := s.events ++ [Event.log serverId entry] }

/-- Handler of a `logs:snapshot` message on agent connection `conn`; absent
`entries` count as the empty list.  Nothing is broadcast. -/
def onLogsSnapshot (conn : Nat) (entries : Option (List LogEntry)) (s : State) : State :=
  match registeredId s conn with
  | none => s
  | some serverId =>
    let logs := (entries.getD []).foldl pushLog ((s.serverLogs serverId).getD [])
    { s with serverLogs := fun k => if k = serverId then some logs else s.serverLogs k }

/-- Handler of a `details` message on agent connection `conn`; `nowMs` is
`Date.now()`. -/
def onDetails (conn : Nat) (data : Option String) (nowMs : Int) (s : State) : State :=
  match registeredId s conn with
  | none => s
  | some serverId =>
    { s with
      serverDetails := fun k =>
        if k = serverId then some { data := data, updated := nowMs } else s.serverDetails k
      events := s.events ++ [Event.details serverId data] }

/-- A parsed message, by its `type`; `other` is any other type or none.  The
optional arguments are the properties the handlers dereference. -/
inductive Msg where
  | register (server : Option ServerDescr)
  | metrics (data : Option MetricData)
  | details (data : Option String)
  | log (entry : LogEntry)
  | logsSnapshot (entries : Option (List LogEntry))
  | subscribeLogs (serverId : Option String)
  | subscribeDetails (serverId : Option String)
  | other
  deriving DecidableEq

/-- The clock readings of one message: seconds in the handler, seconds in
`evaluateMetric`, milliseconds in the details branch. -/
structure Clock where
  now : Int
  evalNow : Int
  nowMs : Int

/-- The message handler of an agent connection: the `try` block, with the
outcome telling whether the `catch` ran.  `raw` is `none` when `JSON.parse`
throws (or gives null); a register message without `server` throws on
`msg.server.id`, a metrics message without `data` throws on `msg.data.cpu_pct`
once the connection has a host id. -/
def onAgentMessage (conn : Nat) (raw : Option Msg) (clk : Clock) (s : State) : Outcome :=
  match raw with
  | none => ⟨s, true⟩
  | some (Msg.register none) => ⟨s, true⟩
  | some (Msg.register (some d)) => onRegister conn d clk.now s
  | some (Msg.metrics none) =>
    match registeredId s conn with
    | none => ⟨s, false⟩
    | some _ => ⟨s, true⟩
  | some (Msg.metrics (some data)) => onMetrics conn data clk.now clk.evalNow s
  | some (Msg.details data) => ⟨onDetails conn data clk.nowMs s, false⟩
  | some (Msg.log entry) => ⟨onLog conn entry s, false⟩
  | some (Msg.logsSnapshot entries) => ⟨onLogsSnapshot conn entries s, false⟩
  | some _ => ⟨s, false⟩

/-! ## Dashboard connections and `broadcast` (`index.js`) -/

/-- Method `Set.add` on `dashboardClients`. -/
def setAdd (set : List Nat) (ws : Nat) : List Nat :=
  if ws ∈ set then set else set ++ [ws]

/-- Method `Set.delete` on `dashboardClients`. -/
def setDelete (set : List Nat) (ws : Nat) : List Nat :=
  set.filter (fun c => decide (c ≠ ws))

/-- Call `ws.send(msg)` on connection `ws`. -/
def wsSend (ws : Nat) (msg : WsMsg) (s : State) : State :=
  { s with sent := fun c => if c = ws then s.sent c ++ [msg] else s.sent c }

/-- Function `broadcast`: the one serialized message is sent to every
connection of `dashboardClients` whose `readyState` is 1. -/
def broadcast (data : Event) (s : State) : State :=
  let msg := WsMsg.event data
  s.dashboardClients.foldl (fun st ws => if st.readyState ws = 1 then wsSend ws msg st else st) s

/-- A sequence of `broadcast` calls, in publish order. -/
def publishAll (events : List Event) (s : State) : State :=
  events.foldl (fun st data => broadcast data st) s

/-- The connection handler of the WebSocket server: a connection whose URL has
`role=agent` is bound to the agent handlers with `serverId = null`; every other
connection is added to `dashboardClients` and sent the `init` message. -/
def onConnection (conn : Nat) (role : Option String) (s : State) : State :=
  if role = some "agent" then
    { s with
      connKind := fun c => if c = conn then some ConnKind.agent else s.connKind c
      connServerId := fun c => if c = conn then none else s.connServerId c }
  else
    wsSend conn WsMsg.init
      { s with
        connKind := fun c => if c = conn then some ConnKind.dashboard else s.connKind c
        dashboardClients := setAdd s.dashboardClients conn }

/-- The last `n` elements, `slice(-n)` for positive `n`. -/
def lastN {α : Type} (n : Nat) (l : List α) : List α :=
  l.drop (l.length - n)

/-- The message handler of a dashboard connection.  A subscribe request
without a truthy `serverId` is ignored, as every other message is. -/
def onDashboardMessage (conn : Nat) (raw : Option Msg) (s : State) : State :=
  match raw with
  | some (Msg.subscribeLogs (some serverId)) =>
    if serverId = "" then s
    else
      let logs := (s.serverLogs serverId).getD []
      wsSend conn (WsMsg.logsSnapshot serverId (lastN 200 logs)) s
  | some (Msg.subscribeDetails (some serverId)) =>
    if serverId = "" then s
    else
      match s.serverDetails serverId with
      | none => s
      | some details => wsSend conn (WsMsg.details serverId details) s
  | _ => s

/-- A message on a connection, handed to the handler the connection was bound
to. -/
def onMessage (conn : Nat) (raw : Option Msg) (clk : Clock) (s : State) : State :=
  match s.connKind conn with
  | some ConnKind.agent => (onAgentMessage conn raw clk s).state
  | some ConnKind.dashboard => onDashboardMessage conn raw s
  | none => s

/-- The `close` event of a connection: the agent close handler, or the removal
from `dashboardClients`. -/
def onConnectionClose (conn : Nat) (now : Int) (s : State) : State :=
  match s.connKind conn with
  | some ConnKind.agent => onClose conn now s
  | some ConnKind.dashboard => { s with dashboardClients := setDelete s.dashboardClients conn }
  | none => s

/-! ## The time-series store (`db.js`, `routes.js`) -/

/-- Statement `getMetrics`: the rows of the host with `lo <= ts <= hi`,
`ORDER BY ts ASC`. -/
def getMetrics (metrics : List MetricRow) (serverId : String) (lo hi : Int) : List MetricRow :=
  (metrics.filter (fun r => decide (r.server_id = serverId) && decide (lo ≤ r.ts) &&
    decide (r.ts ≤ hi))).insertionSort (fun a b => a.ts ≤ b.ts)

/-- Route `GET /servers/:id/metrics`: the query parameters `from` and `to`,
absent, not numeric or 0, give way to the last hour and to now. -/
def metricsRoute (id : String) (fromQ toQ : Option Int) (now : Int) (s : State) : List MetricRow :=
  getMetrics s.metrics id (orDefault fromQ (now - 3600)) (orDefault toQ now)

/-! ## Notifiers (`alertEngine.js`) -/

/-- How a call of an external transport (`mailTransport.sendMail`, `fetch`)
ends: it returns a promise that is fulfilled or one that is rejected, or it
throws before it returns. -/
inductive TransportResult where
  | fulfils
  | rejects
  | throws
  deriving DecidableEq

/-- The environment of the notifiers: whether mail and webhook are configured
(`mailTransport` with `ALERT_EMAIL_TO`, `WEBHOOK_URL`) and, for each alert,
how `sendMail` and `fetch` end. -/
structure Notifier where
  mailConfigured : Bool
  webhookConfigured : Bool
  sendMail : Alert → TransportResult
  fetch : Alert → TransportResult

/-- How a function body ends (`throws`) and whether it wrote a failure line
to the console. -/
structure BodyResult where
  throws : Bool
  logsFailure : Bool
  deriving DecidableEq

/-- The block `try { await transport(...) } catch (err) { console.error(...) }`
of both notifiers: a rejection and a throw of the transport land in the
`catch`, which logs and ends normally. -/
def guarded (r : TransportResult) : BodyResult :=
  match r with
  | TransportResult.fulfils => ⟨false, false⟩
  | TransportResult.rejects => ⟨false, true⟩
  | TransportResult.throws => ⟨false, true⟩

/-- What a call leaves behind for its caller: whether the call expression
throws into the caller, whether the promise it returned ends rejected, and
whether a failure line is written to the console (when the promise settles,
which is after the caller has gone on). -/
structure AsyncCall where
  throwsIntoCaller : Bool
  promiseRejected : Bool
  logsFailure : Bool
  deriving DecidableEq

/-- A call of an `async` function whose body ends as given: the call returns
a promise and never throws into the caller; a body that throws rejects the
promise. -/
def asyncCall (body : BodyResult) : AsyncCall :=
  ⟨false, body.throws, body.logsFailure⟩

/-- Function `sendEmail`: returns at once when mail is not configured, else
sends inside `try`/`catch`. -/
def sendEmail (n : Notifier) (alert : Alert) : AsyncCall :=
  asyncCall (if n.mailConfigured = false then ⟨false, false⟩ else guarded (n.sendMail alert))

/-- Function `sendWebhook`: returns at once when no URL is configured, else
posts inside `try`/`catch`. -/
def sendWebhook (n : Notifier) (alert : Alert) : AsyncCall :=
  asyncCall (if n.webhookConfigured = false then ⟨false, false⟩ else guarded (n.fetch alert))

/-- The firing part of the loop body with the two notifier calls in their
place, after the status update and before the broadcast; `email` and `webhook`
are what the two calls leave behind for the new alert.  The calls are not
awaited, so the branch reads nothing of their promises; a call that threw into
the caller would end `evaluateMetric` there, with the alert inserted and the
status written, nothing broadcast and the tracker entry kept.  The second
component lists the calls made, in call order. -/
def fireRuleCalling (email webhook : Alert → AsyncCall) (serverId : String) (value : ℚ)
    (now : Int) (rule : Rule) (s : State) : Outcome × List AsyncCall :=
  let key := trackerKey rule.id serverId
  let lastAlert := getLastFiredAlert s.alerts rule.id serverId
  if inCooldown lastAlert rule now then (⟨s, false⟩, [])
  else
    let s2 := { s with alerts := resolveStale lastAlert now s.alerts }
    match getServer s2.servers serverId with
    | none => (⟨s2, true⟩, [])
    | some _ =>
      let newAlert := mkAlert (nextAlertId s2.alerts) rule serverId value now
      let s3 := { s2 with alerts := s2.alerts ++ [newAlert] }
      let s4 := { s3 with servers := statusOnFire rule.severity now serverId s3.servers }
      let e := email newAlert
      if e.throwsIntoCaller then (⟨s4, true⟩, [e])
      else
        let w := webhook newAlert
        if w.throwsIntoCaller then (⟨s4, true⟩, [e, w])
        else
          let s5 := { s4 with events := s4.events ++ [Event.alertNew newAlert] }
          (⟨{ s5 with sustainedSince := trackerDelete s5.sustainedSince key }, false⟩, [e, w])

/-- The firing part of the loop body with the calls of `sendEmail` and
`sendWebhook`. -/
def fireRuleWith (n : Notifier) (serverId : String) (value : ℚ) (now : Int) (rule : Rule)
    (s : State) : Outcome × List AsyncCall :=
  fireRuleCalling (sendEmail n) (sendWebhook n) serverId value now rule s

/-- One iteration of the loop of `evaluateMetric`, with the notifiers. -/
def evalRuleWith (n : Notifier) (serverId : String) (metric : String → Option ℚ) (now : Int)
    (rule : Rule) (s : State) : Outcome × List AsyncCall :=
  if rule.enabled = false then (⟨s, false⟩, [])
  else
    match metric rule.metric with
    | none => (⟨s, false⟩, [])
    | some value =>
      let key := trackerKey rule.id serverId
      if evaluate value rule.operator rule.threshold then
        let s1 := trackSince key now s
        let elapsed := now - (s1.sustainedSince key).getD now
        if elapsed ≥ orDefault rule.duration_s 0 then fireRuleWith n serverId value now rule s1
        else (⟨s1, false⟩, [])
      else (⟨clearRule serverId now rule s, false⟩, [])

/-- The loop over the rules, with the notifiers. -/
def evalRulesWith (n : Notifier) (serverId : String) (metric : String → Option ℚ) (now : Int) :
    List Rule → State → Outcome × List AsyncCall
  | [], s => (⟨s, false⟩, [])
  | rule :: rest, s =>
    let r := evalRuleWith n serverId metric now rule s
    if r.1.threw then r
    else
      let r' := evalRulesWith n serverId metric now rest r.1.state
      (r'.1, r.2 ++ r'.2)

/-- Function `evaluateMetric` with the notifiers: the outcome and the notifier
calls it made. -/
def evaluateMetricWith (n : Notifier) (serverId : String) (metric : String → Option ℚ)
    (now : Int) (s : State) : Outcome × List AsyncCall :=
  evalRulesWith n serverId metric now (getRulesForServer s.rules serverId) s

/-! ## Specification vocabulary -/

/-- The rows of `alerts` that belong to the rule and host. -/
def alertsFor (ruleId serverId : String) (s : State) : List Alert :=
  s.alerts.filter (alertMatches ruleId serverId)

/-- The rows of `alerts` of the rule and host with status active. -/
def activeFor (ruleId serverId : String) (s : State) : List Alert :=
  (alertsFor ruleId serverId s).filter (fun a => decide (a.status = AlertStatus.active))

/-- An update of alert rows that leaves the columns read by
`getLastFiredAlert` alone. -/
def KeepsKey (f : Alert → Alert) : Prop :=
  ∀ a, (f a).id = a.id ∧ (f a).rule_id = a.rule_id ∧ (f a).server_id = a.server_id ∧
    (f a).fired_at = a.fired_at

/-- The primary key of `alerts`: no two rows share a rowid. -/
def AlertIdsUnique (alerts : List Alert) : Prop :=
  (alerts.map (fun a => a.id)).Nodup

instance (alerts : List Alert) : Decidable (AlertIdsUnique alerts) :=
  inferInstanceAs (Decidable ((alerts.map (fun a : Alert => a.id)).Nodup))

/-- Invariant of the alert table at clock `t`: rowids are unique, no row was
fired after `t`, and an active row is the last fired row of its rule and
host. -/
def AlertInv (t : Int) (alerts : List Alert) : Prop :=
  AlertIdsUnique alerts ∧ (∀ a ∈ alerts, a.fired_at ≤ t) ∧
    ∀ a ∈ alerts, a.status = AlertStatus.active →
      ∃ r, a.rule_id = some r ∧ getLastFiredAlert alerts r a.server_id = some a

/-- States reachable from an empty alert table by `evaluateMetric` calls at
non-decreasing times and operator acknowledge and resolve actions; the index
is the time of the latest `evaluateMetric` call.  The constructor `other`
stands for the steps that leave the alert table alone (register, disconnect,
heartbeat sweep, the writes of the metrics handler). -/
inductive Reachable : Int → State → Prop where
  | init (t : Int) (s : State) (h : s.alerts = []) : Reachable t s
  | eval {t : Int} {s : State} (serverId : String) (metric : String → Option ℚ) (now : Int)
      (hs : Reachable t s) (hnow : t ≤ now) :
      Reachable now (evaluateMetric serverId metric now s).state
  | acknowledge {t : Int} {s : State} (id : Nat) (now : Int) (hs : Reachable t s) :
      Reachable t (acknowledgeRoute id now s)
  | resolve {t : Int} {s : State} (id : Nat) (now : Int) (hs : Reachable t s) :
      Reachable t (resolveRoute id now s)
  | other {t : Int} {s : State} (s' : State) (hs : Reachable t s) (h : s'.alerts = s.alerts) :
      Reachable t s'

/-- The rows and the tracker entry of the rule and host are the same in the
two states. -/
def SameFor (ruleId serverId : String) (s s' : State) : Prop :=
  alertsFor ruleId serverId s' = alertsFor ruleId serverId s ∧
    s'.sustainedSince (trackerKey ruleId serverId) = s.sustainedSince (trackerKey ruleId serverId)

/-- A sequence of samples of one host, each with the time it is evaluated at,
processed in order by one `evaluateMetric` call per sample. -/
def runSamples (serverId : String) (samples : List ((String → Option ℚ) × Int)) (s : State) :
    State :=
  samples.foldl (fun st p => (evaluateMetric serverId p.1 p.2 st).state) s

/-- The sample satisfies the condition of the rule: the metric is present and
`evaluate` holds. -/
def Triggers (rule : Rule) (metric : String → Option ℚ) : Prop :=
  ∃ v, metric rule.metric = some v ∧ evaluate v rule.operator rule.threshold = true

/-! ## Concrete scenario of the specification -/

/-- The rule of the scenario: cpu_pct above 90 for 30 seconds, critical,
cooldown 300, global. -/
def cpuRule : Rule :=
  { id := "r1", server_id := none, metric := "cpu_pct", operator := "gt", threshold := 90,
    duration_s := some 30, severity := "critical", enabled := true, cooldown_s := some 300 }

/-- A sample that reports only `cpu_pct`. -/
def cpuSample (v : ℚ) : String → Option ℚ :=
  fun field => if field = "cpu_pct" then some v else none

/-- A state with the host `h1` online, the rule of the scenario and no
alert. -/
def cpuState : State :=
  { servers := [{ id := "h1", name := "h1", status := HostStatus.online, last_seen := some 0 }],
    rules := [cpuRule] }

/-- Samples of the given value, one per second, at times 0 to `n - 1`. -/
def cpuSamples (v : ℚ) (n : Nat) : List ((String → Option ℚ) × Int) :=
  (List.range n).map (fun i => (cpuSample v, (i : Int)))

/-- The rule of the scenario with duration 0. -/
def quickRule : Rule := { cpuRule with duration_s := some 0 }

/-- The state of the scenario with the rule of duration 0. -/
def quickState : State := { cpuState with rules := [quickRule] }

/-- A trace on `quickState`: a sample of 95 at t = 7 fires, the operator
acknowledges alert 1 at t = 8, a sample of 95 at t = 9 fires again. -/
def quickTrace : State :=
  (evaluateMetric "h1" (cpuSample 95) 9
    (acknowledgeRoute 1 8 (evaluateMetric "h1" (cpuSample 95) 7 quickState).state)).state

/-- The state of the scenario at t = 100 with the given alert rows and the
condition sustained since t = 60. -/
def sustainedState (alerts : List Alert) : State :=
  { cpuState with
    alerts := alerts
    sustainedSince := trackerSet (fun _ => none) (trackerKey cpuRule.id "h1") 60 }

/-- The alert the scenario fires at t = 30, with the given status. -/
def firedAlert (status : AlertStatus) : Alert :=
  { mkAlert 1 cpuRule "h1" 95 30 with status := status }

/-- The operations that write the alert table. -/
inductive Op where
  | eval (serverId : String) (metric : String → Option ℚ) (now : Int)
  | acknowledge (id : Nat) (now : Int)
  | resolve (id : Nat) (now : Int)

/-- The state after an operation. -/
def Op.run (op : Op) (s : State) : State :=
  match op with
  | Op.eval serverId metric now => (evaluateMetric serverId metric now s).state
  | Op.acknowledge id now => acknowledgeRoute id now s
  | Op.resolve id now => resolveRoute id now s

/-- The operation is an operator acknowledge of the alert with this id. -/
def Op.acknowledges (op : Op) (id : Nat) : Bool :=
  match op with
  | Op.acknowledge i _ => decide (i = id)
  | _ => false

/-- The alert table `l'` continues `l`: every row of `l` is at its place in
`l'` with its id, and with its status unless it was resolved; the rows added
have larger ids than the rows of `l`. -/
def Grows (l l' : List Alert) : Prop :=
  (∀ (i : Nat) (a : Alert), l[i]? = some a → ∃ a' : Alert, l'[i]? = some a' ∧ a'.id = a.id ∧
    (a'.status = a.status ∨ a'.status = AlertStatus.resolved)) ∧
  (∀ (j : Nat) (b : Alert), l.length ≤ j → l'[j]? = some b → ∀ a ∈ l, a.id < b.id)

/-- The row the offline detection writes for a stale host. -/
def markOffline (now : Int) (row : Server) : Server :=
  { row with status := HostStatus.offline, last_seen := some now }

/-- Sweeps at the given times, one after the other, with no message in
between. -/
def sweeps (times : List Int) (s : State) : State :=
  times.foldl (fun st t => heartbeatSweep t st) s

/-- The host `h1`, online and last seen at t = 100. -/
def silentHost : Server :=
  { id := "h1", name := "web", status := HostStatus.online, last_seen := some 100 }

/-- Three hosts at t = 161: `h1` online and silent for 61 seconds, `h2`
online and seen 11 seconds ago, `h3` offline. -/
def silentState : State :=
  { servers :=
      [silentHost,
       { id := "h2", name := "db", status := HostStatus.online, last_seen := some 150 },
       { id := "h3", name := "cache", status := HostStatus.offline, last_seen := some 10 }] }

/-- A trace of the whole server from a state with the rule of duration 0 and
no host: the agent of `h1` registers at t = 0 and reports cpu_pct 95 at t = 5
(alert 1 fires, critical), the operator resolves alert 1 at t = 6, and the
agent reports cpu_pct 10 at t = 7. -/
def operatorTrace : State :=
  let s0 : State := { rules := [quickRule] }
  let s1 := (onRegister 1 { id := "h1", name := some "web", hostname := none } 0 s0).state
  let s2 := (onMetrics 1 { cpu_pct := some 95 } 5 5 s1).state
  let s3 := resolveRoute 1 6 s2
  (onMetrics 1 { cpu_pct := some 10 } 7 7 s3).state

/-- The entries a message appends to the log buffer of its host. -/
def Msg.logEntries (m : Msg) : List LogEntry :=
  match m with
  | Msg.log entry => [entry]
  | Msg.logsSnapshot entries => entries.getD []
  | _ => []

/-- The message is a `log` or a `logs:snapshot` message. -/
def Msg.isLog (m : Msg) : Bool :=
  match m with
  | Msg.log _ => true
  | Msg.logsSnapshot _ => true
  | _ => false

/-- A sequence of messages on one agent connection, each with its clock
readings, handled in order. -/
def runAgent (conn : Nat) (msgs : List (Msg × Clock)) (s : State) : State :=
  msgs.foldl (fun st m => (onAgentMessage conn (some m.1) m.2 st).state) s

/-- The log entry number `i` of the examples. -/
def logLine (i : Nat) : LogEntry :=
  { ts := i, message := "line", level := "info" }

/-- A state in which connection 1 is the registered agent of `h1`, whose log
buffer is empty. -/
def loggingState : State :=
  { cpuState with
    connKind := fun c => if c = 1 then some ConnKind.agent else none
    connServerId := fun c => if c = 1 then some "h1" else none
    agentClients := fun k => if k = "h1" then some 1 else none
    serverLogs := fun k => if k = "h1" then some [] else none }

/-- A state with three dashboard connections, of which connection 2 is
closed (`readyState` 3), and the log buffer of `h1` holding three lines. -/
def viewerState : State :=
  { cpuState with
    connKind := fun c => if c = 1 ∨ c = 2 ∨ c = 3 then some ConnKind.dashboard else none
    dashboardClients := [1, 2, 3]
    readyState := fun c => if c = 2 then 3 else 1
    serverLogs := fun k => if k = "h1" then some [logLine 1, logLine 2, logLine 3] else none }

/-- The descriptor of host `h1` with the name `web`. -/
def webDescr : ServerDescr :=
  { id := "h1", name := some "web", hostname := some "web.local" }

/-- Two agent connections register the same host `h1`, connection 1 at t = 0
and connection 2 at t = 10. -/
def supersededState : State :=
  let s1 := onConnection 2 (some "agent") (onConnection 1 (some "agent") {})
  let s2 := onMessage 1 (some (Msg.register (some webDescr))) ⟨0, 0, 0⟩ s1
  onMessage 2 (some (Msg.register (some webDescr))) ⟨10, 10, 10000⟩ s2

/-- A descriptor of host `h1` with neither name nor hostname. -/
def namelessDescr : ServerDescr :=
  { id := "h1", name := none, hostname := none }

/-- Host `h1` is registered by connection 1; connection 2 is a fresh agent
connection that sends a register message for `h1` with neither name nor
hostname at t = 20. -/
def namelessRegister : Outcome :=
  onAgentMessage 2 (some (Msg.register (some namelessDescr))) ⟨20, 20, 20000⟩
    (onConnection 2 (some "agent") loggingState)

/-- A notifier with mail and webhook configured whose transports succeed. -/
def notifierOk : Notifier :=
  { mailConfigured := true, webhookConfigured := true,
    sendMail := fun _ => TransportResult.fulfils, fetch := fun _ => TransportResult.fulfils }

/-- A notifier with mail and webhook configured whose transports fail:
`sendMail` rejects and `fetch` throws. -/
def notifierDown : Notifier :=
  { mailConfigured := true, webhookConfigured := true,
    sendMail := fun _ => TransportResult.rejects, fetch := fun _ => TransportResult.throws }

/-- The empty server with one connection opened with `role=agent`. -/
def agentOnly : State :=
  onConnection 1 (some "agent") {}

/-- The rule as the specification reads a missing cooldown: a `cooldown_s` of
null or 0 replaced by 300, every other rule unchanged. -/
def Rule.normalizeCooldown (rule : Rule) : Rule :=
  if rule.cooldown_s = none ∨ rule.cooldown_s = some 0 then { rule with cooldown_s := some 300 }
  else rule

/-- The part of the metrics handler before the rule evaluation: the insert
into `metrics` and the write of status and `last_seen`. -/
def ingestSample (serverId : String) (metricRow : MetricRow) (now : Int) (s : State) : State :=
  let s1 := { s with metrics := s.metrics ++ [metricRow] }
  { s1 with servers :=
      updateServerStatus (keepStatus (getServer s1.servers serverId)) now serverId s1.servers }

/-- The status of the host, when it has a row. -/
def hostStatus (servers : List Server) (id : String) : Option HostStatus :=
  (getServer servers id).map (fun x => x.status)

/-- A fresh agent connection 2 next to the registered agent of `h1`, with one
active alert of `h1` and the condition tracked since t = 60. -/
def freshConnState : State :=
  onConnection 2 (some "agent")
    { loggingState with
      alerts := [firedAlert AlertStatus.active]
      sustainedSince := trackerSet (fun _ => none) (trackerKey cpuRule.id "h1") 60 }

/-- The host `h1` of `loggingState` with the given status, last seen at
t = 0. -/
def statusState (st : HostStatus) : State :=
  { loggingState with
    servers := [{ id := "h1", name := "h1", status := st, last_seen := some 0 }] }

/-- The state of a monitored host in alarm: `h1` critical with the agent on
connection 1, one active alert and the condition tracked since t = 60. -/
def alarmState : State :=
  { statusState HostStatus.critical with
    alerts := [firedAlert AlertStatus.active]
    sustainedSince := trackerSet (fun _ => none) (trackerKey cpuRule.id "h1") 60 }

/-- The step from `s` to `s'` wrote at most the host table, the agent
registry (`agentClients` and the `serverId` of connections) and the events:
the alert table, the tracker, the samples, the rules, the details cache, the
viewer side and the content of every log buffer (a missing buffer reads as
empty) are the same. -/
def OnlyHostsAgents (s s' : State) : Prop :=
  s'.alerts = s.alerts ∧ s'.sustainedSince = s.sustainedSince ∧ s'.metrics = s.metrics ∧
  s'.rules = s.rules ∧ s'.serverDetails = s.serverDetails ∧
  s'.connKind = s.connKind ∧ s'.dashboardClients = s.dashboardClients ∧
  s'.readyState = s.readyState ∧ s'.sent = s.sent ∧
  ∀ k, (s'.serverLogs k).getD [] = (s.serverLogs k).getD []

/-- The host of `alarmState` goes offline and comes back: connection 1 closes
at t = 110, the sweep runs at t = 200, and connection 3 registers `h1` again
at t = 210. -/
def offlineCycle : State :=
  (onRegister 3 webDescr 210 (heartbeatSweep 200 (onClose 1 110 alarmState))).state

/-- Some active row of the host has the given severity. -/
def hasActive (alerts : List Alert) (serverId severity : String) : Bool :=
  alerts.any (fun a => decide (a.status = AlertStatus.active) &&
    (decide (a.server_id = serverId) && decide (a.severity = severity)))

/-- The maximum severity among the active rows of the host, read as a host
status: critical over warning over online. -/
def severityStatus (alerts : List Alert) (serverId : String) : HostStatus :=
  if hasActive alerts serverId "critical" then HostStatus.critical
  else if hasActive alerts serverId "warning" then HostStatus.warning
  else HostStatus.online

/-- A second rule for the scenario: mem_pct above 80, duration 0, warning,
cooldown 300, global. -/
def memRule : Rule :=
  { id := "r2", server_id := none, metric := "mem_pct", operator := "gt", threshold := 80,
    duration_s := some 0, severity := "warning", enabled := true, cooldown_s := some 300 }

/-- The warning alert of `memRule` on `h1`, fired at t = 40 with rowid 2. -/
def memAlert : Alert := mkAlert 2 memRule "h1" 85 40

/-- The scenario at t = 100 with both rules, host `h1` critical, and two
active alerts: the critical one of `cpuRule` and the warning one of
`memRule`. -/
def mixedState : State :=
  { servers := [{ id := "h1", name := "h1", status := HostStatus.critical, last_seen := some 90 }],
    rules := [cpuRule, memRule],
    alerts := [firedAlert AlertStatus.active, memAlert] }

/-- The rule of the scenario with `cooldown_s = 0`. -/
def zeroCooldownRule : Rule := { cpuRule with cooldown_s := some 0 }

/-- The scenario at t = 100 with the rule of cooldown 0: the alert fired at
t = 30 is active and the condition has been sustained since t = 60. -/
def zeroCooldownState : State :=
  { sustainedState [firedAlert AlertStatus.active] with rules := [zeroCooldownRule] }

/-- A call for the host and sample skips the rule: the rule is disabled, is
scoped to another host, or its metric is absent from the sample. -/
def Skipped (rule : Rule) (serverId : String) (metric : String → Option ℚ) : Prop :=
  rule.enabled = false ∨ (rule.server_id ≠ none ∧ rule.server_id ≠ some serverId) ∨
    metric rule.metric = none

/-- The state with the rule taken out of the rule table. -/
def withoutRule (rule : Rule) (s : State) : State :=
  { s with rules := s.rules.filter (fun q => decide (q ≠ rule)) }

/-- The status the fire branch leaves on a host row whose status was `old`:
a critical rule writes critical, a warning rule writes warning unless the row
is critical, any other severity writes nothing. -/
def fireStatus (severity : String) (old : HostStatus) : HostStatus :=
  if severity = "critical" then HostStatus.critical
  else if severity = "warning" then
    (if old ≠ HostStatus.critical then HostStatus.warning else old)
  else old

/-- The rule fires on the sample in state `s`: it is enabled, the value `v`
of its metric satisfies the condition, the sustained time has reached the
duration and no cooldown suppresses it. -/
def Fires (serverId : String) (metric : String → Option ℚ) (now : Int) (rule : Rule)
    (s : State) (v : ℚ) : Prop :=
  rule.enabled = true ∧ metric rule.metric = some v ∧
  evaluate v rule.operator rule.threshold = true ∧
  orDefault rule.duration_s 0 ≤
    now - (s.sustainedSince (trackerKey rule.id serverId)).getD now ∧
  inCooldown (getLastFiredAlert s.alerts rule.id serverId) rule now = false

/-- The call on a rule table that holds the two rules in this order. -/
def evalPair (serverId : String) (metric : String → Option ℚ) (now : Int)
    (first second : Rule) (s : State) : Outcome :=
  evaluateMetric serverId metric now { s with rules := [first, second] }

/-- After the call `o` on state `s` the alert table has two more rows, among
them one row for each of the two rules, with distinct fresh ids. -/
def TwoFired (serverId : String) (now : Int) (r1 r2 : Rule) (v1 v2 : ℚ) (s : State)
    (o : Outcome) : Prop :=
  o.threw = false ∧ o.state.alerts.length = s.alerts.length + 2 ∧
  ∃ id1 id2 : Nat, id1 ≠ id2 ∧ (∀ b ∈ s.alerts, b.id < id1 ∧ b.id < id2) ∧
    mkAlert id1 r1 serverId v1 now ∈ o.state.alerts ∧
    mkAlert id2 r2 serverId v2 now ∈ o.state.alerts

/-- A sample that reports cpu_pct 95 and mem_pct 85. -/
def bothSample : String → Option ℚ :=
  fun field => if field = "cpu_pct" then some 95 else if field = "mem_pct" then some 85 else none

/-- The host `h1` online with no alert and an empty rule table, into which
`evalPair` puts the two rules. -/
def pairState : State := { cpuState with rules := [] }

/-- A trace of the whole server with the rules `quickRule` (critical) and
`memRule` (warning): the agent of `h1` registers on connection 1 at t = 0 and
reports cpu_pct 95 at t = 5 (alert 1 fires, critical); the connection closes
at t = 6; the agent registers again on connection 2 at t = 7 and reports
cpu_pct 95 and mem_pct 85 at t = 8. -/
def reconnectTrace : State :=
  let s0 : State := { rules := [quickRule, memRule] }
  let s1 := (onRegister 1 webDescr 0 s0).state
  let s2 := (onMetrics 1 { cpu_pct := some 95 } 5 5 s1).state
  let s3 := onClose 1 6 s2
  let s4 := (onRegister 2 webDescr 7 s3).state
  (onMetrics 2 { cpu_pct := some 95, mem_pct := some 85 } 8 8 s4).state

end WatchX

/-! # Proofs -/

namespace WatchX

/-! ## The last fired alert -/

theorem laterOf_isSome (best : Option Alert) (a : Alert) : (laterOf best a).isSome = true := by
  unfold laterOf
  cases best with
  | none => rfl
  | some b => dsimp only; split <;> rfl

theorem foldl_laterOf_some (l : List Alert) (b : Alert) :
    ∃ c, l.foldl laterOf (some b) = some c ∧ (c = b ∨ c ∈ l) := by
  induction l generalizing b with
  | nil => exact ⟨b, rfl, Or.inl rfl⟩
  | cons a l ih =>
    simp only [List.foldl_cons]
    by_cases hab : firedAfter a b = true
    · have : laterOf (some b) a = some a := by simp [laterOf, hab]
      rw [this]
      obtain ⟨c, hc, hmem⟩ := ih a
      refine ⟨c, hc, Or.inr ?_⟩
      rcases hmem with h | h
      · simp [h]
      · simp [h]
    · have : laterOf (some b) a = some b := by simp [laterOf, hab]
      rw [this]
      obtain ⟨c, hc, hmem⟩ := ih b
      refine ⟨c, hc, ?_⟩
      rcases hmem with h | h
      · exact Or.inl h
      · exact Or.inr (by simp [h])

theorem foldl_laterOf_none_mem (l : List Alert) (c : Alert)
    (h : l.foldl laterOf none = some c) : c ∈ l := by
  cases l with
  | nil => simp at h
  | cons a l =>
    simp only [List.foldl_cons, laterOf] at h
    obtain ⟨c', hc', hmem⟩ := foldl_laterOf_some l a
    rw [hc'] at h
    cases h
    rcases hmem with h | h
    · simp [h]
    · simp [h]

theorem foldl_laterOf_none_isSome (l : List Alert) (hl : l ≠ []) :
    (l.foldl laterOf none).isSome = true := by
  cases l with
  | nil => exact absurd rfl hl
  | cons a l =>
    simp only [List.foldl_cons, laterOf]
    obtain ⟨c, hc, _⟩ := foldl_laterOf_some l a
    rw [hc]; rfl

theorem getLastFiredAlert_mem {alerts : List Alert} {r h : String} {a : Alert}
    (hlast : getLastFiredAlert alerts r h = some a) :
    a ∈ alerts ∧ alertMatches r h a = true := by
  have := foldl_laterOf_none_mem _ _ hlast
  exact List.mem_filter.mp this

theorem getLastFiredAlert_none {alerts : List Alert} {r h : String}
    (hlast : getLastFiredAlert alerts r h = none) :
    alerts.filter (alertMatches r h) = [] := by
  by_contra hne
  have := foldl_laterOf_none_isSome _ hne
  unfold getLastFiredAlert at hlast
  rw [hlast] at this
  simp at this

theorem getLastFiredAlert_congr {l₁ l₂ : List Alert} {r h : String}
    (heq : l₁.filter (alertMatches r h) = l₂.filter (alertMatches r h)) :
    getLastFiredAlert l₁ r h = getLastFiredAlert l₂ r h := by
  unfold getLastFiredAlert
  rw [heq]

theorem alertMatches_keepsKey {f : Alert → Alert} (hf : KeepsKey f) (r h : String) (a : Alert) :
    alertMatches r h (f a) = alertMatches r h a := by
  obtain ⟨_, h2, h3, _⟩ := hf a
  simp [alertMatches, h2, h3]

theorem firedAfter_keepsKey {f : Alert → Alert} (hf : KeepsKey f) (a b : Alert) :
    firedAfter (f a) (f b) = firedAfter a b := by
  obtain ⟨a1, _, _, a4⟩ := hf a
  obtain ⟨b1, _, _, b4⟩ := hf b
  simp [firedAfter, a1, a4, b1, b4]

theorem foldl_laterOf_map {f : Alert → Alert} (hf : KeepsKey f) (l : List Alert)
    (init : Option Alert) :
    (l.map f).foldl laterOf (init.map f) = (l.foldl laterOf init).map f := by
  induction l generalizing init with
  | nil => rfl
  | cons a l ih =>
    simp only [List.map_cons, List.foldl_cons]
    have : laterOf (init.map f) (f a) = (laterOf init a).map f := by
      cases init with
      | none => rfl
      | some b =>
        simp only [laterOf, Option.map_some', firedAfter_keepsKey hf]
        split <;> rfl
    rw [this]
    exact ih _

theorem filter_map_keepsKey {f : Alert → Alert} (hf : KeepsKey f) (r h : String)
    (l : List Alert) :
    (l.map f).filter (alertMatches r h) = (l.filter (alertMatches r h)).map f := by
  induction l with
  | nil => rfl
  | cons a l ih =>
    simp only [List.map_cons, List.filter_cons, alertMatches_keepsKey hf]
    split
    · simp [ih]
    · exact ih

theorem getLastFiredAlert_map {f : Alert → Alert} (hf : KeepsKey f) (l : List Alert)
    (r h : String) :
    getLastFiredAlert (l.map f) r h = (getLastFiredAlert l r h).map f := by
  unfold getLastFiredAlert
  rw [filter_map_keepsKey hf]
  exact foldl_laterOf_map hf _ none

theorem getLastFiredAlert_append_other (l : List Alert) (a : Alert) (r h : String)
    (hno : alertMatches r h a = false) :
    getLastFiredAlert (l ++ [a]) r h = getLastFiredAlert l r h := by
  unfold getLastFiredAlert
  simp [List.filter_append, hno]

theorem getLastFiredAlert_append_new (l : List Alert) (a : Alert) (r h : String)
    (hyes : alertMatches r h a = true)
    (hlater : ∀ b ∈ l, firedAfter a b = true) :
    getLastFiredAlert (l ++ [a]) r h = some a := by
  unfold getLastFiredAlert
  simp only [List.filter_append, List.filter_cons, hyes, if_true, List.filter_nil,
    List.foldl_append, List.foldl_cons, List.foldl_nil]
  cases hb : (l.filter (alertMatches r h)).foldl laterOf none with
  | none => rfl
  | some b =>
    have hmem := (List.mem_filter.mp (foldl_laterOf_none_mem _ _ hb)).1
    simp [laterOf, hlater b hmem]

/-! ## Fresh rowids -/

theorem le_foldl_max (l : List Nat) (init : Nat) :
    init ≤ l.foldl max init ∧ ∀ x ∈ l, x ≤ l.foldl max init := by
  induction l generalizing init with
  | nil => simp
  | cons y l ih =>
    simp only [List.foldl_cons, List.mem_cons]
    obtain ⟨h1, h2⟩ := ih (max init y)
    refine ⟨le_trans (le_max_left _ _) h1, ?_⟩
    intro x hx
    rcases hx with rfl | hx
    · exact le_trans (le_max_right _ _) h1
    · exact h2 x hx

theorem lt_nextAlertId {alerts : List Alert} {a : Alert} (ha : a ∈ alerts) :
    a.id < nextAlertId alerts := by
  unfold nextAlertId
  have := (le_foldl_max (alerts.map (fun a => a.id)) 0).2 a.id (List.mem_map_of_mem _ ha)
  omega

/-! ## Updates of alert rows -/

theorem resolveAlert_keepsKey (now : Int) (id : Nat) :
    KeepsKey (fun a : Alert =>
      if a.id = id then { a with status := AlertStatus.resolved, resolved_at := some now } else a) := by
  intro a
  dsimp only
  split <;> simp

theorem ackAlert_keepsKey (now : Int) (id : Nat) :
    KeepsKey (fun a : Alert =>
      if a.id = id then { a with status := AlertStatus.acknowledged, ack_at := some now } else a) := by
  intro a
  dsimp only
  split <;> simp

theorem map_ids_keepsKey {f : Alert → Alert} (hf : KeepsKey f) (l : List Alert) :
    (l.map f).map (fun a => a.id) = l.map (fun a => a.id) := by
  rw [List.map_map]
  apply List.map_congr_left
  intro a _
  exact (hf a).1

theorem alertInv_map {f : Alert → Alert} (hf : KeepsKey f)
    (hact : ∀ a, (f a).status = AlertStatus.active → f a = a)
    {t : Int} {l : List Alert} (hinv : AlertInv t l) : AlertInv t (l.map f) := by
  obtain ⟨hid, hfired, hlast⟩ := hinv
  refine ⟨?_, ?_, ?_⟩
  · unfold AlertIdsUnique
    rw [map_ids_keepsKey hf]
    exact hid
  · intro a' ha'
    obtain ⟨a, ha, rfl⟩ := List.mem_map.mp ha'
    rw [(hf a).2.2.2]
    exact hfired a ha
  · intro a' ha' hst
    obtain ⟨a, ha, rfl⟩ := List.mem_map.mp ha'
    have hfa := hact a hst
    rw [hfa] at hst ⊢
    obtain ⟨r, hr, hl⟩ := hlast a ha hst
    refine ⟨r, hr, ?_⟩
    rw [getLastFiredAlert_map hf, hl, Option.map_some', hfa]

theorem alertInv_resolveAlert {t : Int} {l : List Alert} (now : Int) (id : Nat)
    (hinv : AlertInv t l) : AlertInv t (resolveAlert now id l) := by
  apply alertInv_map (resolveAlert_keepsKey now id) _ hinv
  intro a
  dsimp only
  split
  · intro h; simp at h
  · intro _; rfl

theorem alertInv_ackAlert {t : Int} {l : List Alert} (now : Int) (id : Nat)
    (hinv : AlertInv t l) : AlertInv t (ackAlert now id l) := by
  apply alertInv_map (ackAlert_keepsKey now id) _ hinv
  intro a
  dsimp only
  split
  · intro h; simp at h
  · intro _; rfl

theorem alertInv_mono {t now : Int} {l : List Alert} (hle : t ≤ now) (hinv : AlertInv t l) :
    AlertInv now l :=
  ⟨hinv.1, fun a ha => le_trans (hinv.2.1 a ha) hle, hinv.2.2⟩

theorem alertInv_resolveStale {t : Int} {l : List Alert} (last : Option Alert) (now : Int)
    (hinv : AlertInv t l) : AlertInv t (resolveStale last now l) := by
  unfold resolveStale
  cases last with
  | none => exact hinv
  | some b =>
    dsimp only
    split
    · exact alertInv_resolveAlert now b.id hinv
    · exact hinv

theorem alertMatches_iff {r h : String} {a : Alert} :
    alertMatches r h a = true ↔ a.rule_id = some r ∧ a.server_id = h := by
  simp [alertMatches]

/-- After the stale resolve no row of the rule and host is active. -/
theorem resolveStale_no_active {t : Int} {l : List Alert} (r h : String) (now : Int)
    (hinv : AlertInv t l) :
    ∀ a ∈ resolveStale (getLastFiredAlert l r h) now l,
      alertMatches r h a = true → a.status ≠ AlertStatus.active := by
  intro a ha hm hst
  have key : ∀ a0 ∈ l, alertMatches r h a0 = true → a0.status = AlertStatus.active →
      getLastFiredAlert l r h = some a0 := by
    intro a0 ha0 hm0 hst0
    obtain ⟨r', hr', hl⟩ := hinv.2.2 a0 ha0 hst0
    obtain ⟨h1, h2⟩ := alertMatches_iff.mp hm0
    rw [h1] at hr'
    cases hr'
    rw [h2] at hl
    exact hl
  cases hlast : getLastFiredAlert l r h with
  | none =>
    rw [hlast] at ha
    simp only [resolveStale] at ha
    rw [key a ha hm hst] at hlast
    cases hlast
  | some b =>
    rw [hlast] at ha
    simp only [resolveStale] at ha
    by_cases hb : b.status = AlertStatus.active
    · rw [if_pos hb] at ha
      obtain ⟨a0, ha0, rfl⟩ := List.mem_map.mp ha
      by_cases hid : a0.id = b.id
      · simp [hid] at hst
      · simp only [hid, if_false] at hst hm
        have := key a0 ha0 hm hst
        rw [hlast] at this
        cases this
        exact hid rfl
    · rw [if_neg hb] at ha
      have := key a ha hm hst
      rw [hlast] at this
      cases this
      exact hb hst

theorem alertInv_fire {t now : Int} {l : List Alert} (rule : Rule) (h : String) (v : ℚ)
    (hle : t ≤ now) (hinv : AlertInv t l) :
    AlertInv now
      (resolveStale (getLastFiredAlert l rule.id h) now l ++
        [mkAlert (nextAlertId (resolveStale (getLastFiredAlert l rule.id h) now l)) rule h v now]) := by
  have hno := resolveStale_no_active rule.id h now hinv
  have hinv2 := alertInv_resolveStale (getLastFiredAlert l rule.id h) now hinv
  generalize resolveStale (getLastFiredAlert l rule.id h) now l = l2 at hno hinv2
  obtain ⟨hid, hfired, hlast⟩ := hinv2
  have hnewm : alertMatches rule.id h (mkAlert (nextAlertId l2) rule h v now) = true := by
    simp [alertMatches, mkAlert]
  refine ⟨?_, ?_, ?_⟩
  · unfold AlertIdsUnique at hid ⊢
    rw [List.map_append, List.nodup_append]
    refine ⟨hid, by simp, ?_⟩
    intro x hx hx'
    simp only [List.map_cons, List.map_nil, List.mem_singleton] at hx'
    obtain ⟨b, hb, rfl⟩ := List.mem_map.mp hx
    have := lt_nextAlertId hb
    simp only [mkAlert] at hx'
    omega
  · intro a ha
    rcases List.mem_append.mp ha with ha | ha
    · exact le_trans (hfired a ha) hle
    · simp only [List.mem_singleton] at ha
      subst ha
      simp [mkAlert]
  · intro a ha hst
    rcases List.mem_append.mp ha with ha | ha
    · obtain ⟨r', hr', hl⟩ := hlast a ha hst
      refine ⟨r', hr', ?_⟩
      rw [getLastFiredAlert_append_other _ _ _ _ ?_]
      · exact hl
      · by_contra hcon
        have hcon : alertMatches r' a.server_id (mkAlert (nextAlertId l2) rule h v now) = true := by
          simpa using hcon
        obtain ⟨h1, h2⟩ := alertMatches_iff.mp hcon
        simp only [mkAlert, Option.some.injEq] at h1 h2
        apply hno a ha _ hst
        rw [alertMatches_iff, hr', h1, h2]
        exact ⟨rfl, rfl⟩
    · simp only [List.mem_singleton] at ha
      subst ha
      refine ⟨rule.id, by simp [mkAlert], ?_⟩
      have : (mkAlert (nextAlertId l2) rule h v now).server_id = h := rfl
      rw [this]
      apply getLastFiredAlert_append_new _ _ _ _ hnewm
      intro b hb
      have h1 := lt_nextAlertId hb
      have h2 := le_trans (hfired b hb) hle
      simp only [firedAfter, mkAlert, Bool.or_eq_true, decide_eq_true_eq, Bool.and_eq_true]
      rcases lt_or_eq_of_le h2 with h3 | h3
      · exact Or.inl h3
      · exact Or.inr ⟨h3.symm, h1⟩

/-! ## The alert table across one rule evaluation -/

theorem clearRule_alerts (h : String) (now : Int) (rule : Rule) (s : State) :
    (clearRule h now rule s).alerts =
      resolveStale (getLastFiredAlert s.alerts rule.id h) now s.alerts := by
  unfold clearRule resolveStale
  dsimp only
  cases getLastFiredAlert s.alerts rule.id h with
  | none => rfl
  | some b =>
    dsimp only
    split <;> rfl

theorem fireRule_alerts (h : String) (v : ℚ) (now : Int) (rule : Rule) (s : State) :
    (fireRule h v now rule s).state.alerts = s.alerts ∨
    (fireRule h v now rule s).state.alerts =
      resolveStale (getLastFiredAlert s.alerts rule.id h) now s.alerts ∨
    (fireRule h v now rule s).state.alerts =
      resolveStale (getLastFiredAlert s.alerts rule.id h) now s.alerts ++
        [mkAlert (nextAlertId (resolveStale (getLastFiredAlert s.alerts rule.id h) now s.alerts))
          rule h v now] := by
  unfold fireRule
  dsimp only
  split
  · exact Or.inl rfl
  · split
    · exact Or.inr (Or.inl rfl)
    · exact Or.inr (Or.inr rfl)

theorem trackSince_alerts (key : String) (now : Int) (s : State) :
    (trackSince key now s).alerts = s.alerts := by
  unfold trackSince
  split <;> rfl

theorem evalRule_alerts (h : String) (m : String → Option ℚ) (now : Int) (rule : Rule)
    (s : State) :
    (evalRule h m now rule s).state.alerts = s.alerts ∨
    (evalRule h m now rule s).state.alerts =
      resolveStale (getLastFiredAlert s.alerts rule.id h) now s.alerts ∨
    ∃ v, (evalRule h m now rule s).state.alerts =
      resolveStale (getLastFiredAlert s.alerts rule.id h) now s.alerts ++
        [mkAlert (nextAlertId (resolveStale (getLastFiredAlert s.alerts rule.id h) now s.alerts))
          rule h v now] := by
  unfold evalRule
  split
  · exact Or.inl rfl
  · split
    · exact Or.inl rfl
    · rename_i v _
      dsimp only
      have hs1 := trackSince_alerts (trackerKey rule.id h) now s
      generalize trackSince (trackerKey rule.id h) now s = s1 at hs1
      split
      · split
        · rw [← hs1]
          rcases fireRule_alerts h v now rule s1 with h1 | h1 | h1
          · exact Or.inl h1
          · exact Or.inr (Or.inl h1)
          · exact Or.inr (Or.inr ⟨v, h1⟩)
        · exact Or.inl hs1
      · exact Or.inr (Or.inl (clearRule_alerts h now rule s))

theorem alertInv_evalRule {now : Int} (h : String) (m : String → Option ℚ) (rule : Rule)
    {s : State} (hinv : AlertInv now s.alerts) :
    AlertInv now (evalRule h m now rule s).state.alerts := by
  rcases evalRule_alerts h m now rule s with h1 | h1 | ⟨v, h1⟩
  · rw [h1]; exact hinv
  · rw [h1]; exact alertInv_resolveStale _ now hinv
  · rw [h1]; exact alertInv_fire rule h v (le_refl now) hinv

theorem alertInv_evalRules {now : Int} (h : String) (m : String → Option ℚ) (rules : List Rule)
    {s : State} (hinv : AlertInv now s.alerts) :
    AlertInv now (evalRules h m now rules s).state.alerts := by
  induction rules generalizing s with
  | nil => exact hinv
  | cons rule rest ih =>
    unfold evalRules
    dsimp only
    split
    · exact alertInv_evalRule h m rule hinv
    · exact ih (alertInv_evalRule h m rule hinv)

theorem alertInv_evaluateMetric {t now : Int} (h : String) (m : String → Option ℚ)
    {s : State} (hle : t ≤ now) (hinv : AlertInv t s.alerts) :
    AlertInv now (evaluateMetric h m now s).state.alerts :=
  alertInv_evalRules h m _ (alertInv_mono hle hinv)

theorem alertInv_of_reachable {t : Int} {s : State} (hs : Reachable t s) :
    AlertInv t s.alerts := by
  induction hs with
  | init t s h =>
    rw [h]
    exact ⟨List.nodup_nil, by simp, by simp⟩
  | eval serverId metric now _ hnow ih => exact alertInv_evaluateMetric serverId metric hnow ih
  | acknowledge id now _ ih => exact alertInv_ackAlert now id ih
  | resolve id now _ ih => exact alertInv_resolveAlert now id ih
  | other s' _ h ih => rw [h]; exact ih

theorem alertIdsUnique_nodup {l : List Alert} (h : AlertIdsUnique l) : l.Nodup :=
  List.Nodup.of_map _ h

theorem length_le_one_of_all_eq {α : Type} {l : List α} (hnd : l.Nodup)
    (hall : ∀ x ∈ l, ∀ y ∈ l, x = y) : l.length ≤ 1 := by
  match l, hnd, hall with
  | [], _, _ => simp
  | [_], _, _ => simp
  | x :: y :: rest, hnd, hall =>
    exfalso
    have hxy : x = y := hall x (by simp) y (by simp)
    subst hxy
    simp at hnd

theorem activeFor_length_le_one {t : Int} {alerts : List Alert} (hinv : AlertInv t alerts)
    (r h : String) (s : State) (hs : s.alerts = alerts) : (activeFor r h s).length ≤ 1 := by
  subst hs
  apply length_le_one_of_all_eq
  · exact ((alertIdsUnique_nodup hinv.1).filter _).filter _
  · have key : ∀ x ∈ activeFor r h s, getLastFiredAlert s.alerts r h = some x := by
      intro x hx
      obtain ⟨hx1, hx2⟩ := List.mem_filter.mp hx
      obtain ⟨hx3, hx4⟩ := List.mem_filter.mp hx1
      obtain ⟨r', hr', hl⟩ := hinv.2.2 x hx3 (by simpa using hx2)
      obtain ⟨h1, h2⟩ := alertMatches_iff.mp hx4
      rw [h1] at hr'
      cases hr'
      rw [h2] at hl
      exact hl
    intro x hx y hy
    have := (key x hx).symm.trans (key y hy)
    exact Option.some.inj this

/-! ## C1 -/

/-- C1: in every state reachable from an empty alert table by `evaluateMetric`
calls at non-decreasing times and operator acknowledge and resolve actions, at
most one alert instance with status active exists for each rule and host. -/
theorem at_most_one_active (t : Int) (s : State) (hs : Reachable t s) (ruleId serverId : String) :
    (activeFor ruleId serverId s).length ≤ 1 :=
  activeFor_length_le_one (alertInv_of_reachable hs) ruleId serverId s rfl

/-- Witness of C1: after a firing, an acknowledge and a second firing the
rule and host have two instances, one of them active. -/
theorem at_most_one_active_witness :
    (activeFor "r1" "h1" quickTrace).length ≤ 1 ∧
    (alertsFor "r1" "h1" quickTrace).map (fun a => (a.id, a.status)) =
      [(1, AlertStatus.acknowledged), (2, AlertStatus.active)] :=
  ⟨at_most_one_active 9 quickTrace
      (Reachable.eval "h1" (cpuSample 95) 9
        (Reachable.acknowledge 1 8
          (Reachable.eval "h1" (cpuSample 95) 7 (Reachable.init 0 quickState rfl) (by decide)))
        (by decide))
      "r1" "h1",
    by decide⟩

/-! ## Branches of one rule evaluation -/

theorem evalRule_disabled (h : String) (m : String → Option ℚ) (now : Int) (rule : Rule)
    (s : State) (hen : rule.enabled = false) : evalRule h m now rule s = ⟨s, false⟩ := by
  unfold evalRule
  rw [if_pos hen]

theorem evalRule_absent (h : String) (m : String → Option ℚ) (now : Int) (rule : Rule)
    (s : State) (hm : m rule.metric = none) : evalRule h m now rule s = ⟨s, false⟩ := by
  unfold evalRule
  split
  · rfl
  · rw [hm]

theorem evalRule_clear (h : String) (m : String → Option ℚ) (now : Int) (rule : Rule)
    (s : State) (v : ℚ) (hen : rule.enabled = true) (hm : m rule.metric = some v)
    (hc : evaluate v rule.operator rule.threshold = false) :
    evalRule h m now rule s = ⟨clearRule h now rule s, false⟩ := by
  unfold evalRule
  rw [if_neg (by simp [hen]), hm]
  simp [hc]

theorem evalRule_wait (h : String) (m : String → Option ℚ) (now : Int) (rule : Rule)
    (s : State) (v : ℚ) (hen : rule.enabled = true) (hm : m rule.metric = some v)
    (hc : evaluate v rule.operator rule.threshold = true)
    (hel : now - ((trackSince (trackerKey rule.id h) now s).sustainedSince
      (trackerKey rule.id h)).getD now < orDefault rule.duration_s 0) :
    evalRule h m now rule s = ⟨trackSince (trackerKey rule.id h) now s, false⟩ := by
  unfold evalRule
  rw [if_neg (by simp [hen]), hm]
  simp only [hc, if_true]
  rw [if_neg (by omega)]

theorem evalRule_fire (h : String) (m : String → Option ℚ) (now : Int) (rule : Rule)
    (s : State) (v : ℚ) (hen : rule.enabled = true) (hm : m rule.metric = some v)
    (hc : evaluate v rule.operator rule.threshold = true)
    (hel : orDefault rule.duration_s 0 ≤ now - ((trackSince (trackerKey rule.id h) now
      s).sustainedSince (trackerKey rule.id h)).getD now) :
    evalRule h m now rule s = fireRule h v now rule (trackSince (trackerKey rule.id h) now s) := by
  unfold evalRule
  rw [if_neg (by simp [hen]), hm]
  simp only [hc, if_true]
  rw [if_pos (by omega)]

/-! ## Fields a rule evaluation leaves alone -/

theorem trackerKey_left_inj {a b h : String} (hk : trackerKey a h = trackerKey b h) : a = b := by
  unfold trackerKey at hk
  have := String.ext_iff.mp hk
  simp only [String.data_append] at this
  exact String.ext (List.append_cancel_right (List.append_cancel_right this))

theorem trackSince_other (key : String) (now : Int) (s : State) (k : String) (hk : k ≠ key) :
    (trackSince key now s).sustainedSince k = s.sustainedSince k := by
  unfold trackSince
  split
  · rfl
  · simp [trackerSet, hk]

theorem trackSince_servers (key : String) (now : Int) (s : State) :
    (trackSince key now s).servers = s.servers := by
  unfold trackSince
  split <;> rfl

theorem trackSince_events (key : String) (now : Int) (s : State) :
    (trackSince key now s).events = s.events := by
  unfold trackSince
  split <;> rfl

theorem trackSince_rules (key : String) (now : Int) (s : State) :
    (trackSince key now s).rules = s.rules := by
  unfold trackSince
  split <;> rfl

theorem trackSince_key_none (key : String) (now : Int) (s : State)
    (hnone : s.sustainedSince key = none) :
    (trackSince key now s).sustainedSince key = some now := by
  unfold trackSince
  simp [hnone, trackerSet]

theorem trackSince_key_some (key : String) (now : Int) (s : State) (t : Int)
    (hsome : s.sustainedSince key = some t) :
    (trackSince key now s).sustainedSince key = some t := by
  unfold trackSince
  simp [hsome]

theorem updateServerStatus_ids (st : HostStatus) (now : Int) (id : String) (servers : List Server) :
    (updateServerStatus st now id servers).map (fun x => x.id) = servers.map (fun x => x.id) := by
  unfold updateServerStatus
  rw [List.map_map]
  apply List.map_congr_left
  intro a _
  dsimp only [Function.comp]
  split <;> rfl

theorem statusOnFire_ids (sev : String) (now : Int) (id : String) (servers : List Server) :
    (statusOnFire sev now id servers).map (fun x => x.id) = servers.map (fun x => x.id) := by
  unfold statusOnFire
  split
  · exact updateServerStatus_ids _ _ _ _
  · split
    · split
      · split
        · exact updateServerStatus_ids _ _ _ _
        · rfl
      · rfl
    · rfl

theorem getServer_isSome_iff (servers : List Server) (id : String) :
    (getServer servers id).isSome = true ↔ id ∈ servers.map (fun x => x.id) := by
  unfold getServer
  rw [List.find?_isSome]
  simp only [decide_eq_true_eq, List.mem_map]

theorem fireRule_tracker_other (h : String) (v : ℚ) (now : Int) (rule : Rule) (s : State)
    (k : String) (hk : k ≠ trackerKey rule.id h) :
    (fireRule h v now rule s).state.sustainedSince k = s.sustainedSince k := by
  unfold fireRule
  dsimp only
  split
  · rfl
  · split
    · rfl
    · simp [trackerDelete, hk]

theorem fireRule_server_ids (h : String) (v : ℚ) (now : Int) (rule : Rule) (s : State) :
    (fireRule h v now rule s).state.servers.map (fun x => x.id) = s.servers.map (fun x => x.id) := by
  unfold fireRule
  dsimp only
  split
  · rfl
  · split
    · rfl
    · exact statusOnFire_ids _ _ _ _

theorem fireRule_no_throw (h : String) (v : ℚ) (now : Int) (rule : Rule) (s : State)
    (hsrv : h ∈ s.servers.map (fun x => x.id)) : (fireRule h v now rule s).threw = false := by
  unfold fireRule
  dsimp only
  split
  · rfl
  · split
    · rename_i hnone
      have := (getServer_isSome_iff s.servers h).mpr hsrv
      rw [hnone] at this
      simp at this
    · rfl

theorem fireRule_rules (h : String) (v : ℚ) (now : Int) (rule : Rule) (s : State) :
    (fireRule h v now rule s).state.rules = s.rules := by
  unfold fireRule
  dsimp only
  split
  · rfl
  · split <;> rfl

theorem clearRule_tracker_other (h : String) (now : Int) (rule : Rule) (s : State)
    (k : String) (hk : k ≠ trackerKey rule.id h) :
    (clearRule h now rule s).sustainedSince k = s.sustainedSince k := by
  unfold clearRule
  dsimp only
  split
  · simp [trackerDelete, hk]
  · split <;> simp [trackerDelete, hk]

theorem clearRule_tracker_key (h : String) (now : Int) (rule : Rule) (s : State) :
    (clearRule h now rule s).sustainedSince (trackerKey rule.id h) = none := by
  unfold clearRule
  dsimp only
  split
  · simp [trackerDelete]
  · split <;> simp [trackerDelete]

theorem clearRule_server_ids (h : String) (now : Int) (rule : Rule) (s : State) :
    (clearRule h now rule s).servers.map (fun x => x.id) = s.servers.map (fun x => x.id) := by
  unfold clearRule
  dsimp only
  split
  · rfl
  · split
    · exact updateServerStatus_ids _ _ _ _
    · rfl

theorem clearRule_rules (h : String) (now : Int) (rule : Rule) (s : State) :
    (clearRule h now rule s).rules = s.rules := by
  unfold clearRule
  dsimp only
  split
  · rfl
  · split <;> rfl

theorem evalRule_tracker_other (h : String) (m : String → Option ℚ) (now : Int) (rule : Rule)
    (s : State) (k : String) (hk : k ≠ trackerKey rule.id h) :
    (evalRule h m now rule s).state.sustainedSince k = s.sustainedSince k := by
  unfold evalRule
  split
  · rfl
  · split
    · rfl
    · dsimp only
      split
      · split
        · rw [fireRule_tracker_other _ _ _ _ _ _ hk, trackSince_other _ _ _ _ hk]
        · exact trackSince_other _ _ _ _ hk
      · exact clearRule_tracker_other _ _ _ _ _ hk

theorem evalRule_server_ids (h : String) (m : String → Option ℚ) (now : Int) (rule : Rule)
    (s : State) :
    (evalRule h m now rule s).state.servers.map (fun x => x.id) = s.servers.map (fun x => x.id) := by
  unfold evalRule
  split
  · rfl
  · split
    · rfl
    · dsimp only
      split
      · split
        · rw [fireRule_server_ids, trackSince_servers]
        · rw [trackSince_servers]
      · exact clearRule_server_ids _ _ _ _

theorem evalRule_rules (h : String) (m : String → Option ℚ) (now : Int) (rule : Rule)
    (s : State) : (evalRule h m now rule s).state.rules = s.rules := by
  unfold evalRule
  split
  · rfl
  · split
    · rfl
    · dsimp only
      split
      · split
        · rw [fireRule_rules, trackSince_rules]
        · rw [trackSince_rules]
      · exact clearRule_rules _ _ _ _

theorem evalRule_no_throw (h : String) (m : String → Option ℚ) (now : Int) (rule : Rule)
    (s : State) (hsrv : h ∈ s.servers.map (fun x => x.id)) :
    (evalRule h m now rule s).threw = false := by
  unfold evalRule
  split
  · rfl
  · split
    · rfl
    · dsimp only
      split
      · split
        · apply fireRule_no_throw
          rw [trackSince_servers]
          exact hsrv
        · rfl
      · rfl

/-! ## Rows of other rules and hosts -/

theorem eq_of_id_eq {l : List Alert} (hid : AlertIdsUnique l) {a b : Alert} (ha : a ∈ l)
    (hb : b ∈ l) (hab : a.id = b.id) : a = b :=
  List.inj_on_of_nodup_map hid ha hb hab

theorem resolveStale_ids (last : Option Alert) (now : Int) (l : List Alert) :
    (resolveStale last now l).map (fun a => a.id) = l.map (fun a => a.id) := by
  unfold resolveStale
  cases last with
  | none => rfl
  | some b =>
    dsimp only
    split
    · exact map_ids_keepsKey (resolveAlert_keepsKey now b.id) l
    · rfl

theorem resolveStale_filter_other {l : List Alert} (hid : AlertIdsUnique l) (q h' r h : String)
    (now : Int) (hne : ¬ (q = r ∧ h' = h)) :
    (resolveStale (getLastFiredAlert l q h') now l).filter (alertMatches r h) =
      l.filter (alertMatches r h) := by
  cases hlast : getLastFiredAlert l q h' with
  | none => rfl
  | some b =>
    simp only [resolveStale]
    split
    · obtain ⟨hb, hbm⟩ := getLastFiredAlert_mem hlast
      unfold resolveAlert
      rw [filter_map_keepsKey (resolveAlert_keepsKey now b.id)]
      conv_rhs => rw [← List.map_id (l.filter (alertMatches r h))]
      apply List.map_congr_left
      intro a ha
      obtain ⟨ha1, ha2⟩ := List.mem_filter.mp ha
      have hab : a.id ≠ b.id := by
        intro hab
        have := eq_of_id_eq hid ha1 hb hab
        subst this
        obtain ⟨h1, h2⟩ := alertMatches_iff.mp ha2
        obtain ⟨h3, h4⟩ := alertMatches_iff.mp hbm
        rw [h1] at h3
        cases h3
        exact hne ⟨rfl, h4.symm.trans h2⟩
      simp [hab]
    · rfl

theorem evalRule_alertsFor_other (h' : String) (m : String → Option ℚ) (now : Int) (rule : Rule)
    (s : State) (r h : String) (hid : AlertIdsUnique s.alerts) (hne : ¬ (rule.id = r ∧ h' = h)) :
    alertsFor r h (evalRule h' m now rule s).state = alertsFor r h s := by
  unfold alertsFor
  rcases evalRule_alerts h' m now rule s with h1 | h1 | ⟨v, h1⟩
  · rw [h1]
  · rw [h1]; exact resolveStale_filter_other hid _ _ _ _ now hne
  · rw [h1, List.filter_append, resolveStale_filter_other hid _ _ _ _ now hne]
    have : alertMatches r h (mkAlert (nextAlertId (resolveStale
        (getLastFiredAlert s.alerts rule.id h') now s.alerts)) rule h' v now) = false := by
      simp only [alertMatches, mkAlert, Option.some.injEq, Bool.and_eq_false_imp,
        decide_eq_true_eq, decide_eq_false_iff_not]
      intro h1 h2
      exact hne ⟨h1, h2⟩
    simp [this]

theorem alertIdsUnique_evalRule (h : String) (m : String → Option ℚ) (now : Int) (rule : Rule)
    (s : State) (hid : AlertIdsUnique s.alerts) :
    AlertIdsUnique (evalRule h m now rule s).state.alerts := by
  unfold AlertIdsUnique at hid ⊢
  rcases evalRule_alerts h m now rule s with h1 | h1 | ⟨v, h1⟩
  · rw [h1]; exact hid
  · rw [h1, resolveStale_ids]; exact hid
  · rw [h1, List.map_append, List.nodup_append, resolveStale_ids]
    refine ⟨hid, by simp, ?_⟩
    intro x hx hx'
    simp only [List.map_cons, List.map_nil, List.mem_singleton, mkAlert] at hx'
    have hx2 : x ∈ (resolveStale (getLastFiredAlert s.alerts rule.id h) now s.alerts).map
        (fun a => a.id) := by
      rw [resolveStale_ids]; exact hx
    obtain ⟨b, hb, rfl⟩ := List.mem_map.mp hx2
    have := lt_nextAlertId hb
    omega

/-! ## The loop over the rules -/

theorem evalRules_append (h : String) (m : String → Option ℚ) (now : Int) (l₁ l₂ : List Rule)
    (s : State) :
    evalRules h m now (l₁ ++ l₂) s =
      if (evalRules h m now l₁ s).threw then evalRules h m now l₁ s
      else evalRules h m now l₂ (evalRules h m now l₁ s).state := by
  induction l₁ generalizing s with
  | nil => simp [evalRules]
  | cons q l₁ ih =>
    simp only [List.cons_append, evalRules]
    split
    · rename_i hq
      simp [hq]
    · exact ih _

theorem evalRules_server_ids (h : String) (m : String → Option ℚ) (now : Int) (rules : List Rule)
    (s : State) :
    (evalRules h m now rules s).state.servers.map (fun x => x.id) =
      s.servers.map (fun x => x.id) := by
  induction rules generalizing s with
  | nil => rfl
  | cons q rest ih =>
    simp only [evalRules]
    split
    · exact evalRule_server_ids _ _ _ _ _
    · rw [ih, evalRule_server_ids]

theorem evalRules_rules (h : String) (m : String → Option ℚ) (now : Int) (rules : List Rule)
    (s : State) : (evalRules h m now rules s).state.rules = s.rules := by
  induction rules generalizing s with
  | nil => rfl
  | cons q rest ih =>
    simp only [evalRules]
    split
    · exact evalRule_rules _ _ _ _ _
    · rw [ih, evalRule_rules]

theorem evalRules_no_throw (h : String) (m : String → Option ℚ) (now : Int) (rules : List Rule)
    (s : State) (hsrv : h ∈ s.servers.map (fun x => x.id)) :
    (evalRules h m now rules s).threw = false := by
  induction rules generalizing s with
  | nil => rfl
  | cons q rest ih =>
    simp only [evalRules]
    rw [if_neg (by simp [evalRule_no_throw h m now q s hsrv])]
    apply ih
    rw [evalRule_server_ids]
    exact hsrv

theorem alertIdsUnique_evalRules (h : String) (m : String → Option ℚ) (now : Int)
    (rules : List Rule) (s : State) (hid : AlertIdsUnique s.alerts) :
    AlertIdsUnique (evalRules h m now rules s).state.alerts := by
  induction rules generalizing s with
  | nil => exact hid
  | cons q rest ih =>
    simp only [evalRules]
    split
    · exact alertIdsUnique_evalRule _ _ _ _ _ hid
    · exact ih _ (alertIdsUnique_evalRule _ _ _ _ _ hid)

/-- Rules with another id leave the rows and the tracker entry of the rule
and host alone. -/
theorem evalRules_others (h : String) (m : String → Option ℚ) (now : Int) (rules : List Rule)
    (s : State) (r : String) (hid : AlertIdsUnique s.alerts) (hne : ∀ q ∈ rules, q.id ≠ r) :
    alertsFor r h (evalRules h m now rules s).state = alertsFor r h s ∧
    (evalRules h m now rules s).state.sustainedSince (trackerKey r h) =
      s.sustainedSince (trackerKey r h) := by
  induction rules generalizing s with
  | nil => exact ⟨rfl, rfl⟩
  | cons q rest ih =>
    have hq : q.id ≠ r := hne q (by simp)
    have hk : trackerKey r h ≠ trackerKey q.id h := fun hk => hq (trackerKey_left_inj hk).symm
    have h1 := evalRule_alertsFor_other h m now q s r h hid (fun hc => hq hc.1)
    have h2 := evalRule_tracker_other h m now q s _ hk
    simp only [evalRules]
    split
    · exact ⟨h1, h2⟩
    · obtain ⟨h3, h4⟩ := ih (evalRule h m now q s).state (alertIdsUnique_evalRule _ _ _ _ _ hid)
        (fun q' hq' => hne q' (by simp [hq']))
      exact ⟨h3.trans h1, h4.trans h2⟩

theorem rules_split {rules : List Rule} (hnd : (rules.map (fun q => q.id)).Nodup) {rule : Rule}
    (hmem : rule ∈ rules) :
    ∃ pre post, rules = pre ++ rule :: post ∧ (∀ q ∈ pre, q.id ≠ rule.id) ∧
      ∀ q ∈ post, q.id ≠ rule.id := by
  obtain ⟨pre, post, rfl⟩ := List.append_of_mem hmem
  refine ⟨pre, post, rfl, ?_, ?_⟩
  · intro q hq hqid
    rw [List.map_append, List.map_cons, List.nodup_append] at hnd
    exact hnd.2.2 (List.mem_map_of_mem (fun q => q.id) hq) (by simp [hqid])
  · intro q hq hqid
    rw [List.map_append, List.map_cons, List.nodup_append, List.nodup_cons] at hnd
    exact hnd.2.1.1 (by rw [← hqid]; exact List.mem_map_of_mem (fun q => q.id) hq)

theorem getRulesForServer_nodup {rules : List Rule} (hnd : (rules.map (fun q => q.id)).Nodup)
    (h : String) : ((getRulesForServer rules h).map (fun q => q.id)).Nodup := by
  unfold getRulesForServer
  exact (List.filter_sublist rules).map (fun q => q.id) |>.nodup hnd

theorem mem_getRulesForServer {rules : List Rule} {rule : Rule} {h : String}
    (hmem : rule ∈ rules) (hscope : rule.server_id = none ∨ rule.server_id = some h) :
    rule ∈ getRulesForServer rules h := by
  unfold getRulesForServer
  rw [List.mem_filter]
  refine ⟨hmem, ?_⟩
  rcases hscope with h1 | h1 <;> simp [h1]

/-! ## One rule inside the loop -/

theorem sameFor_refl (r h : String) (s : State) : SameFor r h s s := ⟨rfl, rfl⟩

theorem sameFor_trans {r h : String} {s₁ s₂ s₃ : State} (h12 : SameFor r h s₁ s₂)
    (h23 : SameFor r h s₂ s₃) : SameFor r h s₁ s₃ :=
  ⟨h23.1.trans h12.1, h23.2.trans h12.2⟩

/-- The loop on a rule list in which only `rule` has its id: either an
earlier rule threw, or the loop ran `rule` and the later rules kept its rows
and tracker entry. -/
theorem evalRules_at (h : String) (m : String → Option ℚ) (now : Int) (pre post : List Rule)
    (rule : Rule) (s : State) (hid : AlertIdsUnique s.alerts)
    (hpost : ∀ q ∈ post, q.id ≠ rule.id) :
    ((evalRules h m now pre s).threw = true ∧
      evalRules h m now (pre ++ rule :: post) s = evalRules h m now pre s) ∨
    ((evalRules h m now pre s).threw = false ∧
      SameFor rule.id h (evalRule h m now rule (evalRules h m now pre s).state).state
        (evalRules h m now (pre ++ rule :: post) s).state) := by
  rw [evalRules_append]
  cases hthrew : (evalRules h m now pre s).threw with
  | true => exact Or.inl ⟨rfl, by simp⟩
  | false =>
    refine Or.inr ⟨rfl, ?_⟩
    simp only [Bool.false_eq_true, if_false, evalRules]
    split
    · exact sameFor_refl _ _ _
    · have hid1 := alertIdsUnique_evalRules h m now pre s hid
      have hid2 := alertIdsUnique_evalRule h m now rule _ hid1
      exact evalRules_others h m now post _ rule.id hid2 hpost

theorem orDefault_some_zero (D : Int) : orDefault (some D) 0 = D := by
  unfold orDefault
  dsimp only
  split
  · rename_i h; exact h.symm
  · rfl

/-- A sample that satisfies the condition before the sustained time has
reached the duration changes no row of the rule and host; the tracker entry
stays, or is set to `now` when there was none. -/
theorem evaluateMetric_wait (h : String) (m : String → Option ℚ) (now : Int) (rule : Rule)
    (s : State) (hmem : rule ∈ getRulesForServer s.rules h)
    (hnd : (s.rules.map (fun q => q.id)).Nodup) (hid : AlertIdsUnique s.alerts)
    (hen : rule.enabled = true) (htr : Triggers rule m)
    (hel : now - (s.sustainedSince (trackerKey rule.id h)).getD now < orDefault rule.duration_s 0) :
    alertsFor rule.id h (evaluateMetric h m now s).state = alertsFor rule.id h s ∧
    ((evaluateMetric h m now s).state.sustainedSince (trackerKey rule.id h) =
        s.sustainedSince (trackerKey rule.id h) ∨
      (evaluateMetric h m now s).state.sustainedSince (trackerKey rule.id h) = some now) ∧
    (h ∈ s.servers.map (fun x => x.id) →
      (evaluateMetric h m now s).state.sustainedSince (trackerKey rule.id h) =
        some ((s.sustainedSince (trackerKey rule.id h)).getD now)) := by
  obtain ⟨pre, post, hsplit, hpre, hpost⟩ := rules_split (getRulesForServer_nodup hnd h) hmem
  obtain ⟨v, hv, hc⟩ := htr
  unfold evaluateMetric
  rw [hsplit]
  obtain ⟨hpa, hpt⟩ := evalRules_others h m now pre s rule.id hid hpre
  have hid1 := alertIdsUnique_evalRules h m now pre s hid
  have hwait : evalRule h m now rule (evalRules h m now pre s).state =
      ⟨trackSince (trackerKey rule.id h) now (evalRules h m now pre s).state, false⟩ := by
    apply evalRule_wait h m now rule _ v hen hv hc
    cases hcur : s.sustainedSince (trackerKey rule.id h) with
    | none =>
      rw [hcur] at hel hpt
      rw [trackSince_key_none _ _ _ hpt]
      simpa using hel
    | some t' =>
      rw [hcur] at hel hpt
      rw [trackSince_key_some _ _ _ _ hpt]
      simpa using hel
  have hkey : (trackSince (trackerKey rule.id h) now
      (evalRules h m now pre s).state).sustainedSince (trackerKey rule.id h) =
      some ((s.sustainedSince (trackerKey rule.id h)).getD now) := by
    cases hcur : s.sustainedSince (trackerKey rule.id h) with
    | none =>
      rw [hcur] at hpt
      rw [trackSince_key_none _ _ _ hpt]
      rfl
    | some t' =>
      rw [hcur] at hpt
      rw [trackSince_key_some _ _ _ _ hpt]
      rfl
  rcases evalRules_at h m now pre post rule s hid hpost with ⟨hthrew, heq⟩ | ⟨_, hsame⟩
  · rw [heq]
    refine ⟨hpa, Or.inl hpt, ?_⟩
    intro hsrv
    rw [evalRules_no_throw h m now pre s hsrv] at hthrew
    cases hthrew
  · rw [hwait] at hsame
    obtain ⟨hsa, hst⟩ := hsame
    dsimp only at hsa hst
    have halerts : alertsFor rule.id h (trackSince (trackerKey rule.id h) now
        (evalRules h m now pre s).state) = alertsFor rule.id h (evalRules h m now pre s).state := by
      unfold alertsFor
      rw [trackSince_alerts]
    refine ⟨hsa.trans (halerts.trans hpa), ?_, ?_⟩
    · rw [hst, hkey]
      cases hcur : s.sustainedSince (trackerKey rule.id h) with
      | none => exact Or.inr rfl
      | some t' => exact Or.inl rfl
    · intro _
      rw [hst, hkey]

theorem evaluateMetric_rules (h : String) (m : String → Option ℚ) (now : Int) (s : State) :
    (evaluateMetric h m now s).state.rules = s.rules :=
  evalRules_rules _ _ _ _ _

theorem evaluateMetric_server_ids (h : String) (m : String → Option ℚ) (now : Int) (s : State) :
    (evaluateMetric h m now s).state.servers.map (fun x => x.id) =
      s.servers.map (fun x => x.id) :=
  evalRules_server_ids _ _ _ _ _

theorem alertIdsUnique_evaluateMetric (h : String) (m : String → Option ℚ) (now : Int)
    (s : State) (hid : AlertIdsUnique s.alerts) :
    AlertIdsUnique (evaluateMetric h m now s).state.alerts :=
  alertIdsUnique_evalRules _ _ _ _ _ hid

/-! ## C3 -/

theorem sorted_le_last {l : List Int} (hs : l.Sorted (· ≤ ·)) {x tn : Int} (hx : x ∈ l)
    (hn : tn ∈ l.getLast?) : x ≤ tn := by
  obtain ⟨ys, rfl⟩ := List.getLast?_eq_some_iff.mp hn
  rcases List.mem_append.mp hx with hx | hx
  · exact (List.pairwise_append.mp hs).2.2 x hx tn (by simp)
  · simp only [List.mem_singleton] at hx
    exact le_of_eq hx

/-- A run of samples that all satisfy the condition while the sustained time
stays below the duration changes no row of the rule and host. -/
theorem runSamples_wait (h : String) (rule : Rule) (D t0 : Int)
    (samples : List ((String → Option ℚ) × Int)) (s : State)
    (hmem : rule ∈ getRulesForServer s.rules h)
    (hnd : (s.rules.map (fun q => q.id)).Nodup) (hid : AlertIdsUnique s.alerts)
    (hen : rule.enabled = true) (hD : rule.duration_s = some D) (hpos : 0 < D)
    (htr : ∀ t, s.sustainedSince (trackerKey rule.id h) = some t → t0 ≤ t)
    (hcond : ∀ p ∈ samples, Triggers rule p.1 ∧ t0 ≤ p.2 ∧ p.2 - t0 < D) :
    alertsFor rule.id h (runSamples h samples s) = alertsFor rule.id h s ∧
    (h ∈ s.servers.map (fun x => x.id) → ∀ t, s.sustainedSince (trackerKey rule.id h) = some t →
      (runSamples h samples s).sustainedSince (trackerKey rule.id h) = some t) ∧
    (runSamples h samples s).rules = s.rules ∧
    AlertIdsUnique (runSamples h samples s).alerts ∧
    (runSamples h samples s).servers.map (fun x => x.id) = s.servers.map (fun x => x.id) := by
  induction samples generalizing s with
  | nil => exact ⟨rfl, fun _ _ ht => ht, rfl, hid, rfl⟩
  | cons p rest ih =>
    obtain ⟨hp1, hp2, hp3⟩ := hcond p (by simp)
    have hel : p.2 - (s.sustainedSince (trackerKey rule.id h)).getD p.2 <
        orDefault rule.duration_s 0 := by
      rw [hD, orDefault_some_zero]
      cases hcur : s.sustainedSince (trackerKey rule.id h) with
      | none => simpa using hpos
      | some t' =>
        have := htr t' hcur
        simp only [Option.getD_some]
        omega
    obtain ⟨ha, ht, hts⟩ := evaluateMetric_wait h p.1 p.2 rule s hmem hnd hid hen hp1 hel
    have hrules := evaluateMetric_rules h p.1 p.2 s
    have hsrvids := evaluateMetric_server_ids h p.1 p.2 s
    have hid' := alertIdsUnique_evaluateMetric h p.1 p.2 s hid
    have htr' : ∀ t, (evaluateMetric h p.1 p.2 s).state.sustainedSince (trackerKey rule.id h) =
        some t → t0 ≤ t := by
      intro t hte
      rcases ht with ht | ht
      · exact htr t (ht ▸ hte)
      · rw [ht] at hte
        cases hte
        exact hp2
    obtain ⟨ih1, ih2, ih3, ih4, ih5⟩ := ih (evaluateMetric h p.1 p.2 s).state
      (by rw [hrules]; exact hmem) (by rw [hrules]; exact hnd) hid' htr'
      (fun q hq => hcond q (by simp [hq]))
    simp only [runSamples, List.foldl_cons] at ih1 ih2 ih3 ih4 ih5 ⊢
    refine ⟨ih1.trans ha, ?_, ih3.trans hrules, ih4, ih5.trans hsrvids⟩
    intro hsrv t hcur
    apply ih2 (by rw [hsrvids]; exact hsrv)
    rw [hts hsrv, hcur]
    rfl

/-- C3: for an enabled rule with `duration_s = D > 0` scoped to the host,
from a state with no tracker entry for the rule and host, a sequence of samples
at non-decreasing times that all satisfy the condition and span less than `D`
seconds creates no alert instance for the rule and host: its rows are
unchanged. -/
theorem no_fire_before_duration (s : State) (rule : Rule) (h : String) (D : Int)
    (samples : List ((String → Option ℚ) × Int))
    (hrule : rule ∈ s.rules) (hscope : rule.server_id = none ∨ rule.server_id = some h)
    (hen : rule.enabled = true) (hD : rule.duration_s = some D) (hpos : 0 < D)
    (hnd : (s.rules.map (fun q => q.id)).Nodup) (hid : AlertIdsUnique s.alerts)
    (htr : s.sustainedSince (trackerKey rule.id h) = none)
    (hsorted : (samples.map Prod.snd).Sorted (· ≤ ·))
    (hcond : ∀ p ∈ samples, Triggers rule p.1)
    (hspan : ∀ t0 ∈ (samples.map Prod.snd).head?, ∀ tn ∈ (samples.map Prod.snd).getLast?,
      tn - t0 < D) :
    alertsFor rule.id h (runSamples h samples s) = alertsFor rule.id h s := by
  cases samples with
  | nil => rfl
  | cons p0 rest =>
    have hlast : ∃ tn, tn ∈ ((p0 :: rest).map Prod.snd).getLast? := by
      cases hl : ((p0 :: rest).map Prod.snd).getLast? with
      | none => simp at hl
      | some tn => exact ⟨tn, rfl⟩
    obtain ⟨tn, htn⟩ := hlast
    have hsp := hspan p0.2 (by simp) tn htn
    refine (runSamples_wait h rule D p0.2 (p0 :: rest) s (mem_getRulesForServer hrule hscope) hnd
      hid hen hD hpos (fun t ht => by rw [htr] at ht; cases ht) ?_).1
    intro p hp
    have hpm : p.2 ∈ (p0 :: rest).map Prod.snd := List.mem_map_of_mem _ hp
    refine ⟨hcond p hp, ?_, ?_⟩
    · rcases List.mem_cons.mp hp with rfl | hp'
      · exact le_refl _
      · exact (List.pairwise_cons.mp hsorted).1 p.2 (List.mem_map_of_mem _ hp')
    · have := sorted_le_last hsorted hpm htn
      omega

theorem cpuSamples_triggers (n : Nat) : ∀ p ∈ cpuSamples 95 n, Triggers cpuRule p.1 := by
  intro p hp
  obtain ⟨i, _, rfl⟩ := List.mem_map.mp hp
  exact ⟨95, rfl, by decide⟩

/-- Witness of C3: samples of 95 at t = 0..29 against the rule cpu_pct > 90
for 30 seconds leave the alert table empty. -/
theorem no_fire_before_duration_witness :
    alertsFor cpuRule.id "h1" (runSamples "h1" (cpuSamples 95 30) cpuState) =
      alertsFor cpuRule.id "h1" cpuState ∧
    alertsFor cpuRule.id "h1" cpuState = [] :=
  ⟨no_fire_before_duration cpuState cpuRule "h1" 30 (cpuSamples 95 30) (by decide)
    (Or.inl rfl) rfl rfl (by decide) (by decide) (by decide) rfl (by decide)
    (cpuSamples_triggers 30) (by decide), by decide⟩

/-! ## Firing -/

theorem fireRule_fired (h : String) (v : ℚ) (now : Int) (rule : Rule) (s : State)
    (hcool : inCooldown (getLastFiredAlert s.alerts rule.id h) rule now = false)
    (hsrv : h ∈ s.servers.map (fun x => x.id)) :
    fireRule h v now rule s =
      ⟨{ s with
          alerts := resolveStale (getLastFiredAlert s.alerts rule.id h) now s.alerts ++
            [mkAlert (nextAlertId (resolveStale (getLastFiredAlert s.alerts rule.id h) now
              s.alerts)) rule h v now]
          servers := statusOnFire rule.severity now h s.servers
          events := s.events ++ [Event.alertNew (mkAlert (nextAlertId (resolveStale
            (getLastFiredAlert s.alerts rule.id h) now s.alerts)) rule h v now)]
          sustainedSince := trackerDelete s.sustainedSince (trackerKey rule.id h) }, false⟩ := by
  unfold fireRule
  dsimp only
  rw [if_neg (by simp [hcool])]
  split
  · rename_i hnone
    have := (getServer_isSome_iff s.servers h).mpr hsrv
    rw [hnone] at this
    simp at this
  · rfl

theorem fireRule_suppressed (h : String) (v : ℚ) (now : Int) (rule : Rule) (s : State)
    (hcool : inCooldown (getLastFiredAlert s.alerts rule.id h) rule now = true) :
    fireRule h v now rule s = ⟨s, false⟩ := by
  unfold fireRule
  dsimp only
  rw [if_pos hcool]

theorem resolveStale_filter (last : Option Alert) (now : Int) (l : List Alert) (r h : String) :
    (resolveStale last now l).filter (alertMatches r h) =
      resolveStale last now (l.filter (alertMatches r h)) := by
  unfold resolveStale
  cases last with
  | none => rfl
  | some b =>
    dsimp only
    split
    · exact filter_map_keepsKey (resolveAlert_keepsKey now b.id) r h l
    · rfl

theorem evalRule_ids_subset (h : String) (m : String → Option ℚ) (now : Int) (rule : Rule)
    (s : State) : ∀ x ∈ s.alerts.map (fun a => a.id),
      x ∈ (evalRule h m now rule s).state.alerts.map (fun a => a.id) := by
  intro x hx
  rcases evalRule_alerts h m now rule s with h1 | h1 | ⟨v, h1⟩
  · rw [h1]; exact hx
  · rw [h1, resolveStale_ids]; exact hx
  · rw [h1, List.map_append, resolveStale_ids]
    exact List.mem_append_left _ hx

theorem evalRules_ids_subset (h : String) (m : String → Option ℚ) (now : Int)
    (rules : List Rule) (s : State) : ∀ x ∈ s.alerts.map (fun a => a.id),
      x ∈ (evalRules h m now rules s).state.alerts.map (fun a => a.id) := by
  induction rules generalizing s with
  | nil => exact fun x hx => hx
  | cons q rest ih =>
    intro x hx
    simp only [evalRules]
    split
    · exact evalRule_ids_subset h m now q s x hx
    · exact ih _ x (evalRule_ids_subset h m now q s x hx)

/-- A sample that satisfies the condition for at least the duration, outside
the cooldown of an active last alert, inserts one active row for the rule and
host, fired at `now`, after the stale resolve of the last row, and clears the
tracker entry. -/
theorem evaluateMetric_fire (h : String) (m : String → Option ℚ) (now : Int) (rule : Rule)
    (s : State) (v : ℚ) (hmem : rule ∈ getRulesForServer s.rules h)
    (hnd : (s.rules.map (fun q => q.id)).Nodup) (hid : AlertIdsUnique s.alerts)
    (hsrv : h ∈ s.servers.map (fun x => x.id))
    (hen : rule.enabled = true) (hv : m rule.metric = some v)
    (hc : evaluate v rule.operator rule.threshold = true)
    (hel : orDefault rule.duration_s 0 ≤
      now - (s.sustainedSince (trackerKey rule.id h)).getD now)
    (hcool : inCooldown (getLastFiredAlert s.alerts rule.id h) rule now = false) :
    ∃ id, (∀ a ∈ s.alerts, a.id < id) ∧
      alertsFor rule.id h (evaluateMetric h m now s).state =
        resolveStale (getLastFiredAlert s.alerts rule.id h) now (alertsFor rule.id h s) ++
          [mkAlert id rule h v now] ∧
      (evaluateMetric h m now s).state.sustainedSince (trackerKey rule.id h) = none := by
  obtain ⟨pre, post, hsplit, hpre, hpost⟩ := rules_split (getRulesForServer_nodup hnd h) hmem
  unfold evaluateMetric
  rw [hsplit]
  obtain ⟨hpa, hpt⟩ := evalRules_others h m now pre s rule.id hid hpre
  have hsrv1 : h ∈ (evalRules h m now pre s).state.servers.map (fun x => x.id) := by
    rw [evalRules_server_ids]; exact hsrv
  have hsub := evalRules_ids_subset h m now pre s
  have hlast : getLastFiredAlert (evalRules h m now pre s).state.alerts rule.id h =
      getLastFiredAlert s.alerts rule.id h := getLastFiredAlert_congr hpa
  have hsame : SameFor rule.id h (evalRule h m now rule (evalRules h m now pre s).state).state
      (evalRules h m now (pre ++ rule :: post) s).state := by
    rcases evalRules_at h m now pre post rule s hid hpost with ⟨hthrew, _⟩ | ⟨_, hsame⟩
    · rw [evalRules_no_throw h m now pre s hsrv] at hthrew
      cases hthrew
    · exact hsame
  generalize (evalRules h m now (pre ++ rule :: post) s).state = final at hsame ⊢
  generalize (evalRules h m now pre s).state = s1 at hpa hpt hsrv1 hsub hlast hsame
  have hfire : evalRule h m now rule s1 =
      fireRule h v now rule (trackSince (trackerKey rule.id h) now s1) := by
    apply evalRule_fire h m now rule s1 v hen hv hc
    cases hcur : s.sustainedSince (trackerKey rule.id h) with
    | none =>
      rw [hcur] at hel hpt
      rw [trackSince_key_none _ _ _ hpt]
      simpa using hel
    | some t' =>
      rw [hcur] at hel hpt
      rw [trackSince_key_some _ _ _ _ hpt]
      simpa using hel
  have hta := trackSince_alerts (trackerKey rule.id h) now s1
  have hts := trackSince_servers (trackerKey rule.id h) now s1
  rw [fireRule_fired h v now rule _ (by rw [hta, hlast]; exact hcool) (by rw [hts]; exact hsrv1)]
    at hfire
  rw [hfire] at hsame
  obtain ⟨hsa, hst⟩ := hsame
  refine ⟨nextAlertId (resolveStale (getLastFiredAlert s.alerts rule.id h) now s1.alerts),
    ?_, ?_, ?_⟩
  · intro a ha
    have := hsub a.id (List.mem_map_of_mem (fun a => a.id) ha)
    rw [← resolveStale_ids (getLastFiredAlert s.alerts rule.id h) now] at this
    obtain ⟨b, hb, hba⟩ := List.mem_map.mp this
    have := lt_nextAlertId hb
    omega
  · rw [hsa]
    simp only [alertsFor, hta, hlast, List.filter_append, resolveStale_filter]
    unfold alertsFor at hpa
    rw [hpa]
    simp [alertMatches, mkAlert]
  · rw [hst]
    simp [trackerDelete]

/-! ## C4 -/

theorem getLastFiredAlert_of_alertsFor_nil {r h : String} {s : State}
    (hnil : alertsFor r h s = []) : getLastFiredAlert s.alerts r h = none := by
  unfold alertsFor at hnil
  unfold getLastFiredAlert
  rw [hnil]
  rfl

theorem runSamples_append (h : String) (l₁ l₂ : List ((String → Option ℚ) × Int)) (s : State) :
    runSamples h (l₁ ++ l₂) s = runSamples h l₂ (runSamples h l₁ s) := by
  unfold runSamples
  rw [List.foldl_append]

/-- C4: from a state with no tracker entry and no alert instance for the rule
and host, if every sample of a sequence at non-decreasing times satisfies the
condition and the last sample, at `tk`, is the first with `tk - t0 >= duration_s`,
then no instance exists before the last sample and after it exactly one
instance exists for the rule and host, with status active and
`fired_at = tk`. -/
theorem fires_once_sustained (s : State) (rule : Rule) (h : String) (D : Int)
    (pre : List ((String → Option ℚ) × Int)) (mk : String → Option ℚ) (tk : Int)
    (hrule : rule ∈ s.rules) (hscope : rule.server_id = none ∨ rule.server_id = some h)
    (hen : rule.enabled = true) (hD : rule.duration_s = some D)
    (hnd : (s.rules.map (fun q => q.id)).Nodup) (hid : AlertIdsUnique s.alerts)
    (hsrv : h ∈ s.servers.map (fun x => x.id))
    (htr : s.sustainedSince (trackerKey rule.id h) = none)
    (hnone : alertsFor rule.id h s = [])
    (hsorted : ((pre ++ [(mk, tk)]).map Prod.snd).Sorted (· ≤ ·))
    (hcond : ∀ p ∈ pre ++ [(mk, tk)], Triggers rule p.1)
    (hfirst : ∀ t0 ∈ ((pre ++ [(mk, tk)]).map Prod.snd).head?,
      (∀ p ∈ pre, p.2 - t0 < D) ∧ D ≤ tk - t0) :
    alertsFor rule.id h (runSamples h pre s) = [] ∧
    ∃ a, alertsFor rule.id h (runSamples h (pre ++ [(mk, tk)]) s) = [a] ∧
      a.status = AlertStatus.active ∧ a.fired_at = tk := by
  have hmem := mem_getRulesForServer hrule hscope
  obtain ⟨v, hv, hc⟩ := hcond (mk, tk) (by simp)
  -- the state after the samples before the last one
  have hpre : alertsFor rule.id h (runSamples h pre s) = [] ∧
      (runSamples h pre s).rules = s.rules ∧ AlertIdsUnique (runSamples h pre s).alerts ∧
      (runSamples h pre s).servers.map (fun x => x.id) = s.servers.map (fun x => x.id) ∧
      orDefault rule.duration_s 0 ≤
        tk - ((runSamples h pre s).sustainedSince (trackerKey rule.id h)).getD tk := by
    cases pre with
    | nil =>
      refine ⟨hnone, rfl, hid, rfl, ?_⟩
      have := (hfirst tk (by simp)).2
      simp only [runSamples, List.foldl_nil, htr, hD, orDefault_some_zero, Option.getD_none]
      exact this
    | cons p0 rest =>
      obtain ⟨hlt, hge⟩ := hfirst p0.2 (by simp)
      have hpos : 0 < D := by
        have := hlt p0 (by simp)
        omega
      have hel : p0.2 - (s.sustainedSince (trackerKey rule.id h)).getD p0.2 <
          orDefault rule.duration_s 0 := by
        rw [htr, hD, orDefault_some_zero]
        simpa using hpos
      obtain ⟨ha, _, hts⟩ := evaluateMetric_wait h p0.1 p0.2 rule s hmem hnd hid hen
        (hcond p0 (by simp)) hel
      have hrules := evaluateMetric_rules h p0.1 p0.2 s
      have hsrvids := evaluateMetric_server_ids h p0.1 p0.2 s
      have hid' := alertIdsUnique_evaluateMetric h p0.1 p0.2 s hid
      have hts' := hts hsrv
      rw [htr] at hts'
      simp only [Option.getD_none] at hts'
      have hsorted' : ∀ p ∈ rest, p0.2 ≤ p.2 := by
        intro p hp
        have h1 : (p0.2 :: (rest ++ [(mk, tk)]).map Prod.snd).Sorted (· ≤ ·) := by
          simpa using hsorted
        exact (List.pairwise_cons.mp h1).1 p.2
          (List.mem_map_of_mem _ (List.mem_append_left _ hp))
      obtain ⟨r1, r2, r3, r4, r5⟩ := runSamples_wait h rule D p0.2 rest
        (evaluateMetric h p0.1 p0.2 s).state (by rw [hrules]; exact hmem)
        (by rw [hrules]; exact hnd) hid' hen hD hpos
        (fun t ht => by rw [hts'] at ht; cases ht; exact le_refl _)
        (fun p hp => ⟨hcond p (by simp [hp]), hsorted' p hp, hlt p (by simp [hp])⟩)
      have r2' := r2 (by rw [hsrvids]; exact hsrv) p0.2 hts'
      simp only [runSamples, List.foldl_cons] at r1 r2' r3 r4 r5 ⊢
      refine ⟨(r1.trans ha).trans hnone, r3.trans hrules, r4, r5.trans hsrvids, ?_⟩
      rw [r2', hD, orDefault_some_zero]
      simpa using hge
  obtain ⟨hp1, hp2, hp3, hp4, hp5⟩ := hpre
  refine ⟨hp1, ?_⟩
  rw [runSamples_append]
  generalize runSamples h pre s = sp at hp1 hp2 hp3 hp4 hp5
  have hlast := getLastFiredAlert_of_alertsFor_nil hp1
  obtain ⟨id, _, hfa, _⟩ := evaluateMetric_fire h mk tk rule sp v (by rw [hp2]; exact hmem)
    (by rw [hp2]; exact hnd) hp3 (by rw [hp4]; exact hsrv) hen hv hc hp5
    (by rw [hlast]; rfl)
  refine ⟨mkAlert id rule h v tk, ?_, rfl, rfl⟩
  simp only [runSamples, List.foldl_cons, List.foldl_nil]
  rw [hfa, hlast, hp1]
  rfl

set_option maxRecDepth 100000 in
/-- Witness of C4: with cpu_pct > 90 for 30 seconds, samples of 95 at
t = 0..30 give no instance before t = 30 and one active instance with
`fired_at = 30`; it is still the only one after the samples up to t = 40,
and with duration 0 the first sample fires. -/
theorem fires_once_sustained_witness :
    (alertsFor cpuRule.id "h1" (runSamples "h1" (cpuSamples 95 30) cpuState) = [] ∧
      ∃ a, alertsFor cpuRule.id "h1"
          (runSamples "h1" (cpuSamples 95 30 ++ [(cpuSample 95, 30)]) cpuState) = [a] ∧
        a.status = AlertStatus.active ∧ a.fired_at = 30) ∧
    (alertsFor cpuRule.id "h1" (runSamples "h1" (cpuSamples 95 41) cpuState)).map
        (fun a => (a.id, a.status, a.fired_at)) = [(1, AlertStatus.active, 30)] ∧
    (alertsFor cpuRule.id "h1"
        (runSamples "h1" [(cpuSample 95, 7)]
          { cpuState with rules := [{ cpuRule with duration_s := some 0 }] })).map
        (fun a => (a.id, a.status, a.fired_at)) = [(1, AlertStatus.active, 7)] :=
  ⟨fires_once_sustained cpuState cpuRule "h1" 30 (cpuSamples 95 30) (cpuSample 95) 30
      (by decide) (Or.inl rfl) rfl rfl (by decide) (by decide) (by decide) rfl (by decide)
      (by decide)
      (fun p hp => by
        rcases List.mem_append.mp hp with hp | hp
        · exact cpuSamples_triggers 30 p hp
        · simp only [List.mem_singleton] at hp
          subst hp
          exact ⟨95, rfl, by decide⟩)
      (by decide),
    by decide, by decide⟩

/-! ## C5 -/

theorem eq_of_rule_id_eq {rules : List Rule} (hnd : (rules.map (fun q => q.id)).Nodup)
    {q rule : Rule} (hq : q ∈ rules) (hr : rule ∈ rules) (hqr : q.id = rule.id) : q = rule :=
  List.inj_on_of_nodup_map hnd hq hr hqr

theorem evalRule_cooldown (h : String) (m : String → Option ℚ) (now : Int) (rule : Rule)
    (s : State) (hcool : inCooldown (getLastFiredAlert s.alerts rule.id h) rule now = true) :
    (evalRule h m now rule s).state.alerts = s.alerts ∨
    (evalRule h m now rule s).state.alerts =
      resolveStale (getLastFiredAlert s.alerts rule.id h) now s.alerts := by
  unfold evalRule
  split
  · exact Or.inl rfl
  · split
    · exact Or.inl rfl
    · rename_i v _
      dsimp only
      split
      · left
        have hta := trackSince_alerts (trackerKey rule.id h) now s
        split
        · rw [fireRule_suppressed h v now rule _ (by rw [hta]; exact hcool)]
          exact hta
        · exact hta
      · exact Or.inr (clearRule_alerts h now rule s)

theorem alertsFor_ids_resolveStale (last : Option Alert) (now : Int) (l : List Alert)
    (r h : String) :
    ((resolveStale last now l).filter (alertMatches r h)).map (fun a => a.id) =
      (l.filter (alertMatches r h)).map (fun a => a.id) := by
  rw [resolveStale_filter, resolveStale_ids]

theorem inCooldown_of_active {a : Alert} {rule : Rule} {now c : Int}
    (hc : rule.cooldown_s = some c) (hact : a.status = AlertStatus.active)
    (hlt : now - a.fired_at < c) : inCooldown (some a) rule now = true := by
  simp only [inCooldown, hact, decide_True, Bool.true_and, decide_eq_true_eq, hc, orDefault]
  split <;> omega

/-- C5: if the most recent alert instance of the rule and host is active with
`fired_at = f` and `now - f < cooldown_s`, an `evaluateMetric` call at `now`
creates no new instance for the rule and host, whatever the sample and the
sustained time: the instances of the rule and host keep their ids. -/
theorem cooldown_suppresses (s : State) (rule : Rule) (h : String) (c now : Int) (a : Alert)
    (m : String → Option ℚ)
    (hrule : rule ∈ s.rules) (hnd : (s.rules.map (fun q => q.id)).Nodup)
    (hid : AlertIdsUnique s.alerts) (hc : rule.cooldown_s = some c)
    (hlast : getLastFiredAlert s.alerts rule.id h = some a)
    (hact : a.status = AlertStatus.active) (hlt : now - a.fired_at < c) :
    (alertsFor rule.id h (evaluateMetric h m now s).state).map (fun x => x.id) =
      (alertsFor rule.id h s).map (fun x => x.id) := by
  by_cases hex : ∃ q ∈ getRulesForServer s.rules h, q.id = rule.id
  · obtain ⟨q, hq, hqr⟩ := hex
    have hq' : q ∈ s.rules := (List.mem_filter.mp hq).1
    have := eq_of_rule_id_eq hnd hq' hrule hqr
    subst this
    obtain ⟨pre, post, hsplit, hpre, hpost⟩ := rules_split (getRulesForServer_nodup hnd h) hq
    unfold evaluateMetric
    rw [hsplit]
    obtain ⟨hpa, _⟩ := evalRules_others h m now pre s q.id hid hpre
    rcases evalRules_at h m now pre post q s hid hpost with ⟨_, heq⟩ | ⟨_, hsame⟩
    · rw [heq, hpa]
    · rw [hsame.1]
      have hl1 : getLastFiredAlert (evalRules h m now pre s).state.alerts q.id h = some a := by
        rw [getLastFiredAlert_congr hpa]; exact hlast
      have hcool : inCooldown (getLastFiredAlert (evalRules h m now pre s).state.alerts q.id h)
          q now = true := by
        rw [hl1]; exact inCooldown_of_active hc hact hlt
      unfold alertsFor at hpa ⊢
      rcases evalRule_cooldown h m now q _ hcool with h1 | h1
      · rw [h1, hpa]
      · rw [h1, alertsFor_ids_resolveStale, hpa]
  · have hne : ∀ q ∈ getRulesForServer s.rules h, q.id ≠ rule.id :=
      fun q hq hqr => hex ⟨q, hq, hqr⟩
    unfold evaluateMetric
    rw [(evalRules_others h m now _ s rule.id hid hne).1]

/-- Witness of C5: the alert fired at t = 30 is active, the condition has been
sustained since t = 60 and the sample at t = 100 is 95; no instance is
added. -/
theorem cooldown_suppresses_witness :
    (alertsFor cpuRule.id "h1"
        (evaluateMetric "h1" (cpuSample 95) 100
          (sustainedState [firedAlert AlertStatus.active])).state).map (fun x => x.id) =
      (alertsFor cpuRule.id "h1" (sustainedState [firedAlert AlertStatus.active])).map
        (fun x => x.id) ∧
    (alertsFor cpuRule.id "h1" (sustainedState [firedAlert AlertStatus.active])).map
        (fun x => x.id) = [1] :=
  ⟨cooldown_suppresses (sustainedState [firedAlert AlertStatus.active]) cpuRule "h1" 300 100
      (firedAlert AlertStatus.active) (cpuSample 95) (by decide) (by decide) (by decide) rfl
      (by decide) rfl (by decide),
    by decide⟩

/-! ## C6 and C9: the cooldown applies to an active last alert only -/

/-- When the last alert of the rule and host is not active, a sample that
satisfies the condition for at least the duration inserts a new active row and
leaves the earlier rows as they are. -/
theorem refires_when_last_not_active (s : State) (rule : Rule) (h : String) (now : Int)
    (a : Alert) (m : String → Option ℚ) (v : ℚ)
    (hrule : rule ∈ s.rules) (hscope : rule.server_id = none ∨ rule.server_id = some h)
    (hen : rule.enabled = true) (hnd : (s.rules.map (fun q => q.id)).Nodup)
    (hid : AlertIdsUnique s.alerts) (hsrv : h ∈ s.servers.map (fun x => x.id))
    (hv : m rule.metric = some v) (hc : evaluate v rule.operator rule.threshold = true)
    (hel : orDefault rule.duration_s 0 ≤
      now - (s.sustainedSince (trackerKey rule.id h)).getD now)
    (hlast : getLastFiredAlert s.alerts rule.id h = some a)
    (hna : a.status ≠ AlertStatus.active) :
    ∃ id, (∀ b ∈ s.alerts, b.id < id) ∧
      alertsFor rule.id h (evaluateMetric h m now s).state =
        alertsFor rule.id h s ++ [mkAlert id rule h v now] := by
  have hcool : inCooldown (getLastFiredAlert s.alerts rule.id h) rule now = false := by
    rw [hlast]
    simp [inCooldown, hna]
  obtain ⟨id, hfresh, hfa, _⟩ := evaluateMetric_fire h m now rule s v
    (mem_getRulesForServer hrule hscope) hnd hid hsrv hen hv hc hel hcool
  refine ⟨id, hfresh, ?_⟩
  rw [hfa, hlast]
  simp [resolveStale, hna]

/-- C6, counterexample: the last alert of the rule and host is resolved,
fired at t = 30; at t = 100, inside the cooldown of 300 seconds, a sample of 95
with the condition sustained since t = 60 creates instance 2. -/
theorem resolved_cooldown_counterexample :
    (getLastFiredAlert (sustainedState [firedAlert AlertStatus.resolved]).alerts cpuRule.id
        "h1").map (fun a => (a.status, a.fired_at)) = some (AlertStatus.resolved, 30) ∧
    cpuRule.cooldown_s = some 300 ∧ (100 : Int) - 30 < 300 ∧
    (alertsFor cpuRule.id "h1"
        (evaluateMetric "h1" (cpuSample 95) 100
          (sustainedState [firedAlert AlertStatus.resolved])).state).map
        (fun a => (a.id, a.status, a.fired_at)) =
      [(1, AlertStatus.resolved, 30), (2, AlertStatus.active, 100)] := by
  decide

/-- C6, amended: the cooldown does not outlast a resolve.  If the most recent
alert instance of the rule and host is resolved, an `evaluateMetric` call at
`now` whose sample satisfies the condition for at least `duration_s` creates
one new active instance with `fired_at = now` and a fresh id, however small
`now - fired_at` is, and leaves the earlier instances unchanged. -/
theorem resolved_last_refires (s : State) (rule : Rule) (h : String) (now : Int)
    (a : Alert) (m : String → Option ℚ) (v : ℚ)
    (hrule : rule ∈ s.rules) (hscope : rule.server_id = none ∨ rule.server_id = some h)
    (hen : rule.enabled = true) (hnd : (s.rules.map (fun q => q.id)).Nodup)
    (hid : AlertIdsUnique s.alerts) (hsrv : h ∈ s.servers.map (fun x => x.id))
    (hv : m rule.metric = some v) (hc : evaluate v rule.operator rule.threshold = true)
    (hel : orDefault rule.duration_s 0 ≤
      now - (s.sustainedSince (trackerKey rule.id h)).getD now)
    (hlast : getLastFiredAlert s.alerts rule.id h = some a)
    (hres : a.status = AlertStatus.resolved) :
    ∃ new, alertsFor rule.id h (evaluateMetric h m now s).state =
        alertsFor rule.id h s ++ [new] ∧
      new.status = AlertStatus.active ∧ new.fired_at = now ∧ ∀ b ∈ s.alerts, b.id < new.id := by
  obtain ⟨id, hfresh, hfa⟩ := refires_when_last_not_active s rule h now a m v hrule hscope hen
    hnd hid hsrv hv hc hel hlast (by rw [hres]; decide)
  exact ⟨mkAlert id rule h v now, hfa, rfl, rfl, hfresh⟩

/-- Witness of C6 amended: the resolved alert of t = 30 and the sample of 95 at
t = 100. -/
theorem resolved_last_refires_witness :
    ∃ new, alertsFor cpuRule.id "h1"
        (evaluateMetric "h1" (cpuSample 95) 100
          (sustainedState [firedAlert AlertStatus.resolved])).state =
        alertsFor cpuRule.id "h1" (sustainedState [firedAlert AlertStatus.resolved]) ++ [new] ∧
      new.status = AlertStatus.active ∧ new.fired_at = 100 ∧
      ∀ b ∈ (sustainedState [firedAlert AlertStatus.resolved]).alerts, b.id < new.id :=
  resolved_last_refires (sustainedState [firedAlert AlertStatus.resolved]) cpuRule "h1" 100
    (firedAlert AlertStatus.resolved) (cpuSample 95) 95 (by decide) (Or.inl rfl) rfl (by decide)
    (by decide) (by decide) rfl (by decide) (by decide) (by decide) rfl

/-- C9, counterexample: the last alert of the rule and host is acknowledged,
fired at t = 30; at t = 100, inside the cooldown of 300 seconds, a sample of 95
with the condition sustained since t = 60 creates instance 2. -/
theorem acknowledged_cooldown_counterexample :
    (getLastFiredAlert (sustainedState [firedAlert AlertStatus.acknowledged]).alerts cpuRule.id
        "h1").map (fun a => (a.status, a.fired_at)) = some (AlertStatus.acknowledged, 30) ∧
    cpuRule.cooldown_s = some 300 ∧ (100 : Int) - 30 < 300 ∧
    (alertsFor cpuRule.id "h1"
        (evaluateMetric "h1" (cpuSample 95) 100
          (sustainedState [firedAlert AlertStatus.acknowledged])).state).map
        (fun a => (a.id, a.status, a.fired_at)) =
      [(1, AlertStatus.acknowledged, 30), (2, AlertStatus.active, 100)] := by
  decide

/-- C9, amended: acknowledging an active alert instance ends the re-firing
prevention.  If the most recent instance of the rule and host is acknowledged,
an `evaluateMetric` call at `now` whose sample satisfies the condition for at
least `duration_s` creates one new active instance with `fired_at = now` and a
fresh id, also when `now - f < cooldown_s`; the acknowledged instance stays
acknowledged. -/
theorem acknowledged_last_refires (s : State) (rule : Rule) (h : String) (now : Int)
    (a : Alert) (m : String → Option ℚ) (v : ℚ)
    (hrule : rule ∈ s.rules) (hscope : rule.server_id = none ∨ rule.server_id = some h)
    (hen : rule.enabled = true) (hnd : (s.rules.map (fun q => q.id)).Nodup)
    (hid : AlertIdsUnique s.alerts) (hsrv : h ∈ s.servers.map (fun x => x.id))
    (hv : m rule.metric = some v) (hc : evaluate v rule.operator rule.threshold = true)
    (hel : orDefault rule.duration_s 0 ≤
      now - (s.sustainedSince (trackerKey rule.id h)).getD now)
    (hlast : getLastFiredAlert s.alerts rule.id h = some a)
    (hack : a.status = AlertStatus.acknowledged) :
    (∃ new, alertsFor rule.id h (evaluateMetric h m now s).state =
        alertsFor rule.id h s ++ [new] ∧
      new.status = AlertStatus.active ∧ new.fired_at = now ∧ ∀ b ∈ s.alerts, b.id < new.id) ∧
    a ∈ alertsFor rule.id h (evaluateMetric h m now s).state := by
  obtain ⟨id, hfresh, hfa⟩ := refires_when_last_not_active s rule h now a m v hrule hscope hen
    hnd hid hsrv hv hc hel hlast (by rw [hack]; decide)
  refine ⟨⟨mkAlert id rule h v now, hfa, rfl, rfl, hfresh⟩, ?_⟩
  rw [hfa]
  apply List.mem_append_left
  obtain ⟨h1, h2⟩ := getLastFiredAlert_mem hlast
  exact List.mem_filter.mpr ⟨h1, h2⟩

/-- Witness of C9 amended: the acknowledged alert of t = 30 and the sample of
95 at t = 100. -/
theorem acknowledged_last_refires_witness :
    (∃ new, alertsFor cpuRule.id "h1"
        (evaluateMetric "h1" (cpuSample 95) 100
          (sustainedState [firedAlert AlertStatus.acknowledged])).state =
        alertsFor cpuRule.id "h1" (sustainedState [firedAlert AlertStatus.acknowledged]) ++
          [new] ∧
      new.status = AlertStatus.active ∧ new.fired_at = 100 ∧
      ∀ b ∈ (sustainedState [firedAlert AlertStatus.acknowledged]).alerts, b.id < new.id) ∧
    firedAlert AlertStatus.acknowledged ∈ alertsFor cpuRule.id "h1"
      (evaluateMetric "h1" (cpuSample 95) 100
        (sustainedState [firedAlert AlertStatus.acknowledged])).state :=
  acknowledged_last_refires (sustainedState [firedAlert AlertStatus.acknowledged]) cpuRule "h1"
    100 (firedAlert AlertStatus.acknowledged) (cpuSample 95) 95 (by decide) (Or.inl rfl) rfl
    (by decide) (by decide) (by decide) rfl (by decide) (by decide) (by decide) rfl

/-! ## C7 -/

/-- In a reachable state, a sample on which the condition of an enabled rule
is false leaves the rows of the rule and host as the stale resolve of the last
row leaves them, and clears the tracker entry. -/
theorem evaluateMetric_clear (h : String) (m : String → Option ℚ) (now : Int) (rule : Rule)
    (s : State) (v : ℚ) (hmem : rule ∈ getRulesForServer s.rules h)
    (hnd : (s.rules.map (fun q => q.id)).Nodup) (hid : AlertIdsUnique s.alerts)
    (hsrv : h ∈ s.servers.map (fun x => x.id))
    (hen : rule.enabled = true) (hv : m rule.metric = some v)
    (hc : evaluate v rule.operator rule.threshold = false) :
    alertsFor rule.id h (evaluateMetric h m now s).state =
      resolveStale (getLastFiredAlert s.alerts rule.id h) now (alertsFor rule.id h s) ∧
    (evaluateMetric h m now s).state.sustainedSince (trackerKey rule.id h) = none := by
  obtain ⟨pre, post, hsplit, hpre, hpost⟩ := rules_split (getRulesForServer_nodup hnd h) hmem
  unfold evaluateMetric
  rw [hsplit]
  obtain ⟨hpa, _⟩ := evalRules_others h m now pre s rule.id hid hpre
  have hlast : getLastFiredAlert (evalRules h m now pre s).state.alerts rule.id h =
      getLastFiredAlert s.alerts rule.id h := getLastFiredAlert_congr hpa
  rcases evalRules_at h m now pre post rule s hid hpost with ⟨hthrew, _⟩ | ⟨_, hsame⟩
  · rw [evalRules_no_throw h m now pre s hsrv] at hthrew
    cases hthrew
  · rw [evalRule_clear h m now rule _ v hen hv hc] at hsame
    obtain ⟨hsa, hst⟩ := hsame
    dsimp only at hsa hst
    refine ⟨?_, ?_⟩
    · rw [hsa]
      unfold alertsFor at hpa ⊢
      rw [clearRule_alerts, resolveStale_filter, hlast, hpa]
    · rw [hst]
      exact clearRule_tracker_key _ _ _ _

/-- C7: in a reachable state, for an enabled rule scoped to a registered host
and a sample whose value does not satisfy the condition, after `evaluateMetric`
no active alert instance remains for the rule and host, an instance that was
active is resolved with `resolved_at = now`, the tracker has no entry for the
rule and host, and no instance was created for them. -/
theorem clear_resolves (t : Int) (s : State) (hs : Reachable t s) (now : Int) (hle : t ≤ now)
    (rule : Rule) (h : String) (m : String → Option ℚ) (v : ℚ)
    (hrule : rule ∈ s.rules) (hscope : rule.server_id = none ∨ rule.server_id = some h)
    (hen : rule.enabled = true) (hnd : (s.rules.map (fun q => q.id)).Nodup)
    (hsrv : h ∈ s.servers.map (fun x => x.id))
    (hv : m rule.metric = some v) (hc : evaluate v rule.operator rule.threshold = false) :
    activeFor rule.id h (evaluateMetric h m now s).state = [] ∧
    (∀ a ∈ activeFor rule.id h s,
      { a with status := AlertStatus.resolved, resolved_at := some now } ∈
        alertsFor rule.id h (evaluateMetric h m now s).state) ∧
    (evaluateMetric h m now s).state.sustainedSince (trackerKey rule.id h) = none ∧
    (alertsFor rule.id h (evaluateMetric h m now s).state).map (fun a => a.id) =
      (alertsFor rule.id h s).map (fun a => a.id) := by
  have hinv := alertInv_mono hle (alertInv_of_reachable hs)
  obtain ⟨hfa, htr⟩ := evaluateMetric_clear h m now rule s v (mem_getRulesForServer hrule hscope)
    hnd hinv.1 hsrv hen hv hc
  have hfa' : alertsFor rule.id h (evaluateMetric h m now s).state =
      (resolveStale (getLastFiredAlert s.alerts rule.id h) now s.alerts).filter
        (alertMatches rule.id h) := by
    rw [hfa, resolveStale_filter]
    rfl
  refine ⟨?_, ?_, htr, ?_⟩
  · unfold activeFor
    rw [List.filter_eq_nil_iff]
    intro a ha
    rw [hfa'] at ha
    obtain ⟨ha1, ha2⟩ := List.mem_filter.mp ha
    simpa using resolveStale_no_active rule.id h now hinv a ha1 ha2
  · intro a ha
    obtain ⟨ha1, ha2⟩ := List.mem_filter.mp ha
    have hact : a.status = AlertStatus.active := by simpa using ha2
    obtain ⟨ha3, ha4⟩ := List.mem_filter.mp ha1
    obtain ⟨r', hr', hl⟩ := hinv.2.2 a ha3 hact
    obtain ⟨h1, h2⟩ := alertMatches_iff.mp ha4
    rw [h1] at hr'
    cases hr'
    rw [h2] at hl
    rw [hfa, hl]
    simp only [resolveStale, hact, if_true, resolveAlert]
    apply List.mem_map.mpr
    exact ⟨a, ha1, by simp⟩
  · rw [hfa', alertsFor_ids_resolveStale]
    rfl

/-- Witness of C7: in the scenario the alert fired at t = 30 is active; the
sample of 50 at t = 35 resolves it with `resolved_at = 35`, clears the tracker
and adds no instance. -/
theorem clear_resolves_witness :
    (activeFor cpuRule.id "h1"
        (evaluateMetric "h1" (cpuSample 50) 35
          (runSamples "h1" [(cpuSample 95, 0), (cpuSample 95, 30)] cpuState)).state = [] ∧
      (∀ a ∈ activeFor cpuRule.id "h1"
          (runSamples "h1" [(cpuSample 95, 0), (cpuSample 95, 30)] cpuState),
        { a with status := AlertStatus.resolved, resolved_at := some 35 } ∈
          alertsFor cpuRule.id "h1"
            (evaluateMetric "h1" (cpuSample 50) 35
              (runSamples "h1" [(cpuSample 95, 0), (cpuSample 95, 30)] cpuState)).state) ∧
      (evaluateMetric "h1" (cpuSample 50) 35
          (runSamples "h1" [(cpuSample 95, 0), (cpuSample 95, 30)] cpuState)).state.sustainedSince
        (trackerKey cpuRule.id "h1") = none ∧
      (alertsFor cpuRule.id "h1"
          (evaluateMetric "h1" (cpuSample 50) 35
            (runSamples "h1" [(cpuSample 95, 0), (cpuSample 95, 30)] cpuState)).state).map
          (fun a => a.id) =
        (alertsFor cpuRule.id "h1"
          (runSamples "h1" [(cpuSample 95, 0), (cpuSample 95, 30)] cpuState)).map
          (fun a => a.id)) ∧
    (activeFor cpuRule.id "h1"
        (runSamples "h1" [(cpuSample 95, 0), (cpuSample 95, 30)] cpuState)).map
        (fun a => (a.id, a.fired_at)) = [(1, 30)] ∧
    (alertsFor cpuRule.id "h1"
        (runSamples "h1" [(cpuSample 50, 35)] cpuState)) = [] :=
  ⟨clear_resolves 30 (runSamples "h1" [(cpuSample 95, 0), (cpuSample 95, 30)] cpuState)
      (Reachable.eval "h1" (cpuSample 95) 30
        (Reachable.eval "h1" (cpuSample 95) 0 (Reachable.init 0 cpuState rfl) (by decide))
        (by decide))
      35 (by decide) cpuRule "h1" (cpuSample 50) 50 (by decide) (Or.inl rfl) rfl (by decide)
      (by decide) rfl (by decide),
    by decide, by decide⟩

/-! ## C8 -/

theorem grows_refl (l : List Alert) : Grows l l := by
  refine ⟨fun i a hi => ⟨a, hi, rfl, Or.inl rfl⟩, ?_⟩
  intro j b hj hb
  rw [List.getElem?_eq_none hj] at hb
  cases hb

theorem grows_trans {l₁ l₂ l₃ : List Alert} (h12 : Grows l₁ l₂) (h23 : Grows l₂ l₃) :
    Grows l₁ l₃ := by
  refine ⟨?_, ?_⟩
  · intro i a hi
    obtain ⟨a', hi', hid', hst'⟩ := h12.1 i a hi
    obtain ⟨a'', hi'', hid'', hst''⟩ := h23.1 i a' hi'
    refine ⟨a'', hi'', hid''.trans hid', ?_⟩
    rcases hst'' with h | h
    · rw [h]; exact hst'
    · exact Or.inr h
  · intro j b hj hb a ha
    by_cases hj2 : j < l₂.length
    · obtain ⟨b', hb', hbid, _⟩ := h23.1 j l₂[j] (List.getElem?_eq_getElem hj2)
      rw [hb] at hb'
      cases hb'
      rw [hbid]
      exact h12.2 j l₂[j] hj (List.getElem?_eq_getElem hj2) a ha
    · obtain ⟨i, hi⟩ := List.getElem?_of_mem ha
      obtain ⟨a', hi', hid', _⟩ := h12.1 i a hi
      have := h23.2 j b (by omega) hb a' (List.getElem?_mem hi')
      omega

theorem grows_resolveStale (last : Option Alert) (now : Int) (l : List Alert) :
    Grows l (resolveStale last now l) := by
  unfold resolveStale
  cases last with
  | none => exact grows_refl l
  | some c =>
    dsimp only
    split
    · refine ⟨?_, ?_⟩
      · intro i a hi
        simp only [resolveAlert, List.getElem?_map, hi, Option.map_some']
        refine ⟨_, rfl, ?_, ?_⟩
        · split <;> rfl
        · split
          · exact Or.inr rfl
          · exact Or.inl rfl
      · intro j b hj hb
        rw [List.getElem?_eq_none (by simpa [resolveAlert] using hj)] at hb
        cases hb
    · exact grows_refl l

theorem grows_append_new (l : List Alert) (new : Alert) (hnew : new.id = nextAlertId l) :
    Grows l (l ++ [new]) := by
  refine ⟨?_, ?_⟩
  · intro i a hi
    have hlt : i < l.length := (List.getElem?_eq_some.mp hi).1
    exact ⟨a, by rw [List.getElem?_append_left hlt]; exact hi, rfl, Or.inl rfl⟩
  · intro j b hj hb a ha
    rw [List.getElem?_append_right hj] at hb
    have hb' := List.getElem?_mem hb
    simp only [List.mem_singleton] at hb'
    subst hb'
    rw [hnew]
    exact lt_nextAlertId ha

theorem grows_evalRule (h : String) (m : String → Option ℚ) (now : Int) (rule : Rule)
    (s : State) : Grows s.alerts (evalRule h m now rule s).state.alerts := by
  rcases evalRule_alerts h m now rule s with h1 | h1 | ⟨v, h1⟩
  · rw [h1]; exact grows_refl _
  · rw [h1]; exact grows_resolveStale _ _ _
  · rw [h1]
    exact grows_trans (grows_resolveStale _ _ _) (grows_append_new _ _ rfl)

theorem grows_evalRules (h : String) (m : String → Option ℚ) (now : Int) (rules : List Rule)
    (s : State) : Grows s.alerts (evalRules h m now rules s).state.alerts := by
  induction rules generalizing s with
  | nil => exact grows_refl _
  | cons q rest ih =>
    simp only [evalRules]
    split
    · exact grows_evalRule h m now q s
    · exact grows_trans (grows_evalRule h m now q s) (ih _)

theorem grows_resolveAlert (now : Int) (id : Nat) (l : List Alert) :
    Grows l (resolveAlert now id l) := by
  refine ⟨?_, ?_⟩
  · intro i a hi
    simp only [resolveAlert, List.getElem?_map, hi, Option.map_some']
    refine ⟨_, rfl, ?_, ?_⟩
    · split <;> rfl
    · split
      · exact Or.inr rfl
      · exact Or.inl rfl
  · intro j b hj hb
    rw [List.getElem?_eq_none (by simpa [resolveAlert] using hj)] at hb
    cases hb

/-- C8, counterexample: alert 1 is resolved; the operator acknowledge of
alert 1 at t = 40 sets it to acknowledged. -/
theorem resolved_terminal_counterexample :
    (sustainedState [firedAlert AlertStatus.resolved]).alerts.map (fun a => (a.id, a.status)) =
      [(1, AlertStatus.resolved)] ∧
    (acknowledgeRoute 1 40 (sustainedState [firedAlert AlertStatus.resolved])).alerts.map
      (fun a => (a.id, a.status)) = [(1, AlertStatus.acknowledged)] := by
  decide

/-- C8, amended: `evaluateMetric` and the operator resolve never change the
status of a resolved alert instance; the operator acknowledge has no status
guard and sets the instance with the given id to acknowledged, also when it is
resolved.  No operation makes a resolved instance active again, and the rows
an operation adds (a later firing) have ids larger than every existing id. -/
theorem resolved_kept_except_acknowledge (op : Op) (s : State) (i : Nat) (a : Alert)
    (hi : s.alerts[i]? = some a) (hres : a.status = AlertStatus.resolved) :
    (∃ a', (op.run s).alerts[i]? = some a' ∧ a'.id = a.id ∧
      a'.status = (if op.acknowledges a.id then AlertStatus.acknowledged
        else AlertStatus.resolved)) ∧
    ∀ (j : Nat) (b : Alert), s.alerts.length ≤ j → (op.run s).alerts[j]? = some b →
      ∀ c ∈ s.alerts, c.id < b.id := by
  have hgrow : ∀ l', Grows s.alerts l' →
      (∃ a', l'[i]? = some a' ∧ a'.id = a.id ∧ a'.status = AlertStatus.resolved) := by
    intro l' hg
    obtain ⟨a', h1, h2, h3⟩ := hg.1 i a hi
    refine ⟨a', h1, h2, ?_⟩
    rcases h3 with h3 | h3
    · rw [h3, hres]
    · exact h3
  cases op with
  | eval serverId metric now =>
    have hg := grows_evalRules serverId metric now (getRulesForServer s.rules serverId) s
    refine ⟨by simpa [Op.run, Op.acknowledges, evaluateMetric] using hgrow _ hg, ?_⟩
    intro j b hj hb
    exact hg.2 j b hj hb
  | acknowledge id now =>
    refine ⟨?_, ?_⟩
    · simp only [Op.run, acknowledgeRoute, ackAlert, List.getElem?_map, hi, Option.map_some',
        Op.acknowledges]
      refine ⟨_, rfl, ?_, ?_⟩
      · split <;> rfl
      · by_cases hid : a.id = id
        · simp [hid]
        · have : ¬ id = a.id := fun h => hid h.symm
          simp [hid, this, hres]
    · intro j b hj hb
      rw [List.getElem?_eq_none (by simpa [Op.run, acknowledgeRoute, ackAlert] using hj)] at hb
      cases hb
  | resolve id now =>
    have hg := grows_resolveAlert now id s.alerts
    refine ⟨by simpa [Op.run, Op.acknowledges, resolveRoute] using hgrow _ hg, ?_⟩
    intro j b hj hb
    rw [List.getElem?_eq_none (by simpa [Op.run, resolveRoute, resolveAlert] using hj)] at hb
    cases hb

/-- Witness of C8 amended: the resolved alert 1 keeps its status when the
sample of 95 at t = 100 fires again, and the row added has a larger id. -/
theorem resolved_kept_except_acknowledge_witness :
    (∃ a', ((Op.eval "h1" (cpuSample 95) 100).run
        (sustainedState [firedAlert AlertStatus.resolved])).alerts[0]? = some a' ∧
      a'.id = (firedAlert AlertStatus.resolved).id ∧
      a'.status = (if (Op.eval "h1" (cpuSample 95) 100).acknowledges
          (firedAlert AlertStatus.resolved).id then AlertStatus.acknowledged
        else AlertStatus.resolved)) ∧
    ∀ (j : Nat) (b : Alert), (sustainedState [firedAlert AlertStatus.resolved]).alerts.length ≤ j →
      ((Op.eval "h1" (cpuSample 95) 100).run
        (sustainedState [firedAlert AlertStatus.resolved])).alerts[j]? = some b →
      ∀ c ∈ (sustainedState [firedAlert AlertStatus.resolved]).alerts, c.id < b.id :=
  resolved_kept_except_acknowledge (Op.eval "h1" (cpuSample 95) 100)
    (sustainedState [firedAlert AlertStatus.resolved]) 0 (firedAlert AlertStatus.resolved) rfl rfl

/-! ## C10 -/

theorem foldl_sweepStep_events (now : Int) (rows : List Server) (s : State) :
    (rows.foldl (sweepStep now) s).events =
      s.events ++ (rows.filter (isStale now)).map (fun r => Event.serverOffline r.id) := by
  induction rows generalizing s with
  | nil => simp
  | cons row rest ih =>
    simp only [List.foldl_cons, List.filter_cons]
    rw [ih]
    unfold sweepStep
    split <;> simp

/-- The rows after the loop: a row whose id is the id of a stale row of the
snapshot is marked offline. -/
theorem foldl_sweepStep_servers (now : Int) (rows : List Server) (s : State) :
    (rows.foldl (sweepStep now) s).servers =
      s.servers.map (fun x =>
        if rows.any (fun row => isStale now row && decide (row.id = x.id)) then markOffline now x
        else x) := by
  induction rows generalizing s with
  | nil => simp
  | cons row rest ih =>
    simp only [List.foldl_cons]
    rw [ih]
    unfold sweepStep
    by_cases hst : isStale now row = true
    · simp only [hst, if_true, updateServerStatus, List.map_map]
      apply List.map_congr_left
      intro x _
      simp only [Function.comp, List.any_cons, Bool.true_and]
      by_cases hid : x.id = row.id
      · have hid' : decide (row.id = x.id) = true := by simp [hid]
        simp only [if_pos hid, hid', Bool.and_true, hst, Bool.true_or, if_true]
        split <;> rfl
      · have hid' : ¬ row.id = x.id := fun h => hid h.symm
        simp [hid, hid']
    · simp only [hst, Bool.false_eq_true, if_false]
      apply List.map_congr_left
      intro x _
      simp [hst]

theorem eq_of_server_id_eq {servers : List Server}
    (hnd : (servers.map (fun x => x.id)).Nodup) {x y : Server} (hx : x ∈ servers)
    (hy : y ∈ servers) (hxy : x.id = y.id) : x = y :=
  List.inj_on_of_nodup_map hnd hx hy hxy

theorem mem_getServers {servers : List Server} {x : Server} :
    x ∈ getServers servers ↔ x ∈ servers :=
  (List.perm_insertionSort _ servers).mem_iff

/-- The host table after a sweep: exactly the stale rows are marked offline. -/
theorem heartbeatSweep_servers (now : Int) (s : State)
    (hnd : (s.servers.map (fun x => x.id)).Nodup) :
    (heartbeatSweep now s).servers =
      s.servers.map (fun x => if isStale now x then markOffline now x else x) := by
  unfold heartbeatSweep
  rw [foldl_sweepStep_servers]
  apply List.map_congr_left
  intro x hx
  by_cases hst : isStale now x = true
  · have : (getServers s.servers).any
        (fun row => isStale now row && decide (row.id = x.id)) = true := by
      rw [List.any_eq_true]
      exact ⟨x, mem_getServers.mpr hx, by simp [hst]⟩
    rw [this, hst]
  · have : (getServers s.servers).any
        (fun row => isStale now row && decide (row.id = x.id)) = false := by
      rw [List.any_eq_false]
      intro row hrow hcon
      simp only [Bool.and_eq_true, decide_eq_true_eq] at hcon
      have := eq_of_server_id_eq hnd (mem_getServers.mp hrow) hx hcon.2
      subst this
      exact hst hcon.1
    rw [this]
    simp [hst]

/-- The events of a sweep: one `server:offline` more for a stale host, none
for another host. -/
theorem heartbeatSweep_count (now : Int) (s : State)
    (hnd : (s.servers.map (fun x => x.id)).Nodup) (x : Server) (hx : x ∈ s.servers) :
    (heartbeatSweep now s).events.count (Event.serverOffline x.id) =
      s.events.count (Event.serverOffline x.id) + (if isStale now x then 1 else 0) := by
  unfold heartbeatSweep
  rw [foldl_sweepStep_events, List.count_append]
  congr 1
  have hperm : List.Perm
      (((getServers s.servers).filter (isStale now)).map (fun r => Event.serverOffline r.id))
      ((s.servers.filter (isStale now)).map (fun r => Event.serverOffline r.id)) :=
    ((List.perm_insertionSort _ s.servers).filter _).map _
  rw [hperm.count_eq]
  have hnd2 : ((s.servers.filter (isStale now)).map (fun r => Event.serverOffline r.id)).Nodup := by
    have h1 : ((s.servers.filter (isStale now)).map (fun r => r.id)).Nodup :=
      ((List.filter_sublist s.servers).map (fun r => r.id)).nodup hnd
    have h2 := List.Nodup.map (fun a b hab => Event.serverOffline.inj hab) h1
    rw [List.map_map] at h2
    exact h2
  by_cases hst : isStale now x = true
  · rw [if_pos hst]
    apply List.count_eq_one_of_mem hnd2
    exact List.mem_map.mpr ⟨x, List.mem_filter.mpr ⟨hx, hst⟩, rfl⟩
  · rw [if_neg hst]
    apply List.count_eq_zero_of_not_mem
    intro hmem
    obtain ⟨y, hy, hyx⟩ := List.mem_map.mp hmem
    obtain ⟨hy1, hy2⟩ := List.mem_filter.mp hy
    have hid : y.id = x.id := Event.serverOffline.inj hyx
    have := eq_of_server_id_eq hnd hy1 hx hid
    subst this
    exact hst hy2

theorem heartbeatSweep_server_ids (now : Int) (s : State)
    (hnd : (s.servers.map (fun x => x.id)).Nodup) :
    (heartbeatSweep now s).servers.map (fun x => x.id) = s.servers.map (fun x => x.id) := by
  rw [heartbeatSweep_servers now s hnd, List.map_map]
  apply List.map_congr_left
  intro x _
  simp only [Function.comp]
  split <;> rfl

/-- Further sweeps emit nothing for a host that is offline. -/
theorem sweeps_offline_silent (times : List Int) (s : State)
    (hnd : (s.servers.map (fun x => x.id)).Nodup) (y : Server) (hy : y ∈ s.servers)
    (hoff : y.status = HostStatus.offline) :
    (sweeps times s).events.count (Event.serverOffline y.id) =
      s.events.count (Event.serverOffline y.id) := by
  induction times generalizing s with
  | nil => rfl
  | cons t rest ih =>
    have hns : isStale t y = false := by simp [isStale, hoff]
    have hc := heartbeatSweep_count t s hnd y hy
    rw [hns] at hc
    simp only [Bool.false_eq_true, if_false, Nat.add_zero] at hc
    have hy' : y ∈ (heartbeatSweep t s).servers := by
      rw [heartbeatSweep_servers t s hnd]
      exact List.mem_map.mpr ⟨y, hy, by simp [hns]⟩
    have := ih (heartbeatSweep t s) (by rw [heartbeatSweep_server_ids t s hnd]; exact hnd) hy'
    simp only [sweeps, List.foldl_cons] at this ⊢
    rw [this, hc]

/-- A row with `last_seen = 0` is never stale for the sweep, because 0 is
falsy: at t = 61 the host stays online and no event is emitted.  Every write
of `last_seen` is a clock reading in seconds, so such a row needs a clock at
the epoch. -/
theorem sweep_epoch_counterexample :
    cpuState.servers.map (fun x => (x.id, x.status, x.last_seen)) =
      [("h1", HostStatus.online, some 0)] ∧
    (61 : Int) - 0 > 60 ∧
    (heartbeatSweep 61 cpuState).servers = cpuState.servers ∧
    (heartbeatSweep 61 cpuState).events = [] := by
  decide

/-- The sweep on arbitrary rows, those without a truthy `last_seen`
included: a row that is not offline, has a `last_seen` other than 0 and is more
than 60 seconds old is marked offline with one event, and further sweeps add
none; every other row is left unchanged with no event. -/
theorem sweep_marks_stale (s : State) (now : Int)
    (hnd : (s.servers.map (fun x => x.id)).Nodup) (x : Server) (hx : x ∈ s.servers) :
    (∀ t, x.status ≠ HostStatus.offline → x.last_seen = some t → t ≠ 0 → now - t > 60 →
      markOffline now x ∈ (heartbeatSweep now s).servers ∧
      (heartbeatSweep now s).events.count (Event.serverOffline x.id) =
        s.events.count (Event.serverOffline x.id) + 1 ∧
      ∀ times, (sweeps times (heartbeatSweep now s)).events.count (Event.serverOffline x.id) =
        (heartbeatSweep now s).events.count (Event.serverOffline x.id)) ∧
    ((x.status = HostStatus.offline ∨ x.last_seen = none ∨ x.last_seen = some 0 ∨
        ∃ t, x.last_seen = some t ∧ now - t ≤ 60) →
      x ∈ (heartbeatSweep now s).servers ∧
      (heartbeatSweep now s).events.count (Event.serverOffline x.id) =
        s.events.count (Event.serverOffline x.id)) ∧
    (heartbeatSweep now s).servers =
      s.servers.map (fun y => if isStale now y then markOffline now y else y) := by
  have hsv := heartbeatSweep_servers now s hnd
  have hcount := heartbeatSweep_count now s hnd x hx
  refine ⟨?_, ?_, hsv⟩
  · intro t h1 h2 h3 h4
    have hst : isStale now x = true := by simp [isStale, h1, h2, h3, h4]
    have hmem : markOffline now x ∈ (heartbeatSweep now s).servers := by
      rw [hsv]
      exact List.mem_map.mpr ⟨x, hx, by simp [hst]⟩
    refine ⟨hmem, by rw [hcount, if_pos hst], ?_⟩
    intro times
    exact sweeps_offline_silent times (heartbeatSweep now s)
      (by rw [heartbeatSweep_server_ids now s hnd]; exact hnd) (markOffline now x) hmem rfl
  · intro hcase
    have hst : isStale now x = false := by
      rcases hcase with h | h | h | ⟨t, h, hle⟩
      · simp [isStale, h]
      · simp [isStale, h]
      · simp [isStale, h]
      · simp only [isStale, h, Bool.and_eq_false_imp, decide_eq_true_eq, Bool.and_eq_false_iff,
          decide_eq_false_iff_not]
        intro _ _
        omega
    refine ⟨?_, by rw [hcount]; simp [hst]⟩
    rw [hsv]
    exact List.mem_map.mpr ⟨x, hx, by simp [hst]⟩

/-- The sweep on the three hosts of `silentState`: at t = 161 the host `h1`,
silent for 61 seconds, is marked offline with one event and no further one in
the sweep at t = 191; `h2` and `h3` are unchanged. -/
theorem sweep_marks_stale_witness :
    ((∀ t, silentHost.status ≠ HostStatus.offline → silentHost.last_seen = some t → t ≠ 0 →
        161 - t > 60 →
        markOffline 161 silentHost ∈ (heartbeatSweep 161 silentState).servers ∧
        (heartbeatSweep 161 silentState).events.count (Event.serverOffline silentHost.id) =
          silentState.events.count (Event.serverOffline silentHost.id) + 1 ∧
        ∀ times, (sweeps times (heartbeatSweep 161 silentState)).events.count
            (Event.serverOffline silentHost.id) =
          (heartbeatSweep 161 silentState).events.count (Event.serverOffline silentHost.id)) ∧
      (heartbeatSweep 161 silentState).servers =
        silentState.servers.map (fun y => if isStale 161 y then markOffline 161 y else y)) ∧
    (silentHost.status ≠ HostStatus.offline ∧ silentHost.last_seen = some 100 ∧
      (161 : Int) - 100 > 60) ∧
    (sweeps [161, 191] silentState).servers.map (fun x => (x.id, x.status, x.last_seen)) =
      [("h1", HostStatus.offline, some 161), ("h2", HostStatus.online, some 150),
        ("h3", HostStatus.offline, some 10)] ∧
    (sweeps [161, 191] silentState).events = [Event.serverOffline "h1"] :=
  ⟨⟨(sweep_marks_stale silentState 161 (by decide) silentHost (by decide)).1,
      (sweep_marks_stale silentState 161 (by decide) silentHost (by decide)).2.2⟩,
    by decide, by decide, by decide⟩

/-! ## C2 -/

/-- C2, the code at the failing input: after register, a sample that fires the
critical alert 1, the operator resolve of alert 1 and a sample on which the
condition is false, the host has no active alert and its status is still
critical. -/
theorem status_stale_after_operator_resolve :
    operatorTrace.alerts.map (fun a => (a.id, a.server_id, a.severity, a.status)) =
      [(1, "h1", "critical", AlertStatus.resolved)] ∧
    getActiveAlerts operatorTrace.alerts = [] ∧
    operatorTrace.servers.map (fun x => (x.id, x.status)) = [("h1", HostStatus.critical)] ∧
    statusOnClear operatorTrace.alerts "h1" = HostStatus.online := by
  decide

/-! ## C20 -/

/-- C20: for all numeric value and threshold, `evaluate` is `value > threshold`
for gt, `value < threshold` for lt, `value >= threshold` for gte,
`value <= threshold` for lte and exact equality for eq; for every other
operator the result is false. -/
theorem evaluate_spec (value threshold : ℚ) :
    evaluate value "gt" threshold = decide (value > threshold) ∧
    evaluate value "lt" threshold = decide (value < threshold) ∧
    evaluate value "gte" threshold = decide (value ≥ threshold) ∧
    evaluate value "lte" threshold = decide (value ≤ threshold) ∧
    evaluate value "eq" threshold = decide (value = threshold) ∧
    ∀ operator : String, operator ≠ "gt" → operator ≠ "lt" → operator ≠ "gte" →
      operator ≠ "lte" → operator ≠ "eq" → evaluate value operator threshold = false := by
  refine ⟨rfl, rfl, rfl, rfl, rfl, ?_⟩
  intro operator h1 h2 h3 h4 h5
  unfold evaluate
  split <;> first | rfl | contradiction

/-- Witness of C20: the operator `neq` is none of the five, and 1/3 is not
equal to 0.3333 under eq. -/
theorem evaluate_spec_witness :
    evaluate 5 "neq" 3 = false ∧ evaluate (1 / 3) "eq" (3333 / 10000) = false ∧
    evaluate (955 / 10) "gt" 90 = true :=
  ⟨(evaluate_spec 5 3).2.2.2.2.2 "neq" (by decide) (by decide) (by decide) (by decide)
      (by decide),
    by rw [(evaluate_spec (1 / 3) (3333 / 10000)).2.2.2.2.1]; norm_num,
    by rw [(evaluate_spec (955 / 10) 90).1]; norm_num⟩

/-! ## C11 -/

theorem lastN_length {α : Type} (n : Nat) (l : List α) : (lastN n l).length = min n l.length := by
  unfold lastN
  rw [List.length_drop]
  omega

theorem pushLog_lastN (hist : List LogEntry) (e : LogEntry) :
    pushLog (lastN MAX_LOG_ENTRIES hist) e = lastN MAX_LOG_ENTRIES (hist ++ [e]) := by
  unfold pushLog lastN MAX_LOG_ENTRIES
  simp only [List.length_append, List.length_drop, List.length_singleton]
  by_cases hlen : 500 ≤ hist.length
  · have hgt : hist.length - (hist.length - 500) + 1 > 500 := by omega
    rw [if_pos hgt]
    have hne : List.drop (hist.length - 500) hist ≠ [] := by
      intro h
      have := List.drop_eq_nil_iff.mp h
      omega
    have hidx : hist.length - 500 + 1 = hist.length + 1 - 500 := by omega
    rw [List.tail_append_of_ne_nil hne, List.tail_drop,
      List.drop_append_of_le_length (by omega), hidx]
  · have hle : ¬ hist.length - (hist.length - 500) + 1 > 500 := by omega
    rw [if_neg hle]
    have h0 : hist.length - 500 = 0 := by omega
    have h1 : hist.length + 1 - 500 = 0 := by omega
    rw [h0, h1]
    rfl

theorem foldl_pushLog_lastN (hist entries : List LogEntry) :
    entries.foldl pushLog (lastN MAX_LOG_ENTRIES hist) = lastN MAX_LOG_ENTRIES (hist ++ entries) := by
  induction entries generalizing hist with
  | nil => simp
  | cons e rest ih =>
    rw [List.foldl_cons, pushLog_lastN, ih]
    simp

theorem onLog_registeredId (conn : Nat) (entry : LogEntry) (s : State) (c : Nat) :
    registeredId (onLog conn entry s) c = registeredId s c := by
  unfold onLog
  split <;> rfl

theorem onLogsSnapshot_registeredId (conn : Nat) (entries : Option (List LogEntry)) (s : State)
    (c : Nat) : registeredId (onLogsSnapshot conn entries s) c = registeredId s c := by
  unfold onLogsSnapshot
  split <;> rfl

/-- One log message: the buffer of the host goes from the last 500 of the
history to the last 500 of the history with the entries of the message. -/
theorem onAgentMessage_log (conn : Nat) (m : Msg) (clk : Clock) (s : State) (h : String)
    (hist : List LogEntry) (hm : m.isLog = true) (hreg : registeredId s conn = some h)
    (hbuf : s.serverLogs h = some (lastN MAX_LOG_ENTRIES hist)) :
    (onAgentMessage conn (some m) clk s).state.serverLogs h =
      some (lastN MAX_LOG_ENTRIES (hist ++ m.logEntries)) ∧
    registeredId (onAgentMessage conn (some m) clk s).state conn = some h := by
  cases m with
  | log entry =>
    refine ⟨?_, ?_⟩
    · simp only [onAgentMessage, onLog, hreg, hbuf, Option.getD_some, if_true, Msg.logEntries,
        pushLog_lastN]
    · simp only [onAgentMessage]
      rw [onLog_registeredId]
      exact hreg
  | logsSnapshot entries =>
    refine ⟨?_, ?_⟩
    · simp only [onAgentMessage, onLogsSnapshot, hreg, hbuf, Option.getD_some, if_true,
        Msg.logEntries, foldl_pushLog_lastN]
    · simp only [onAgentMessage]
      rw [onLogsSnapshot_registeredId]
      exact hreg
  | register _ => simp [Msg.isLog] at hm
  | metrics _ => simp [Msg.isLog] at hm
  | details _ => simp [Msg.isLog] at hm
  | subscribeLogs _ => simp [Msg.isLog] at hm
  | subscribeDetails _ => simp [Msg.isLog] at hm
  | other => simp [Msg.isLog] at hm

/-- C11: for a registered host whose log buffer holds the last 500 of the
entries appended so far (none after the first registration), after every
sequence of `log` and `logs:snapshot` messages from its agent the buffer is the
last min(500, n) of the n entries appended so far, in arrival order; its length
is at most 500, and a push on a full buffer drops the oldest entry. -/
theorem log_buffer_last (conn : Nat) (h : String) (s : State) (hist : List LogEntry)
    (msgs : List (Msg × Clock)) (hreg : registeredId s conn = some h)
    (hbuf : s.serverLogs h = some (lastN MAX_LOG_ENTRIES hist))
    (hlog : ∀ m ∈ msgs, m.1.isLog = true) :
    (runAgent conn msgs s).serverLogs h =
      some (lastN MAX_LOG_ENTRIES (hist ++ (msgs.map (fun m => m.1.logEntries)).flatten)) ∧
    (lastN MAX_LOG_ENTRIES (hist ++ (msgs.map (fun m => m.1.logEntries)).flatten)).length =
      min 500 (hist.length + ((msgs.map (fun m => m.1.logEntries)).flatten).length) ∧
    ∀ (logs : List LogEntry) (e : LogEntry),
      (logs.length = 500 → pushLog logs e = logs.tail ++ [e]) ∧
      (logs.length < 500 → pushLog logs e = logs ++ [e]) := by
  refine ⟨?_, ?_, ?_⟩
  · induction msgs generalizing s hist with
    | nil => simpa [runAgent] using hbuf
    | cons m rest ih =>
      obtain ⟨h1, h2⟩ := onAgentMessage_log conn m.1 m.2 s h hist (hlog m (by simp)) hreg hbuf
      have := ih (onAgentMessage conn (some m.1) m.2 s).state (hist ++ m.1.logEntries) h2 h1
        (fun m' hm' => hlog m' (by simp [hm']))
      simp only [runAgent, List.foldl_cons, List.map_cons, List.flatten_cons] at this ⊢
      rw [this, List.append_assoc]
  · rw [lastN_length, List.length_append]
    rfl
  · intro logs e
    refine ⟨?_, ?_⟩
    · intro hl
      have hne : logs ≠ [] := by
        intro h0
        rw [h0] at hl
        simp at hl
      simp only [pushLog, List.length_append, List.length_singleton, hl, MAX_LOG_ENTRIES]
      rw [if_pos (by omega), List.tail_append_of_ne_nil hne]
    · intro hl
      simp only [pushLog, List.length_append, List.length_singleton, MAX_LOG_ENTRIES]
      rw [if_neg (by omega)]

/-- Witness of C11: the agent of `h1` sends a log line, a snapshot of two
lines and a log line; the buffer holds the four lines in arrival order. -/
theorem log_buffer_last_witness :
    (runAgent 1
        [(Msg.log (logLine 1), ⟨0, 0, 0⟩),
          (Msg.logsSnapshot (some [logLine 2, logLine 3]), ⟨1, 1, 1000⟩),
          (Msg.log (logLine 4), ⟨2, 2, 2000⟩)] loggingState).serverLogs "h1" =
      some [logLine 1, logLine 2, logLine 3, logLine 4] :=
  (log_buffer_last 1 "h1" loggingState []
    [(Msg.log (logLine 1), ⟨0, 0, 0⟩),
      (Msg.logsSnapshot (some [logLine 2, logLine 3]), ⟨1, 1, 1000⟩),
      (Msg.log (logLine 4), ⟨2, 2, 2000⟩)] (by decide) (by decide) (by decide)).1

/-! ## C13 -/

theorem trackSince_metrics (key : String) (now : Int) (s : State) :
    (trackSince key now s).metrics = s.metrics := by
  unfold trackSince
  split <;> rfl

theorem fireRule_metrics (h : String) (v : ℚ) (now : Int) (rule : Rule) (s : State) :
    (fireRule h v now rule s).state.metrics = s.metrics := by
  unfold fireRule
  dsimp only
  split
  · rfl
  · split <;> rfl

theorem clearRule_metrics (h : String) (now : Int) (rule : Rule) (s : State) :
    (clearRule h now rule s).metrics = s.metrics := by
  unfold clearRule
  dsimp only
  split
  · rfl
  · split <;> rfl

theorem evalRule_metrics (h : String) (m : String → Option ℚ) (now : Int) (rule : Rule)
    (s : State) : (evalRule h m now rule s).state.metrics = s.metrics := by
  unfold evalRule
  split
  · rfl
  · split
    · rfl
    · dsimp only
      split
      · split
        · rw [fireRule_metrics, trackSince_metrics]
        · rw [trackSince_metrics]
      · exact clearRule_metrics _ _ _ _

theorem evalRules_metrics (h : String) (m : String → Option ℚ) (now : Int) (rules : List Rule)
    (s : State) : (evalRules h m now rules s).state.metrics = s.metrics := by
  induction rules generalizing s with
  | nil => rfl
  | cons q rest ih =>
    simp only [evalRules]
    split
    · exact evalRule_metrics _ _ _ _ _
    · rw [ih, evalRule_metrics]

/-- The sample store after an accepted metrics message: the row of the
message is appended, whatever the rule evaluation does. -/
theorem onMetrics_metrics (conn : Nat) (data : MetricData) (now evalNow : Int) (s : State)
    (h : String) (hreg : registeredId s conn = some h)
    (hsrv : h ∈ s.servers.map (fun x => x.id)) :
    (onMetrics conn data now evalNow s).state.metrics =
      s.metrics ++ [{ server_id := h, ts := now, data := data }] := by
  unfold onMetrics
  rw [hreg]
  dsimp only
  split
  · rename_i hnone
    have := (getServer_isSome_iff s.servers h).mpr hsrv
    rw [hnone] at this
    simp at this
  · split
    · exact evalRules_metrics _ _ _ _ _
    · exact evalRules_metrics _ _ _ _ _

theorem mem_getMetrics {metrics : List MetricRow} {h : String} {lo hi : Int} {row : MetricRow} :
    row ∈ getMetrics metrics h lo hi ↔
      row ∈ metrics ∧ row.server_id = h ∧ lo ≤ row.ts ∧ row.ts ≤ hi := by
  unfold getMetrics
  rw [(List.perm_insertionSort _ _).mem_iff, List.mem_filter]
  simp [and_assoc]

/-- C13: for a metrics message accepted from the registered agent of host `h`
at receive time `t`, a query of the store by `(h, lo, hi)` with
`lo <= t <= hi` returns a sample of `h` with `ts = t` whose fifteen metric
fields are those of the message's data (absent fields null, a 0 kept as 0);
so does the route when its `from` and `to` are given and not 0. -/
theorem metrics_round_trip (conn : Nat) (data : MetricData) (t evalNow : Int) (s : State)
    (h : String) (hreg : registeredId s conn = some h)
    (hsrv : h ∈ s.servers.map (fun x => x.id)) (lo hi : Int) (hlo : lo ≤ t) (hhi : t ≤ hi) :
    (∃ row ∈ getMetrics (onMetrics conn data t evalNow s).state.metrics h lo hi,
      row.server_id = h ∧ row.ts = t ∧ row.data = data) ∧
    ∀ now : Int, lo ≠ 0 → hi ≠ 0 →
      ∃ row ∈ metricsRoute h (some lo) (some hi) now (onMetrics conn data t evalNow s).state,
        row.server_id = h ∧ row.ts = t ∧ row.data = data := by
  have hmem : ({ server_id := h, ts := t, data := data } : MetricRow) ∈
      getMetrics (onMetrics conn data t evalNow s).state.metrics h lo hi := by
    rw [mem_getMetrics, onMetrics_metrics conn data t evalNow s h hreg hsrv]
    exact ⟨by simp, rfl, hlo, hhi⟩
  refine ⟨⟨_, hmem, rfl, rfl, rfl⟩, ?_⟩
  intro now hlo0 hhi0
  refine ⟨{ server_id := h, ts := t, data := data }, ?_, rfl, rfl, rfl⟩
  unfold metricsRoute
  simp only [orDefault, hlo0, hhi0, if_false]
  exact hmem

/-- Witness of C13: the agent of `h1` reports cpu_pct 0 and mem_pct 42 at
t = 50; the query of `h1` over 1..100 returns that row, and only that one.
The route called at t = 10000 with `from=0` reads the 0 as absent and queries
the last hour, which is empty. -/
theorem metrics_round_trip_witness :
    ((∃ row ∈ getMetrics (onMetrics 1 { cpu_pct := some 0, mem_pct := some 42 } 50 50
          loggingState).state.metrics "h1" 1 100,
        row.server_id = "h1" ∧ row.ts = 50 ∧
          row.data = { cpu_pct := some 0, mem_pct := some 42 }) ∧
      ∀ now : Int, (1 : Int) ≠ 0 → (100 : Int) ≠ 0 →
        ∃ row ∈ metricsRoute "h1" (some 1) (some 100) now
            (onMetrics 1 { cpu_pct := some 0, mem_pct := some 42 } 50 50 loggingState).state,
          row.server_id = "h1" ∧ row.ts = 50 ∧
            row.data = { cpu_pct := some 0, mem_pct := some 42 }) ∧
    getMetrics (onMetrics 1 { cpu_pct := some 0, mem_pct := some 42 } 50 50
        loggingState).state.metrics "h1" 1 100 =
      [{ server_id := "h1", ts := 50, data := { cpu_pct := some 0, mem_pct := some 42 } }] ∧
    metricsRoute "h1" (some 0) (some 100) 10000
      (onMetrics 1 { cpu_pct := some 0, mem_pct := some 42 } 50 50 loggingState).state = [] :=
  ⟨metrics_round_trip 1 { cpu_pct := some 0, mem_pct := some 42 } 50 50 loggingState "h1"
      (by decide) (by decide) 1 100 (by decide) (by decide),
    by decide, by decide⟩

/-! ## C17 -/

/-- C17: for a viewer `subscribe:logs` request naming host `h`, the reply is a
single `logs:snapshot` message for `h` on the requesting connection, whose
entries are the last min(200, n) entries of the log buffer of `h` in buffer
order, the empty list for a host with no buffer; nothing else is sent and no
shared state changes. -/
theorem subscribe_logs_reply (conn : Nat) (h : String) (clk : Clock) (s : State)
    (hkind : s.connKind conn = some ConnKind.dashboard) (hne : h ≠ "") :
    onMessage conn (some (Msg.subscribeLogs (some h))) clk s =
      { s with sent := fun c =>
          if c = conn then
            s.sent c ++ [WsMsg.logsSnapshot h (lastN 200 ((s.serverLogs h).getD []))]
          else s.sent c } ∧
    (lastN 200 ((s.serverLogs h).getD [])).length = min 200 ((s.serverLogs h).getD []).length ∧
    (∃ rest, (s.serverLogs h).getD [] = rest ++ lastN 200 ((s.serverLogs h).getD [])) ∧
    (s.serverLogs h = none → lastN 200 ((s.serverLogs h).getD []) = []) := by
  refine ⟨?_, lastN_length _ _, ⟨_, (List.take_append_drop _ _).symm⟩, ?_⟩
  · simp only [onMessage, hkind, onDashboardMessage, hne, if_false, wsSend]
  · intro hnone
    rw [hnone]
    rfl

/-- Witness of C17: connection 1 asks for the logs of `h1` and gets the three
lines of the buffer; asking for the unknown host `h9` gives an empty list. -/
theorem subscribe_logs_reply_witness :
    (onMessage 1 (some (Msg.subscribeLogs (some "h1"))) ⟨0, 0, 0⟩ viewerState =
        { viewerState with sent := fun c =>
            if c = 1 then
              viewerState.sent c ++
                [WsMsg.logsSnapshot "h1" (lastN 200 ((viewerState.serverLogs "h1").getD []))]
            else viewerState.sent c } ∧
      (lastN 200 ((viewerState.serverLogs "h1").getD [])).length =
        min 200 ((viewerState.serverLogs "h1").getD []).length ∧
      (∃ rest, (viewerState.serverLogs "h1").getD [] =
        rest ++ lastN 200 ((viewerState.serverLogs "h1").getD [])) ∧
      (viewerState.serverLogs "h1" = none →
        lastN 200 ((viewerState.serverLogs "h1").getD []) = [])) ∧
    (onMessage 1 (some (Msg.subscribeLogs (some "h1"))) ⟨0, 0, 0⟩ viewerState).sent 1 =
      [WsMsg.logsSnapshot "h1" [logLine 1, logLine 2, logLine 3]] ∧
    (onMessage 1 (some (Msg.subscribeLogs (some "h9"))) ⟨0, 0, 0⟩ viewerState).sent 1 =
      [WsMsg.logsSnapshot "h9" []] :=
  ⟨subscribe_logs_reply 1 "h1" ⟨0, 0, 0⟩ viewerState (by decide) (by decide),
    by decide, by decide⟩

/-! ## C15 and C16 -/

theorem foldl_send_fields (msg : WsMsg) (l : List Nat) (s : State) :
    (l.foldl (fun st ws => if st.readyState ws = 1 then wsSend ws msg st else st) s).readyState =
        s.readyState ∧
    (l.foldl (fun st ws => if st.readyState ws = 1 then wsSend ws msg st else st)
        s).dashboardClients = s.dashboardClients := by
  induction l generalizing s with
  | nil => exact ⟨rfl, rfl⟩
  | cons ws rest ih =>
    simp only [List.foldl_cons]
    obtain ⟨h1, h2⟩ := ih (if s.readyState ws = 1 then wsSend ws msg s else s)
    rw [h1, h2]
    split <;> exact ⟨rfl, rfl⟩

theorem foldl_send_sent (msg : WsMsg) (l : List Nat) (hnd : l.Nodup) (s : State) (c : Nat) :
    (l.foldl (fun st ws => if st.readyState ws = 1 then wsSend ws msg st else st) s).sent c =
      if c ∈ l ∧ s.readyState c = 1 then s.sent c ++ [msg] else s.sent c := by
  induction l generalizing s with
  | nil => simp
  | cons ws rest ih =>
    simp only [List.foldl_cons]
    rw [ih (List.nodup_cons.mp hnd).2]
    have hnot : ws ∉ rest := (List.nodup_cons.mp hnd).1
    by_cases hopen : s.readyState ws = 1
    · simp only [hopen, if_true, wsSend, List.mem_cons]
      by_cases hc : c = ws
      · subst hc
        simp [hnot, hopen]
      · simp [hc]
    · simp only [hopen, if_false, List.mem_cons]
      by_cases hc : c = ws
      · subst hc
        simp [hnot, hopen]
      · simp [hc]

theorem broadcast_sent (data : Event) (s : State) (hnd : s.dashboardClients.Nodup) (c : Nat) :
    (broadcast data s).sent c =
      if c ∈ s.dashboardClients ∧ s.readyState c = 1 then s.sent c ++ [WsMsg.event data]
      else s.sent c :=
  foldl_send_sent _ _ hnd s c

theorem broadcast_fields (data : Event) (s : State) :
    (broadcast data s).readyState = s.readyState ∧
    (broadcast data s).dashboardClients = s.dashboardClients :=
  foldl_send_fields _ _ s

/-- C15: `broadcast` hands the same serialized event to every connection that
is registered in `dashboardClients` and open at the time of the call, and after
any sequence of broadcasts such a viewer has received the events in publish
order. -/
theorem broadcast_delivers (s : State) (hnd : s.dashboardClients.Nodup) (c : Nat)
    (hc : c ∈ s.dashboardClients) (hopen : s.readyState c = 1) :
    (∀ data, (broadcast data s).sent c = s.sent c ++ [WsMsg.event data]) ∧
    ∀ events, (publishAll events s).sent c = s.sent c ++ events.map WsMsg.event := by
  refine ⟨?_, ?_⟩
  · intro data
    rw [broadcast_sent data s hnd c, if_pos ⟨hc, hopen⟩]
  · intro events
    induction events generalizing s with
    | nil => simp [publishAll]
    | cons data rest ih =>
      obtain ⟨h1, h2⟩ := broadcast_fields data s
      have := ih (broadcast data s) (by rw [h2]; exact hnd) (by rw [h2]; exact hc)
        (by rw [h1]; exact hopen)
      simp only [publishAll, List.foldl_cons, List.map_cons] at this ⊢
      rw [this, broadcast_sent data s hnd c, if_pos ⟨hc, hopen⟩, List.append_assoc]
      rfl

/-- Witness of C15: the open viewers 1 and 3 receive the two events in publish
order. -/
theorem broadcast_delivers_witness :
    ((∀ data, (broadcast data viewerState).sent 3 =
        viewerState.sent 3 ++ [WsMsg.event data]) ∧
      ∀ events, (publishAll events viewerState).sent 3 =
        viewerState.sent 3 ++ events.map WsMsg.event) ∧
    (publishAll [Event.serverOnline "h1" none, Event.serverOffline "h1"] viewerState).sent 1 =
      [WsMsg.event (Event.serverOnline "h1" none), WsMsg.event (Event.serverOffline "h1")] ∧
    (publishAll [Event.serverOnline "h1" none, Event.serverOffline "h1"] viewerState).sent 3 =
      [WsMsg.event (Event.serverOnline "h1" none), WsMsg.event (Event.serverOffline "h1")] :=
  ⟨broadcast_delivers viewerState (by decide) 3 (by decide) (by decide), by decide, by decide⟩

/-- C16, counterexample: connection 2 is registered and closed; after the
publish it is still in `dashboardClients`. -/
theorem broadcast_keeps_dead_counterexample :
    viewerState.dashboardClients = [1, 2, 3] ∧ viewerState.readyState 2 = 3 ∧
    (broadcast (Event.serverOffline "h1") viewerState).dashboardClients = [1, 2, 3] ∧
    (broadcast (Event.serverOffline "h1") viewerState).sent 2 = [] := by
  decide

/-- C16, amended: a viewer connection that is not open at publish time is
skipped by the publish, gets nothing and stays in the viewer registry; every
registered open viewer receives the event; the connection leaves the registry
when its close handler runs. -/
theorem broadcast_skips_dead (s : State) (hnd : s.dashboardClients.Nodup) (data : Event)
    (dead : Nat) (hdead : s.readyState dead ≠ 1) :
    (broadcast data s).dashboardClients = s.dashboardClients ∧
    (broadcast data s).sent dead = s.sent dead ∧
    (∀ c ∈ s.dashboardClients, s.readyState c = 1 →
      (broadcast data s).sent c = s.sent c ++ [WsMsg.event data]) ∧
    (s.connKind dead = some ConnKind.dashboard → ∀ now,
      dead ∉ (onConnectionClose dead now s).dashboardClients ∧
      ∀ c, c ≠ dead → (c ∈ (onConnectionClose dead now s).dashboardClients ↔
        c ∈ s.dashboardClients)) := by
  refine ⟨(broadcast_fields data s).2, ?_, ?_, ?_⟩
  · rw [broadcast_sent data s hnd dead, if_neg (fun h => hdead h.2)]
  · intro c hc hopen
    rw [broadcast_sent data s hnd c, if_pos ⟨hc, hopen⟩]
  · intro hkind now
    simp only [onConnectionClose, hkind, setDelete, List.mem_filter, decide_eq_true_eq]
    refine ⟨fun h => h.2 rfl, ?_⟩
    intro c hc
    exact ⟨fun h => h.1, fun h => ⟨h, hc⟩⟩

/-- Witness of C16 amended: the closed connection 2 gets nothing and stays
registered, the open connections 1 and 3 get the event, and the close handler
of connection 2 removes it. -/
theorem broadcast_skips_dead_witness :
    ((broadcast (Event.serverOffline "h1") viewerState).dashboardClients =
        viewerState.dashboardClients ∧
      (broadcast (Event.serverOffline "h1") viewerState).sent 2 = viewerState.sent 2 ∧
      (∀ c ∈ viewerState.dashboardClients, viewerState.readyState c = 1 →
        (broadcast (Event.serverOffline "h1") viewerState).sent c =
          viewerState.sent c ++ [WsMsg.event (Event.serverOffline "h1")]) ∧
      (viewerState.connKind 2 = some ConnKind.dashboard → ∀ now,
        2 ∉ (onConnectionClose 2 now viewerState).dashboardClients ∧
        ∀ c, c ≠ 2 → (c ∈ (onConnectionClose 2 now viewerState).dashboardClients ↔
          c ∈ viewerState.dashboardClients))) ∧
    (onConnectionClose 2 0 viewerState).dashboardClients = [1, 3] :=
  ⟨broadcast_skips_dead viewerState (by decide) (Event.serverOffline "h1") 2 (by decide),
    by decide⟩

/-! ## C12 -/

/-- C12, the code at the failing input: connections 1 and 2 registered host
`h1`, the registry maps `h1` to the superseding connection 2 and the host is
online; the close of the superseded connection 1 deletes the entry of the live
connection 2, marks the host offline and broadcasts server:offline for it. -/
theorem close_superseded_drops_live_agent :
    supersededState.agentClients "h1" = some 2 ∧
    supersededState.servers.map (fun x => (x.id, x.status)) = [("h1", HostStatus.online)] ∧
    (onConnectionClose 1 30 supersededState).agentClients "h1" = none ∧
    (onConnectionClose 1 30 supersededState).servers.map (fun x => (x.id, x.status)) =
      [("h1", HostStatus.offline)] ∧
    (onConnectionClose 1 30 supersededState).events =
      supersededState.events ++ [Event.serverOffline "h1"] := by
  decide

/-- The close handler as written: closing an agent connection whose host id is
`h` deletes the registry entry of `h`, whichever connection it maps to, marks
`h` offline with `last_seen = now` and broadcasts `server:offline` for `h`; the
registry entries of all other host ids are left unchanged.  Closing an agent
connection without a host id changes nothing. -/
theorem close_deletes_host_entry (conn : Nat) (now : Int) (s : State)
    (hkind : s.connKind conn = some ConnKind.agent) :
    (∀ h, registeredId s conn = some h →
      (onConnectionClose conn now s).agentClients h = none ∧
      (∀ k, k ≠ h → (onConnectionClose conn now s).agentClients k = s.agentClients k) ∧
      (onConnectionClose conn now s).servers =
        updateServerStatus HostStatus.offline now h s.servers ∧
      (onConnectionClose conn now s).events = s.events ++ [Event.serverOffline h]) ∧
    (registeredId s conn = none → onConnectionClose conn now s = s) := by
  refine ⟨?_, ?_⟩
  · intro h hreg
    simp only [onConnectionClose, hkind, onClose, hreg, if_true, and_self, and_true, true_and]
    intro k hk
    simp [hk]
  · intro hreg
    simp only [onConnectionClose, hkind, onClose, hreg]

/-- The close of connection 1 in the state where connection 2 superseded
it. -/
theorem close_deletes_host_entry_witness :
    (∀ h, registeredId supersededState 1 = some h →
      (onConnectionClose 1 30 supersededState).agentClients h = none ∧
      (∀ k, k ≠ h → (onConnectionClose 1 30 supersededState).agentClients k =
        supersededState.agentClients k) ∧
      (onConnectionClose 1 30 supersededState).servers =
        updateServerStatus HostStatus.offline 30 h supersededState.servers ∧
      (onConnectionClose 1 30 supersededState).events =
        supersededState.events ++ [Event.serverOffline h]) ∧
    registeredId supersededState 1 = some "h1" :=
  ⟨(close_deletes_host_entry 1 30 supersededState (by decide)).1, by decide⟩

/-! ## C18 -/

theorem getServer_upsertServer (row : Server) (servers : List Server) :
    getServer (upsertServer row servers) row.id = some row := by
  unfold upsertServer
  split
  · rename_i hany
    induction servers with
    | nil => simp at hany
    | cons x rest ih =>
      by_cases hx : x.id = row.id
      · simp [getServer, hx]
      · have hrest : rest.any (fun s => decide (s.id = row.id)) = true := by
          simpa [hx] using hany
        have := ih hrest
        simp only [getServer, List.map_cons, hx, if_false] at this ⊢
        rw [List.find?_cons_of_neg _ (by simpa using hx)]
        exact this
  · rename_i hany
    unfold getServer
    rw [List.find?_append]
    have : servers.find? (fun s => decide (s.id = row.id)) = none := by
      rw [List.find?_eq_none]
      intro x hx hcon
      apply hany
      rw [List.any_eq_true]
      exact ⟨x, hx, hcon⟩
    rw [this]
    simp

/-- C18, counterexample: connection 1 is opened with `role=dashboard` and its
first message is a register message with a host descriptor; no host is
upserted, the registry is empty and nothing is broadcast.  Connection 2 is
opened with `role=agent` and sends nothing; it is not in the viewer set. -/
theorem register_on_viewer_counterexample :
    (onMessage 1 (some (Msg.register (some webDescr))) ⟨0, 0, 0⟩
        (onConnection 1 (some "dashboard") {})).servers = [] ∧
    (onMessage 1 (some (Msg.register (some webDescr))) ⟨0, 0, 0⟩
        (onConnection 1 (some "dashboard") {})).agentClients "h1" = none ∧
    (onMessage 1 (some (Msg.register (some webDescr))) ⟨0, 0, 0⟩
        (onConnection 1 (some "dashboard") {})).events = [] ∧
    (onMessage 1 (some (Msg.register (some webDescr))) ⟨0, 0, 0⟩
        (onConnection 1 (some "dashboard") {})).dashboardClients = [1] ∧
    (onConnection 2 (some "agent") {}).dashboardClients = [] := by
  decide

/-- C18, amended: a connection is classified by the `role` of its URL, not by
its messages.  With `role=agent` it is an agent connection and is not added to
the viewer set; on such a connection a register message whose descriptor has a
name or hostname, first or later, upserts the host with status online and
`last_seen = now`, maps the host id to the connection in the registry and
broadcasts `server:online`.  Every other connection is a viewer, and a register
message on a viewer connection changes nothing. -/
theorem role_classifies (conn : Nat) (d : ServerDescr) (name : String) (clk : Clock) (s : State)
    (hname : nameOrHostname d = some name) :
    ((onConnection conn (some "agent") s).connKind conn = some ConnKind.agent ∧
      (onConnection conn (some "agent") s).dashboardClients = s.dashboardClients) ∧
    (∀ role, role ≠ some "agent" →
      (onConnection conn role s).connKind conn = some ConnKind.dashboard ∧
      conn ∈ (onConnection conn role s).dashboardClients) ∧
    (s.connKind conn = some ConnKind.agent →
      getServer (onMessage conn (some (Msg.register (some d))) clk s).servers d.id =
        some { id := d.id, name := name, status := HostStatus.online, last_seen := some clk.now } ∧
      (onMessage conn (some (Msg.register (some d))) clk s).agentClients d.id = some conn ∧
      (onMessage conn (some (Msg.register (some d))) clk s).events =
        s.events ++ [Event.serverOnline d.id
          (some { id := d.id, name := name, status := HostStatus.online,
                  last_seen := some clk.now })]) ∧
    (s.connKind conn = some ConnKind.dashboard →
      onMessage conn (some (Msg.register (some d))) clk s = s) := by
  refine ⟨⟨?_, ?_⟩, ?_, ?_, ?_⟩
  · simp [onConnection]
  · simp [onConnection]
  · intro role hrole
    simp only [onConnection, hrole, if_false, wsSend, if_true, true_and, setAdd]
    split
    · assumption
    · simp
  · intro hkind
    have hup := getServer_upsertServer
      { id := d.id, name := name, status := HostStatus.online, last_seen := some clk.now }
      s.servers
    simp only [onMessage, hkind, onAgentMessage, onRegister, hname]
    refine ⟨?_, ?_, ?_⟩
    · split <;> exact hup
    · split <;> simp
    · split <;> simp [hup]
  · intro hkind
    simp only [onMessage, hkind, onDashboardMessage]

/-- Witness of C18 amended: connection 1 with `role=agent` registers `h1`. -/
theorem role_classifies_witness :
    (getServer (onMessage 1 (some (Msg.register (some webDescr))) ⟨5, 5, 5000⟩
          agentOnly).servers webDescr.id =
        some { id := webDescr.id, name := "web", status := HostStatus.online,
               last_seen := some 5 } ∧
      (onMessage 1 (some (Msg.register (some webDescr))) ⟨5, 5, 5000⟩ agentOnly).agentClients
        webDescr.id = some 1 ∧
      (onMessage 1 (some (Msg.register (some webDescr))) ⟨5, 5, 5000⟩ agentOnly).events =
        agentOnly.events ++ [Event.serverOnline webDescr.id
          (some { id := webDescr.id, name := "web", status := HostStatus.online,
                  last_seen := some 5 })]) ∧
    agentOnly.dashboardClients = [] :=
  ⟨(role_classifies 1 webDescr "web" ⟨5, 5, 5000⟩ agentOnly rfl).2.2.1 (by decide), by decide⟩

/-! ## C14 -/

/-- The messages the handler drops before any write: text that does not
parse, a register message without `server`, a metrics message without `data`.
The state is the one before. -/
theorem dropped_before_write (conn : Nat) (clk : Clock) (s : State) :
    (onAgentMessage conn none clk s).state = s ∧
    (onAgentMessage conn (some (Msg.register none)) clk s).state = s ∧
    (onAgentMessage conn (some (Msg.metrics none)) clk s).state = s := by
  refine ⟨rfl, rfl, ?_⟩
  simp only [onAgentMessage]
  split <;> rfl

/-- C14, the code at the failing input: connection 2 has no host id; its
register message for `h1` with neither name nor hostname throws in the upsert,
after the host id of the connection was set to `h1`.  The tables are unchanged
and nothing is broadcast, but the next metrics message of connection 2 is
stored as a sample of `h1`, and its close marks `h1` offline. -/
theorem nameless_register_sets_host_id :
    registeredId (onConnection 2 (some "agent") loggingState) 2 = none ∧
    namelessRegister.threw = true ∧
    registeredId namelessRegister.state 2 = some "h1" ∧
    namelessRegister.state.servers = loggingState.servers ∧
    namelessRegister.state.events = loggingState.events ∧
    (onAgentMessage 2 (some (Msg.metrics (some { cpu_pct := some 50 }))) ⟨21, 21, 21000⟩
        namelessRegister.state).state.metrics =
      [{ server_id := "h1", ts := 21, data := { cpu_pct := some 50 } }] ∧
    (onAgentMessage 2 (some (Msg.metrics (some { cpu_pct := some 50 }))) ⟨21, 21, 21000⟩
        (onConnection 2 (some "agent") loggingState)).state.metrics = [] ∧
    (onConnectionClose 2 22 namelessRegister.state).servers.map (fun x => (x.id, x.status)) =
      [("h1", HostStatus.offline)] := by
  decide

/-! ## C19 -/

theorem guarded_throws (r : TransportResult) : (guarded r).throws = false := by
  cases r <;> rfl

theorem sendEmail_settles (n : Notifier) (a : Alert) :
    (sendEmail n a).throwsIntoCaller = false ∧ (sendEmail n a).promiseRejected = false := by
  unfold sendEmail asyncCall
  refine ⟨rfl, ?_⟩
  dsimp only
  split
  · rfl
  · exact guarded_throws _

theorem sendWebhook_settles (n : Notifier) (a : Alert) :
    (sendWebhook n a).throwsIntoCaller = false ∧ (sendWebhook n a).promiseRejected = false := by
  unfold sendWebhook asyncCall
  refine ⟨rfl, ?_⟩
  dsimp only
  split
  · rfl
  · exact guarded_throws _

/-- With calls that do not throw into the caller the branch is `fireRule`. -/
theorem fireRuleCalling_fst (email webhook : Alert → AsyncCall)
    (he : ∀ a, (email a).throwsIntoCaller = false)
    (hw : ∀ a, (webhook a).throwsIntoCaller = false) (h : String) (v : ℚ) (now : Int)
    (rule : Rule) (s : State) :
    (fireRuleCalling email webhook h v now rule s).1 = fireRule h v now rule s := by
  unfold fireRuleCalling fireRule
  dsimp only
  split
  · rfl
  · split
    · rfl
    · simp only [he, hw, Bool.false_eq_true, if_false]

theorem fireRuleCalling_calls (email webhook : Alert → AsyncCall) (h : String) (v : ℚ)
    (now : Int) (rule : Rule) (s : State) :
    ∀ c ∈ (fireRuleCalling email webhook h v now rule s).2,
      (∃ a, c = email a) ∨ (∃ a, c = webhook a) := by
  unfold fireRuleCalling
  dsimp only
  split
  · simp
  · split
    · simp
    · split
      · intro c hc
        simp only [List.mem_singleton] at hc
        exact Or.inl ⟨_, hc⟩
      · split
        · intro c hc
          simp only [List.mem_cons, List.mem_singleton, List.not_mem_nil, or_false] at hc
          rcases hc with hc | hc
          · exact Or.inl ⟨_, hc⟩
          · exact Or.inr ⟨_, hc⟩
        · intro c hc
          simp only [List.mem_cons, List.mem_singleton, List.not_mem_nil, or_false] at hc
          rcases hc with hc | hc
          · exact Or.inl ⟨_, hc⟩
          · exact Or.inr ⟨_, hc⟩

theorem fireRuleWith_fst (n : Notifier) (h : String) (v : ℚ) (now : Int) (rule : Rule)
    (s : State) : (fireRuleWith n h v now rule s).1 = fireRule h v now rule s :=
  fireRuleCalling_fst _ _ (fun a => (sendEmail_settles n a).1)
    (fun a => (sendWebhook_settles n a).1) h v now rule s

theorem fireRuleWith_calls (n : Notifier) (h : String) (v : ℚ) (now : Int) (rule : Rule)
    (s : State) : ∀ c ∈ (fireRuleWith n h v now rule s).2,
      c.throwsIntoCaller = false ∧ c.promiseRejected = false := by
  intro c hc
  rcases fireRuleCalling_calls _ _ h v now rule s c hc with ⟨a, rfl⟩ | ⟨a, rfl⟩
  · exact sendEmail_settles n a
  · exact sendWebhook_settles n a

theorem evalRuleWith_fst (n : Notifier) (h : String) (m : String → Option ℚ) (now : Int)
    (rule : Rule) (s : State) : (evalRuleWith n h m now rule s).1 = evalRule h m now rule s := by
  unfold evalRuleWith evalRule
  split
  · rfl
  · split
    · rfl
    · dsimp only
      split
      · split
        · exact fireRuleWith_fst _ _ _ _ _ _
        · rfl
      · rfl

theorem evalRuleWith_calls (n : Notifier) (h : String) (m : String → Option ℚ) (now : Int)
    (rule : Rule) (s : State) : ∀ c ∈ (evalRuleWith n h m now rule s).2,
      c.throwsIntoCaller = false ∧ c.promiseRejected = false := by
  unfold evalRuleWith
  split
  · simp
  · split
    · simp
    · dsimp only
      split
      · split
        · exact fireRuleWith_calls _ _ _ _ _ _
        · simp
      · simp

theorem evalRulesWith_fst (n : Notifier) (h : String) (m : String → Option ℚ) (now : Int)
    (rules : List Rule) (s : State) :
    (evalRulesWith n h m now rules s).1 = evalRules h m now rules s := by
  induction rules generalizing s with
  | nil => rfl
  | cons rule rest ih =>
    simp only [evalRulesWith, evalRules, evalRuleWith_fst]
    split
    · exact evalRuleWith_fst _ _ _ _ _ _
    · exact ih _

theorem evalRulesWith_calls (n : Notifier) (h : String) (m : String → Option ℚ) (now : Int)
    (rules : List Rule) (s : State) : ∀ c ∈ (evalRulesWith n h m now rules s).2,
      c.throwsIntoCaller = false ∧ c.promiseRejected = false := by
  induction rules generalizing s with
  | nil => simp [evalRulesWith]
  | cons rule rest ih =>
    simp only [evalRulesWith]
    split
    · exact evalRuleWith_calls _ _ _ _ _ _
    · intro c hc
      rcases List.mem_append.mp hc with hc | hc
      · exact evalRuleWith_calls _ _ _ _ _ _ c hc
      · exact ih _ c hc

/-- C19: the outcome of an `evaluateMetric` call, and with it the alert table,
the host statuses and the sustained tracker, is the same whether the
transports of the email and webhook notifiers succeed, reject or throw: each
notifier catches the failure of its transport, so no notifier call throws into
`evaluateMetric` and none leaves a rejected promise, and the calls are not
awaited. -/
theorem notifier_independent (n n' : Notifier) (h : String) (m : String → Option ℚ) (now : Int)
    (s : State) :
    (evaluateMetricWith n h m now s).1 = (evaluateMetricWith n' h m now s).1 ∧
    (evaluateMetricWith n h m now s).1.state.alerts =
      (evaluateMetricWith n' h m now s).1.state.alerts ∧
    (evaluateMetricWith n h m now s).1.state.servers =
      (evaluateMetricWith n' h m now s).1.state.servers ∧
    (evaluateMetricWith n h m now s).1.state.sustainedSince =
      (evaluateMetricWith n' h m now s).1.state.sustainedSince ∧
    (evaluateMetricWith n h m now s).1 = evaluateMetric h m now s ∧
    (∀ c ∈ (evaluateMetricWith n h m now s).2,
      c.throwsIntoCaller = false ∧ c.promiseRejected = false) := by
  have key : ∀ k : Notifier, (evaluateMetricWith k h m now s).1 = evaluateMetric h m now s :=
    fun k => evalRulesWith_fst k h m now _ s
  rw [key n, key n']
  exact ⟨rfl, rfl, rfl, rfl, rfl, evalRulesWith_calls n h m now _ s⟩

/-- The rule of duration 0 fires on the sample of 95 at t = 7: with the
transports down both calls log a failure and settle, with the transports up
neither logs, and the alert tables are equal. -/
theorem notifier_failure_example :
    (evaluateMetricWith notifierDown "h1" (cpuSample 95) 7 quickState).2 =
      [⟨false, false, true⟩, ⟨false, false, true⟩] ∧
    (evaluateMetricWith notifierOk "h1" (cpuSample 95) 7 quickState).2 =
      [⟨false, false, false⟩, ⟨false, false, false⟩] ∧
    (evaluateMetricWith notifierDown "h1" (cpuSample 95) 7 quickState).1.state.alerts.map
      (fun a => (a.id, a.status, a.fired_at)) = [(1, AlertStatus.active, 7)] := by
  decide

/-- What the `try`/`catch` and the `async` keyword are for: a mail call that
threw into the caller would end the branch after the insert, with no
alert:new event and a throw, where `fireRule` emits the event. -/
theorem unguarded_call_example :
    (fireRuleCalling (fun _ => ⟨true, false, false⟩) (sendWebhook notifierOk) "h1" 95 7
        quickRule quickState).1.threw = true ∧
    (fireRuleCalling (fun _ => ⟨true, false, false⟩) (sendWebhook notifierOk) "h1" 95 7
        quickRule quickState).1.state.events = [] ∧
    (fireRule "h1" 95 7 quickRule quickState).threw = false ∧
    (fireRule "h1" 95 7 quickRule quickState).state.events =
      [Event.alertNew (mkAlert 1 quickRule "h1" 95 7)] := by
  decide

/-! ## C26 -/

theorem orDefault_normalizeCooldown (rule : Rule) :
    orDefault rule.normalizeCooldown.cooldown_s 300 = orDefault rule.cooldown_s 300 := by
  unfold Rule.normalizeCooldown
  split
  · rename_i hc
    rcases hc with hc | hc <;> simp [hc, orDefault]
  · rfl

theorem normalizeCooldown_fields (rule : Rule) :
    rule.normalizeCooldown.id = rule.id ∧ rule.normalizeCooldown.server_id = rule.server_id ∧
    rule.normalizeCooldown.metric = rule.metric ∧
    rule.normalizeCooldown.operator = rule.operator ∧
    rule.normalizeCooldown.threshold = rule.threshold ∧
    rule.normalizeCooldown.duration_s = rule.duration_s ∧
    rule.normalizeCooldown.severity = rule.severity ∧
    rule.normalizeCooldown.enabled = rule.enabled := by
  unfold Rule.normalizeCooldown
  split <;> exact ⟨rfl, rfl, rfl, rfl, rfl, rfl, rfl, rfl⟩

theorem fireRule_normalizeCooldown (h : String) (v : ℚ) (now : Int) (rule : Rule) (s : State) :
    fireRule h v now rule.normalizeCooldown s = fireRule h v now rule s := by
  obtain ⟨h1, _, h3, _, h5, _, h7, _⟩ := normalizeCooldown_fields rule
  have hcool : ∀ last, inCooldown last rule.normalizeCooldown now = inCooldown last rule now := by
    intro last
    unfold inCooldown
    rw [orDefault_normalizeCooldown]
  have hmk : ∀ id, mkAlert id rule.normalizeCooldown h v now = mkAlert id rule h v now := by
    intro id
    simp only [mkAlert, h1, h3, h5, h7]
  unfold fireRule
  simp only [h1, h7, hcool, hmk]

theorem clearRule_normalizeCooldown (h : String) (now : Int) (rule : Rule) (s : State) :
    clearRule h now rule.normalizeCooldown s = clearRule h now rule s := by
  unfold clearRule
  simp only [(normalizeCooldown_fields rule).1]

theorem evalRule_normalizeCooldown (h : String) (m : String → Option ℚ) (now : Int) (rule : Rule)
    (s : State) : evalRule h m now rule.normalizeCooldown s = evalRule h m now rule s := by
  obtain ⟨h1, _, h3, h4, h5, h6, _, h8⟩ := normalizeCooldown_fields rule
  unfold evalRule
  simp only [h1, h3, h4, h5, h6, h8, fireRule_normalizeCooldown, clearRule_normalizeCooldown]

theorem evalRules_normalizeCooldown (h : String) (m : String → Option ℚ) (now : Int)
    (rules : List Rule) (s : State) :
    evalRules h m now (rules.map Rule.normalizeCooldown) s = evalRules h m now rules s := by
  induction rules generalizing s with
  | nil => rfl
  | cons q rest ih =>
    simp only [List.map_cons, evalRules, evalRule_normalizeCooldown, ih]

theorem getRulesForServer_normalizeCooldown (rules : List Rule) (h : String) :
    getRulesForServer (rules.map Rule.normalizeCooldown) h =
      (getRulesForServer rules h).map Rule.normalizeCooldown := by
  unfold getRulesForServer
  induction rules with
  | nil => rfl
  | cons q rest ih =>
    simp only [List.map_cons, List.filter_cons, (normalizeCooldown_fields q).2.1, ih]
    split <;> rfl

theorem trackSince_setRules (key : String) (now : Int) (s : State) (R : List Rule) :
    trackSince key now { s with rules := R } = { trackSince key now s with rules := R } := by
  unfold trackSince
  dsimp only
  split <;> rfl

theorem fireRule_setRules (h : String) (v : ℚ) (now : Int) (q : Rule) (s : State)
    (R : List Rule) :
    fireRule h v now q { s with rules := R } =
      ⟨{ (fireRule h v now q s).state with rules := R }, (fireRule h v now q s).threw⟩ := by
  unfold fireRule
  dsimp only
  split
  · rfl
  · split <;> rfl

theorem clearRule_setRules (h : String) (now : Int) (q : Rule) (s : State) (R : List Rule) :
    clearRule h now q { s with rules := R } = { clearRule h now q s with rules := R } := by
  unfold clearRule
  dsimp only
  split
  · rfl
  · split <;> rfl

theorem evalRule_setRules (h : String) (m : String → Option ℚ) (now : Int) (q : Rule)
    (s : State) (R : List Rule) :
    evalRule h m now q { s with rules := R } =
      ⟨{ (evalRule h m now q s).state with rules := R }, (evalRule h m now q s).threw⟩ := by
  unfold evalRule
  split
  · rfl
  · split
    · rfl
    · dsimp only
      split
      · rw [trackSince_setRules]
        dsimp only
        split
        · exact fireRule_setRules _ _ _ _ _ _
        · rfl
      · rw [clearRule_setRules]

theorem evalRules_setRules (h : String) (m : String → Option ℚ) (now : Int) (rules : List Rule)
    (s : State) (R : List Rule) :
    evalRules h m now rules { s with rules := R } =
      ⟨{ (evalRules h m now rules s).state with rules := R },
        (evalRules h m now rules s).threw⟩ := by
  induction rules generalizing s with
  | nil => rfl
  | cons q rest ih =>
    simp only [evalRules]
    rw [evalRule_setRules]
    dsimp only
    split
    · rfl
    · exact ih _

/-- C26: a rule whose `cooldown_s` is 0 or null is evaluated exactly as the
rule with `cooldown_s = 300`.  One loop iteration gives the same outcome for
the rule and for its normalised form, and `evaluateMetric` on the rule table
with the cooldowns normalised gives the same outcome, that is the same
resulting state (the rule table apart, which is the input) and events. -/
theorem cooldown_zero_is_300 (h : String) (m : String → Option ℚ) (now : Int) (s : State) :
    (∀ rule : Rule, evalRule h m now rule.normalizeCooldown s = evalRule h m now rule s) ∧
    (evaluateMetric h m now { s with rules := s.rules.map Rule.normalizeCooldown }).threw =
      (evaluateMetric h m now s).threw ∧
    (evaluateMetric h m now { s with rules := s.rules.map Rule.normalizeCooldown }).state =
      { (evaluateMetric h m now s).state with rules := s.rules.map Rule.normalizeCooldown } := by
  refine ⟨fun rule => evalRule_normalizeCooldown h m now rule s, ?_⟩
  unfold evaluateMetric
  dsimp only
  rw [getRulesForServer_normalizeCooldown, evalRules_setRules, evalRules_normalizeCooldown]
  exact ⟨rfl, rfl⟩

/-- The active alert of t = 30 at t = 100 with the condition sustained: the
rule with cooldown 0 suppresses as the rule with cooldown 300 does. -/
theorem cooldown_zero_example :
    ({ cpuRule with cooldown_s := some 0 } : Rule).normalizeCooldown = cpuRule ∧
    ({ cpuRule with cooldown_s := none } : Rule).normalizeCooldown = cpuRule ∧
    (evalRule "h1" (cpuSample 95) 100 { cpuRule with cooldown_s := some 0 }
      (sustainedState [firedAlert AlertStatus.active])).state.alerts =
      [firedAlert AlertStatus.active] := by
  decide

/-! ## C27 -/

/-- While the variable `serverId` of an agent connection is not truthy, the
metrics, details, log and logs:snapshot messages return the state they were
given, without a throw, so that no table, cache, buffer or tracker entry
changes and no event is added; the close handler of such a connection returns
the state as well. -/
theorem unregistered_connection_inert (conn : Nat) (clk : Clock) (s : State)
    (hreg : registeredId s conn = none) :
    (∀ data, onAgentMessage conn (some (Msg.metrics data)) clk s = ⟨s, false⟩) ∧
    (∀ data, onAgentMessage conn (some (Msg.details data)) clk s = ⟨s, false⟩) ∧
    (∀ entry, onAgentMessage conn (some (Msg.log entry)) clk s = ⟨s, false⟩) ∧
    (∀ entries, onAgentMessage conn (some (Msg.logsSnapshot entries)) clk s = ⟨s, false⟩) ∧
    onClose conn clk.now s = s ∧
    (s.connKind conn = some ConnKind.agent → onConnectionClose conn clk.now s = s) := by
  refine ⟨?_, ?_, ?_, ?_, ?_, ?_⟩
  · intro data
    cases data with
    | none => simp only [onAgentMessage, hreg]
    | some d => simp only [onAgentMessage, onMetrics, hreg]
  · intro data
    simp only [onAgentMessage, onDetails, hreg]
  · intro entry
    simp only [onAgentMessage, onLog, hreg]
  · intro entries
    simp only [onAgentMessage, onLogsSnapshot, hreg]
  · simp only [onClose, hreg]
  · intro hk
    simp only [onConnectionClose, hk, onClose, hreg]

theorem unregistered_connection_inert_witness :
    registeredId freshConnState 2 = none ∧
    ((∀ data, onAgentMessage 2 (some (Msg.metrics data)) ⟨200, 200, 200000⟩ freshConnState =
        ⟨freshConnState, false⟩) ∧
     (∀ data, onAgentMessage 2 (some (Msg.details data)) ⟨200, 200, 200000⟩ freshConnState =
        ⟨freshConnState, false⟩) ∧
     (∀ entry, onAgentMessage 2 (some (Msg.log entry)) ⟨200, 200, 200000⟩ freshConnState =
        ⟨freshConnState, false⟩) ∧
     (∀ entries, onAgentMessage 2 (some (Msg.logsSnapshot entries)) ⟨200, 200, 200000⟩
        freshConnState = ⟨freshConnState, false⟩) ∧
     onClose 2 200 freshConnState = freshConnState ∧
     (freshConnState.connKind 2 = some ConnKind.agent →
        onConnectionClose 2 200 freshConnState = freshConnState)) :=
  ⟨by decide, unregistered_connection_inert 2 ⟨200, 200, 200000⟩ freshConnState (by decide)⟩

/-! ## C28 -/

/-- C28: a sample on which the condition of an enabled rule is false, when the
last fired alert of the rule and host is acknowledged, only deletes the
tracker entry: the alert table, the host table (so the status is not
recomputed) and the events are the ones of the state before, and the
acknowledged row is still the last fired alert. -/
theorem acknowledged_stays_on_clear (h : String) (m : String → Option ℚ) (now : Int)
    (rule : Rule) (s : State) (v : ℚ) (a : Alert)
    (hen : rule.enabled = true) (hv : m rule.metric = some v)
    (hc : evaluate v rule.operator rule.threshold = false)
    (hlast : getLastFiredAlert s.alerts rule.id h = some a)
    (hack : a.status = AlertStatus.acknowledged) :
    evalRule h m now rule s =
      ⟨{ s with sustainedSince := trackerDelete s.sustainedSince (trackerKey rule.id h) }, false⟩ ∧
    (evalRule h m now rule s).state.alerts = s.alerts ∧
    (evalRule h m now rule s).state.events = s.events ∧
    (evalRule h m now rule s).state.servers = s.servers ∧
    getLastFiredAlert (evalRule h m now rule s).state.alerts rule.id h = some a := by
  have hne : ¬ a.status = AlertStatus.active := by rw [hack]; decide
  have key : evalRule h m now rule s =
      ⟨{ s with sustainedSince := trackerDelete s.sustainedSince (trackerKey rule.id h) },
        false⟩ := by
    unfold evalRule
    simp only [hen, hv, hc, Bool.true_eq_false, Bool.false_eq_true, if_false]
    unfold clearRule
    simp only [hlast, hne, if_false]
  rw [key]
  exact ⟨rfl, rfl, rfl, rfl, hlast⟩

theorem acknowledged_stays_on_clear_witness :
    evalRule "h1" (cpuSample 10) 100 cpuRule
        (sustainedState [firedAlert AlertStatus.acknowledged]) =
      ⟨{ sustainedState [firedAlert AlertStatus.acknowledged] with
          sustainedSince := trackerDelete
            (sustainedState [firedAlert AlertStatus.acknowledged]).sustainedSince
            (trackerKey cpuRule.id "h1") }, false⟩ ∧
    (evalRule "h1" (cpuSample 10) 100 cpuRule
        (sustainedState [firedAlert AlertStatus.acknowledged])).state.alerts =
      (sustainedState [firedAlert AlertStatus.acknowledged]).alerts ∧
    (evalRule "h1" (cpuSample 10) 100 cpuRule
        (sustainedState [firedAlert AlertStatus.acknowledged])).state.events =
      (sustainedState [firedAlert AlertStatus.acknowledged]).events ∧
    (evalRule "h1" (cpuSample 10) 100 cpuRule
        (sustainedState [firedAlert AlertStatus.acknowledged])).state.servers =
      (sustainedState [firedAlert AlertStatus.acknowledged]).servers ∧
    getLastFiredAlert (evalRule "h1" (cpuSample 10) 100 cpuRule
        (sustainedState [firedAlert AlertStatus.acknowledged])).state.alerts cpuRule.id "h1" =
      some (firedAlert AlertStatus.acknowledged) :=
  acknowledged_stays_on_clear "h1" (cpuSample 10) 100 cpuRule
    (sustainedState [firedAlert AlertStatus.acknowledged]) 10
    (firedAlert AlertStatus.acknowledged) rfl rfl (by decide) (by decide) rfl

/-! ## C29 -/

theorem getServer_updateServerStatus (st : HostStatus) (now : Int) (id : String)
    (servers : List Server) (row : Server) (hrow : getServer servers id = some row) :
    getServer (updateServerStatus st now id servers) id =
      some { row with status := st, last_seen := some now } := by
  unfold getServer updateServerStatus at *
  induction servers with
  | nil => simp at hrow
  | cons x rest ih =>
    by_cases hx : x.id = id
    · simp only [List.find?_cons, hx, decide_True] at hrow
      simp only [List.map_cons, List.find?_cons, hx, if_true, decide_True]
      cases hrow
      rw [hx]
    · simp only [List.find?_cons, hx, decide_False] at hrow
      simp only [List.map_cons, List.find?_cons, hx, if_false, decide_False]
      exact ih hrow

theorem getServer_updateServerStatus_other (st : HostStatus) (now : Int) (id k : String)
    (servers : List Server) (hk : k ≠ id) :
    getServer (updateServerStatus st now id servers) k = getServer servers k := by
  unfold getServer updateServerStatus
  induction servers with
  | nil => rfl
  | cons x rest ih =>
    by_cases hx : x.id = id
    · have hxk : ¬ x.id = k := fun e => hk (e.symm.trans hx)
      simp only [List.map_cons, List.find?_cons, hx, if_true, hxk, decide_False, ih]
      simp only [hx] at hxk
      simp [hxk]
    · simp only [List.map_cons, List.find?_cons, hx, if_false, ih]

/-- C29: an accepted metrics message of host `h` (the connection is
registered as `h` and `h` has a row) first appends the sample and rewrites the
row of `h`, and only then evaluates the rules.  In the state handed to
`evaluateMetric` the row has `last_seen` equal to the receive time and keeps
its status when that is critical or warning and is online otherwise, so an
offline host becomes online and a critical or warning one is not lowered. -/
theorem ingest_keeps_alarm_status (conn : Nat) (data : MetricData) (now evalNow : Int)
    (s : State) (h : String) (row : Server)
    (hreg : registeredId s conn = some h) (hrow : getServer s.servers h = some row) :
    onMetrics conn data now evalNow s =
      (let metricRow : MetricRow := { server_id := h, ts := now, data := data }
       let o := evaluateMetric h metricRow.get evalNow (ingestSample h metricRow now s)
       if o.threw then o
       else ⟨{ o.state with events := o.state.events ++ [Event.metric h metricRow] }, false⟩) ∧
    getServer (ingestSample h { server_id := h, ts := now, data := data } now s).servers h =
      some { row with
        status :=
          if row.status = HostStatus.critical then HostStatus.critical
          else if row.status = HostStatus.warning then HostStatus.warning
          else HostStatus.online
        last_seen := some now } ∧
    (row.status = HostStatus.offline →
      hostStatus (ingestSample h { server_id := h, ts := now, data := data } now s).servers h =
        some HostStatus.online) ∧
    (row.status = HostStatus.critical ∨ row.status = HostStatus.warning →
      hostStatus (ingestSample h { server_id := h, ts := now, data := data } now s).servers h =
        some row.status) := by
  have hget : getServer (ingestSample h { server_id := h, ts := now, data := data } now s).servers
      h = some { row with status := keepStatus (some row), last_seen := some now } := by
    unfold ingestSample
    dsimp only
    rw [hrow]
    exact getServer_updateServerStatus _ now h s.servers row hrow
  refine ⟨?_, ?_, ?_, ?_⟩
  · unfold onMetrics ingestSample
    simp only [hreg, hrow]
  · rw [hget]
    rfl
  · intro hoff
    unfold hostStatus
    rw [hget]
    simp [keepStatus, hoff]
  · intro hst
    unfold hostStatus
    rw [hget]
    rcases hst with hst | hst <;> simp [keepStatus, hst]

theorem ingest_keeps_alarm_status_witness :
    onMetrics 1 { cpu_pct := some 10 } 50 50 (statusState HostStatus.offline) =
      (let metricRow : MetricRow := { server_id := "h1", ts := 50, data := { cpu_pct := some 10 } }
       let o := evaluateMetric "h1" metricRow.get 50
         (ingestSample "h1" metricRow 50 (statusState HostStatus.offline))
       if o.threw then o
       else ⟨{ o.state with events := o.state.events ++ [Event.metric "h1" metricRow] },
         false⟩) ∧
    getServer (ingestSample "h1" { server_id := "h1", ts := 50, data := { cpu_pct := some 10 } }
        50 (statusState HostStatus.offline)).servers "h1" =
      some { ({ id := "h1", name := "h1", status := HostStatus.offline, last_seen := some 0 } :
          Server) with
        status :=
          if HostStatus.offline = HostStatus.critical then HostStatus.critical
          else if HostStatus.offline = HostStatus.warning then HostStatus.warning
          else HostStatus.online
        last_seen := some 50 } ∧
    (HostStatus.offline = HostStatus.offline →
      hostStatus (ingestSample "h1"
        { server_id := "h1", ts := 50, data := { cpu_pct := some 10 } } 50
        (statusState HostStatus.offline)).servers "h1" = some HostStatus.online) ∧
    (HostStatus.offline = HostStatus.critical ∨ HostStatus.offline = HostStatus.warning →
      hostStatus (ingestSample "h1"
        { server_id := "h1", ts := 50, data := { cpu_pct := some 10 } } 50
        (statusState HostStatus.offline)).servers "h1" = some HostStatus.offline) :=
  ingest_keeps_alarm_status 1 { cpu_pct := some 10 } 50 50 (statusState HostStatus.offline) "h1"
    { id := "h1", name := "h1", status := HostStatus.offline, last_seen := some 0 }
    (by decide) (by decide)

/-- The three starting statuses on the scenario host: critical and warning are
kept, offline becomes online, and `last_seen` is the receive time. -/
theorem ingest_status_examples :
    (ingestSample "h1" { server_id := "h1", ts := 50, data := {} } 50
        (statusState HostStatus.critical)).servers =
      [{ id := "h1", name := "h1", status := HostStatus.critical, last_seen := some 50 }] ∧
    (ingestSample "h1" { server_id := "h1", ts := 50, data := {} } 50
        (statusState HostStatus.warning)).servers =
      [{ id := "h1", name := "h1", status := HostStatus.warning, last_seen := some 50 }] ∧
    (ingestSample "h1" { server_id := "h1", ts := 50, data := {} } 50
        (statusState HostStatus.offline)).servers =
      [{ id := "h1", name := "h1", status := HostStatus.online, last_seen := some 50 }] := by
  decide

/-! ## C30 -/

theorem onlyHostsAgents_refl (s : State) : OnlyHostsAgents s s :=
  ⟨rfl, rfl, rfl, rfl, rfl, rfl, rfl, rfl, rfl, fun _ => rfl⟩

theorem onlyHostsAgents_trans {s1 s2 s3 : State} (h12 : OnlyHostsAgents s1 s2)
    (h23 : OnlyHostsAgents s2 s3) : OnlyHostsAgents s1 s3 := by
  obtain ⟨a1, a2, a3, a4, a5, a6, a7, a8, a9, a10⟩ := h12
  obtain ⟨b1, b2, b3, b4, b5, b6, b7, b8, b9, b10⟩ := h23
  exact ⟨b1.trans a1, b2.trans a2, b3.trans a3, b4.trans a4, b5.trans a5, b6.trans a6,
    b7.trans a7, b8.trans a8, b9.trans a9, fun k => (b10 k).trans (a10 k)⟩

theorem onClose_frame (conn : Nat) (now : Int) (s : State) :
    OnlyHostsAgents s (onClose conn now s) := by
  unfold onClose
  split
  · exact onlyHostsAgents_refl s
  · exact ⟨rfl, rfl, rfl, rfl, rfl, rfl, rfl, rfl, rfl, fun _ => rfl⟩

theorem onRegister_frame (conn : Nat) (d : ServerDescr) (now : Int) (s : State) :
    OnlyHostsAgents s (onRegister conn d now s).state := by
  unfold onRegister
  dsimp only
  split
  · exact ⟨rfl, rfl, rfl, rfl, rfl, rfl, rfl, rfl, rfl, fun _ => rfl⟩
  · split
    · exact ⟨rfl, rfl, rfl, rfl, rfl, rfl, rfl, rfl, rfl, fun _ => rfl⟩
    · rename_i hlogs
      refine ⟨rfl, rfl, rfl, rfl, rfl, rfl, rfl, rfl, rfl, fun k => ?_⟩
      dsimp only
      by_cases hk : k = d.id
      · rw [hk]
        cases hl : s.serverLogs d.id with
        | none => simp
        | some l => simp [hl] at hlogs
      · simp [hk]

theorem foldl_sweepStep_frame (now : Int) (rows : List Server) (s : State) :
    OnlyHostsAgents s (rows.foldl (sweepStep now) s) := by
  induction rows generalizing s with
  | nil => exact onlyHostsAgents_refl s
  | cons row rest ih =>
    simp only [List.foldl_cons]
    refine onlyHostsAgents_trans ?_ (ih _)
    unfold sweepStep
    split
    · exact ⟨rfl, rfl, rfl, rfl, rfl, rfl, rfl, rfl, rfl, fun _ => rfl⟩
    · exact onlyHostsAgents_refl s

theorem heartbeatSweep_frame (now : Int) (s : State) :
    OnlyHostsAgents s (heartbeatSweep now s) :=
  foldl_sweepStep_frame now _ s

/-- C30: the close handler of an agent connection, a register message and the
heartbeat sweep leave the tracker and the alert table as they are; they write
only the host table, the agent registry and the events.  Hence after a host
went offline (close, then sweeps) and registered again, every alert row and
every tracker entry is the one from before. -/
theorem offline_cycle_keeps_alerts (conn : Nat) (d : ServerDescr) (now : Int) (s : State) :
    OnlyHostsAgents s (onClose conn now s) ∧
    OnlyHostsAgents s (onRegister conn d now s).state ∧
    OnlyHostsAgents s (heartbeatSweep now s) ∧
    (∀ (conn2 : Nat) (t2 t3 : Int),
      (onRegister conn2 d t3 (heartbeatSweep t2 (onClose conn now s))).state.alerts = s.alerts ∧
      (onRegister conn2 d t3 (heartbeatSweep t2 (onClose conn now s))).state.sustainedSince =
        s.sustainedSince) := by
  refine ⟨onClose_frame conn now s, onRegister_frame conn d now s, heartbeatSweep_frame now s,
    fun conn2 t2 t3 => ?_⟩
  have h := onlyHostsAgents_trans
    (onlyHostsAgents_trans (onClose_frame conn now s) (heartbeatSweep_frame t2 _))
    (onRegister_frame conn2 d t3 _)
  exact ⟨h.1, h.2.1⟩

/-- The host in alarm goes offline and comes back: the active alert and the
tracked start time are the ones from before, the host row is online. -/
theorem offline_cycle_example :
    offlineCycle.alerts = [firedAlert AlertStatus.active] ∧
    offlineCycle.sustainedSince (trackerKey cpuRule.id "h1") = some 60 ∧
    offlineCycle.servers =
      [{ id := "h1", name := "web", status := HostStatus.online, last_seen := some 210 }] ∧
    offlineCycle.agentClients "h1" = some 3 := by
  decide

/-! ## C22 -/

theorem hasActive_iff (alerts : List Alert) (h sev : String) :
    hasActive alerts h sev = true ↔
      ∃ b ∈ alerts, b.status = AlertStatus.active ∧ b.server_id = h ∧ b.severity = sev := by
  simp [hasActive]

theorem statusOnClear_eq (alerts : List Alert) (h : String) :
    statusOnClear alerts h = severityStatus alerts h := by
  have key : ∀ sev : String,
      ((getActiveAlerts alerts).filter (fun a => decide (a.server_id = h))).any
        (fun a => decide (a.severity = sev)) = hasActive alerts h sev := by
    intro sev
    have hmem : ∀ a, a ∈ getActiveAlerts alerts ↔
        a ∈ alerts ∧ a.status = AlertStatus.active := by
      intro a
      unfold getActiveAlerts
      rw [(List.perm_insertionSort _ _).mem_iff, List.mem_filter]
      simp
    rw [Bool.eq_iff_iff, hasActive_iff, List.any_eq_true]
    constructor
    · rintro ⟨a, ha, hsev⟩
      obtain ⟨ha1, ha2⟩ := List.mem_filter.mp ha
      obtain ⟨ha3, ha4⟩ := (hmem a).mp ha1
      exact ⟨a, ha3, ha4, by simpa using ha2, by simpa using hsev⟩
    · rintro ⟨a, ha, hact, hsrv, hsev⟩
      exact ⟨a, List.mem_filter.mpr ⟨(hmem a).mpr ⟨ha, hact⟩, by simpa using hsrv⟩,
        by simpa using hsev⟩
  unfold statusOnClear severityStatus
  simp only [key]

theorem hostStatus_updateServerStatus (st : HostStatus) (now : Int) (h : String)
    (servers : List Server) (hsrv : h ∈ servers.map (fun x => x.id)) :
    hostStatus (updateServerStatus st now h servers) h = some st := by
  have hsome := (getServer_isSome_iff servers h).mpr hsrv
  cases hrow : getServer servers h with
  | none => rw [hrow] at hsome; simp at hsome
  | some row =>
    unfold hostStatus
    rw [getServer_updateServerStatus st now h servers row hrow]
    rfl

/-- C22: when the clear branch runs for an enabled rule whose last fired alert
on the host is active, it resolves that row, appends exactly one
alert:resolved event with the id of that row, and writes to the host the
maximum severity of the rows of the host that are active afterwards:
critical if one is critical, else warning if one is warning, else online. -/
theorem clear_recomputes_status (h : String) (m : String → Option ℚ) (now : Int)
    (rule : Rule) (s : State) (v : ℚ) (a : Alert)
    (hen : rule.enabled = true) (hv : m rule.metric = some v)
    (hc : evaluate v rule.operator rule.threshold = false)
    (hlast : getLastFiredAlert s.alerts rule.id h = some a)
    (hact : a.status = AlertStatus.active)
    (hsrv : h ∈ s.servers.map (fun x => x.id)) :
    (evalRule h m now rule s).state.alerts = resolveAlert now a.id s.alerts ∧
    (evalRule h m now rule s).state.events = s.events ++ [Event.alertResolved a.id h] ∧
    hostStatus (evalRule h m now rule s).state.servers h =
      some (if hasActive (evalRule h m now rule s).state.alerts h "critical"
        then HostStatus.critical
        else if hasActive (evalRule h m now rule s).state.alerts h "warning"
          then HostStatus.warning
          else HostStatus.online) := by
  have key : (evalRule h m now rule s).state =
      { s with
        sustainedSince := trackerDelete s.sustainedSince (trackerKey rule.id h)
        alerts := resolveAlert now a.id s.alerts
        events := s.events ++ [Event.alertResolved a.id h]
        servers := updateServerStatus (statusOnClear (resolveAlert now a.id s.alerts) h) now h
          s.servers } := by
    rw [evalRule_clear h m now rule s v hen hv hc]
    unfold clearRule
    simp only [hlast, hact, if_true]
  rw [key]
  refine ⟨rfl, rfl, ?_⟩
  dsimp only
  rw [hostStatus_updateServerStatus _ now h s.servers hsrv, statusOnClear_eq]
  rfl

theorem clear_recomputes_status_witness :
    (evalRule "h1" (cpuSample 10) 100 cpuRule mixedState).state.alerts =
      resolveAlert 100 (firedAlert AlertStatus.active).id mixedState.alerts ∧
    (evalRule "h1" (cpuSample 10) 100 cpuRule mixedState).state.events =
      mixedState.events ++ [Event.alertResolved (firedAlert AlertStatus.active).id "h1"] ∧
    hostStatus (evalRule "h1" (cpuSample 10) 100 cpuRule mixedState).state.servers "h1" =
      some (if hasActive (evalRule "h1" (cpuSample 10) 100 cpuRule mixedState).state.alerts "h1"
          "critical"
        then HostStatus.critical
        else if hasActive (evalRule "h1" (cpuSample 10) 100 cpuRule mixedState).state.alerts "h1"
            "warning"
          then HostStatus.warning
          else HostStatus.online) :=
  clear_recomputes_status "h1" (cpuSample 10) 100 cpuRule mixedState 10
    (firedAlert AlertStatus.active) rfl rfl (by decide) (by decide) rfl (by decide)

/-- The clear of the critical alert in `mixedState` leaves the warning alert
active: the host becomes warning and one alert:resolved event names row 1. -/
theorem clear_to_warning_example :
    hostStatus (evalRule "h1" (cpuSample 10) 100 cpuRule mixedState).state.servers "h1" =
      some HostStatus.warning ∧
    (evalRule "h1" (cpuSample 10) 100 cpuRule mixedState).state.events =
      [Event.alertResolved 1 "h1"] ∧
    getActiveAlerts (evalRule "h1" (cpuSample 10) 100 cpuRule mixedState).state.alerts =
      [memAlert] := by
  decide

/-! ## C23 -/

theorem trackerDelete_trackSince (key : String) (now : Int) (s : State) :
    trackerDelete (trackSince key now s).sustainedSince key =
      trackerDelete s.sustainedSince key := by
  unfold trackSince
  split
  · rfl
  · funext k
    simp only [trackerDelete, trackerSet]
    split <;> rfl

/-- The loop iteration of a rule that fires, as an explicit state: the stale
resolve, the insert, the status write, the event and the tracker reset. -/
theorem evalRule_fires (h : String) (m : String → Option ℚ) (now : Int) (rule : Rule)
    (s : State) (v : ℚ) (hen : rule.enabled = true) (hv : m rule.metric = some v)
    (hc : evaluate v rule.operator rule.threshold = true)
    (hel : orDefault rule.duration_s 0 ≤
      now - (s.sustainedSince (trackerKey rule.id h)).getD now)
    (hcool : inCooldown (getLastFiredAlert s.alerts rule.id h) rule now = false)
    (hsrv : h ∈ s.servers.map (fun x => x.id)) :
    evalRule h m now rule s =
      ⟨{ s with
          alerts := resolveStale (getLastFiredAlert s.alerts rule.id h) now s.alerts ++
            [mkAlert (nextAlertId (resolveStale (getLastFiredAlert s.alerts rule.id h) now
              s.alerts)) rule h v now]
          servers := statusOnFire rule.severity now h s.servers
          events := s.events ++ [Event.alertNew (mkAlert (nextAlertId (resolveStale
            (getLastFiredAlert s.alerts rule.id h) now s.alerts)) rule h v now)]
          sustainedSince := trackerDelete s.sustainedSince (trackerKey rule.id h) }, false⟩ := by
  have hel' : orDefault rule.duration_s 0 ≤ now - ((trackSince (trackerKey rule.id h) now
      s).sustainedSince (trackerKey rule.id h)).getD now := by
    cases hcur : s.sustainedSince (trackerKey rule.id h) with
    | none =>
      rw [trackSince_key_none _ _ _ hcur]
      rw [hcur] at hel
      simpa using hel
    | some t' =>
      rw [trackSince_key_some _ _ _ _ hcur]
      rw [hcur] at hel
      simpa using hel
  rw [evalRule_fire h m now rule s v hen hv hc hel']
  have hdel := trackerDelete_trackSince (trackerKey rule.id h) now s
  have ha := trackSince_alerts (trackerKey rule.id h) now s
  have hs := trackSince_servers (trackerKey rule.id h) now s
  rw [fireRule_fired h v now rule _ (by rw [ha]; exact hcool) (by rw [hs]; exact hsrv)]
  rw [hdel, ha, hs, trackSince_events]
  unfold trackSince
  split <;> rfl

theorem inCooldown_stale {a : Alert} {rule : Rule} {now : Int}
    (hcd : orDefault rule.cooldown_s 300 ≤ now - a.fired_at) :
    inCooldown (some a) rule now = false := by
  simp only [inCooldown, Bool.and_eq_false_imp, decide_eq_true_eq, decide_eq_false_iff_not]
  intro _
  omega

/-- The claim with the field `cooldown_s` read as it is fails for a cooldown
of 0: in the scenario with the rule of cooldown 0 the sample of 95 at t = 100
satisfies the condition, the sustained time 40 reaches the duration 30, the
last alert is active and `now - fired_at = 70 >= 0`, yet the call resolves
nothing, inserts nothing, emits nothing and keeps the tracker entry. -/
theorem zero_cooldown_counterexample :
    zeroCooldownRule ∈ getRulesForServer zeroCooldownState.rules "h1" ∧
    cpuSample 95 zeroCooldownRule.metric = some 95 ∧
    evaluate 95 zeroCooldownRule.operator zeroCooldownRule.threshold = true ∧
    orDefault zeroCooldownRule.duration_s 0 ≤
      100 - (zeroCooldownState.sustainedSince (trackerKey "r1" "h1")).getD 100 ∧
    getLastFiredAlert zeroCooldownState.alerts "r1" "h1" = some (firedAlert AlertStatus.active) ∧
    zeroCooldownRule.cooldown_s = some 0 ∧
    (0 : Int) ≤ 100 - (firedAlert AlertStatus.active).fired_at ∧
    (evaluateMetric "h1" (cpuSample 95) 100 zeroCooldownState).state.alerts =
      [firedAlert AlertStatus.active] ∧
    (evaluateMetric "h1" (cpuSample 95) 100 zeroCooldownState).state.events = [] ∧
    (evaluateMetric "h1" (cpuSample 95) 100 zeroCooldownState).state.sustainedSince
      (trackerKey "r1" "h1") = some 60 := by
  decide

/-- C23, amended: with the cooldown read as the code reads it
(`cooldown_s`, or 300 when it is 0 or null), a sample that satisfies the
condition of an enabled rule with sustained time at least `duration_s`, while
the last fired alert of the rule and host is active and at least the cooldown
old, makes the iteration of the rule set that row to resolved with
`resolved_at = now`, insert one active row fired at `now` with the id,
metric, threshold and severity of the rule and the value of the sample,
append one alert:new event for it and delete the tracker entry; in the whole
call the rows of the rule and host are the old ones with that row resolved,
followed by the new row. -/
theorem stale_active_refires (h : String) (m : String → Option ℚ) (now : Int) (rule : Rule)
    (s : State) (v : ℚ) (a : Alert)
    (hen : rule.enabled = true) (hv : m rule.metric = some v)
    (hc : evaluate v rule.operator rule.threshold = true)
    (hel : orDefault rule.duration_s 0 ≤
      now - (s.sustainedSince (trackerKey rule.id h)).getD now)
    (hlast : getLastFiredAlert s.alerts rule.id h = some a)
    (hact : a.status = AlertStatus.active)
    (hcd : orDefault rule.cooldown_s 300 ≤ now - a.fired_at)
    (hsrv : h ∈ s.servers.map (fun x => x.id)) :
    evalRule h m now rule s =
      ⟨{ s with
          alerts := resolveAlert now a.id s.alerts ++
            [mkAlert (nextAlertId (resolveAlert now a.id s.alerts)) rule h v now]
          servers := statusOnFire rule.severity now h s.servers
          events := s.events ++
            [Event.alertNew (mkAlert (nextAlertId (resolveAlert now a.id s.alerts)) rule h v now)]
          sustainedSince := trackerDelete s.sustainedSince (trackerKey rule.id h) }, false⟩ ∧
    { a with status := AlertStatus.resolved, resolved_at := some now } ∈
      resolveAlert now a.id s.alerts ∧
    (rule ∈ getRulesForServer s.rules h → (s.rules.map (fun q => q.id)).Nodup →
      AlertIdsUnique s.alerts →
      ∃ id, (∀ b ∈ s.alerts, b.id < id) ∧
        alertsFor rule.id h (evaluateMetric h m now s).state =
          resolveAlert now a.id (alertsFor rule.id h s) ++ [mkAlert id rule h v now] ∧
        (evaluateMetric h m now s).state.sustainedSince (trackerKey rule.id h) = none) := by
  have hcool : inCooldown (getLastFiredAlert s.alerts rule.id h) rule now = false := by
    rw [hlast]; exact inCooldown_stale hcd
  have hstale : ∀ l, resolveStale (getLastFiredAlert s.alerts rule.id h) now l =
      resolveAlert now a.id l := by
    intro l
    rw [hlast]
    simp only [resolveStale, hact, if_true]
  refine ⟨?_, ?_, ?_⟩
  · rw [evalRule_fires h m now rule s v hen hv hc hel hcool hsrv, hstale]
  · have hmem := (getLastFiredAlert_mem hlast).1
    unfold resolveAlert
    apply List.mem_map.mpr
    exact ⟨a, hmem, by simp⟩
  · intro hmem hnd hid
    obtain ⟨id, hfresh, hrows, htr⟩ :=
      evaluateMetric_fire h m now rule s v hmem hnd hid hsrv hen hv hc hel hcool
    refine ⟨id, hfresh, ?_, htr⟩
    rw [hrows, hstale]

theorem stale_active_refires_witness :
    evalRule "h1" (cpuSample 95) 400 cpuRule (sustainedState [firedAlert AlertStatus.active]) =
      ⟨{ sustainedState [firedAlert AlertStatus.active] with
          alerts := resolveAlert 400 (firedAlert AlertStatus.active).id
              (sustainedState [firedAlert AlertStatus.active]).alerts ++
            [mkAlert (nextAlertId (resolveAlert 400 (firedAlert AlertStatus.active).id
              (sustainedState [firedAlert AlertStatus.active]).alerts)) cpuRule "h1" 95 400]
          servers := statusOnFire cpuRule.severity 400 "h1"
            (sustainedState [firedAlert AlertStatus.active]).servers
          events := (sustainedState [firedAlert AlertStatus.active]).events ++
            [Event.alertNew (mkAlert (nextAlertId (resolveAlert 400
              (firedAlert AlertStatus.active).id
              (sustainedState [firedAlert AlertStatus.active]).alerts)) cpuRule "h1" 95 400)]
          sustainedSince := trackerDelete
            (sustainedState [firedAlert AlertStatus.active]).sustainedSince
            (trackerKey cpuRule.id "h1") }, false⟩ ∧
    { firedAlert AlertStatus.active with
        status := AlertStatus.resolved, resolved_at := some 400 } ∈
      resolveAlert 400 (firedAlert AlertStatus.active).id
        (sustainedState [firedAlert AlertStatus.active]).alerts ∧
    (cpuRule ∈ getRulesForServer (sustainedState [firedAlert AlertStatus.active]).rules "h1" →
      ((sustainedState [firedAlert AlertStatus.active]).rules.map (fun q => q.id)).Nodup →
      AlertIdsUnique (sustainedState [firedAlert AlertStatus.active]).alerts →
      ∃ id, (∀ b ∈ (sustainedState [firedAlert AlertStatus.active]).alerts, b.id < id) ∧
        alertsFor cpuRule.id "h1" (evaluateMetric "h1" (cpuSample 95) 400
            (sustainedState [firedAlert AlertStatus.active])).state =
          resolveAlert 400 (firedAlert AlertStatus.active).id
            (alertsFor cpuRule.id "h1" (sustainedState [firedAlert AlertStatus.active])) ++
            [mkAlert id cpuRule "h1" 95 400] ∧
        (evaluateMetric "h1" (cpuSample 95) 400
          (sustainedState [firedAlert AlertStatus.active])).state.sustainedSince
            (trackerKey cpuRule.id "h1") = none) :=
  stale_active_refires "h1" (cpuSample 95) 400 cpuRule
    (sustainedState [firedAlert AlertStatus.active]) 95 (firedAlert AlertStatus.active)
    rfl rfl (by decide) (by decide) (by decide) rfl (by decide) (by decide)

/-- The scenario at t = 400: the alert of t = 30 is resolved at 400, row 2 is
active and fired at 400 with the value 95, one alert:new event names it and
the tracker entry is gone. -/
theorem refire_after_cooldown_example :
    (evaluateMetric "h1" (cpuSample 95) 400
        (sustainedState [firedAlert AlertStatus.active])).state.alerts =
      [{ firedAlert AlertStatus.active with
          status := AlertStatus.resolved, resolved_at := some 400 },
       mkAlert 2 cpuRule "h1" 95 400] ∧
    (evaluateMetric "h1" (cpuSample 95) 400
        (sustainedState [firedAlert AlertStatus.active])).state.events =
      [Event.alertNew (mkAlert 2 cpuRule "h1" 95 400)] ∧
    (evaluateMetric "h1" (cpuSample 95) 400
        (sustainedState [firedAlert AlertStatus.active])).state.sustainedSince
          (trackerKey cpuRule.id "h1") = none := by
  decide

/-! ## C24 -/

theorem evalRules_filter_noop (h : String) (m : String → Option ℚ) (now : Int) (rule : Rule)
    (hnoop : ∀ s0, evalRule h m now rule s0 = ⟨s0, false⟩) (l : List Rule) (s : State) :
    evalRules h m now (l.filter (fun q => decide (q ≠ rule))) s = evalRules h m now l s := by
  induction l generalizing s with
  | nil => rfl
  | cons q rest ih =>
    by_cases hq : q = rule
    · subst hq
      simp only [List.filter_cons, ne_eq, not_true_eq_false, decide_False, Bool.false_eq_true,
        if_false, evalRules, hnoop]
      exact ih s
    · simp only [List.filter_cons, ne_eq, hq, not_false_eq_true, decide_True, if_true, evalRules]
      split
      · rfl
      · exact ih _

theorem getRulesForServer_filter (rules : List Rule) (h : String) (p : Rule → Bool) :
    getRulesForServer (rules.filter p) h = (getRulesForServer rules h).filter p := by
  unfold getRulesForServer
  rw [List.filter_filter, List.filter_filter]
  congr 1
  funext q
  exact Bool.and_comm _ _

theorem evalRules_skip (h : String) (m : String → Option ℚ) (now : Int) (rule : Rule)
    (rules : List Rule) (s : State) (hskip : Skipped rule h m) :
    evalRules h m now ((getRulesForServer rules h).filter (fun q => decide (q ≠ rule))) s =
      evalRules h m now (getRulesForServer rules h) s := by
  rcases hskip with hen | ⟨hs1, hs2⟩ | habs
  · exact evalRules_filter_noop h m now rule (fun s0 => evalRule_disabled h m now rule s0 hen) _ s
  · have hnot : rule ∉ getRulesForServer rules h := by
      unfold getRulesForServer
      rw [List.mem_filter]
      rintro ⟨_, hsc⟩
      simp only [decide_eq_true_eq] at hsc
      rcases hsc with hsc | hsc
      · exact hs2 hsc
      · exact hs1 hsc
    have hself : (getRulesForServer rules h).filter (fun q => decide (q ≠ rule)) =
        getRulesForServer rules h := by
      rw [List.filter_eq_self]
      intro q hq
      simp only [ne_eq, decide_eq_true_eq]
      intro hqr
      exact hnot (hqr ▸ hq)
    rw [hself]
  · exact evalRules_filter_noop h m now rule (fun s0 => evalRule_absent h m now rule s0 habs) _ s

/-- C24: for a rule of the table that the call skips (disabled, scoped to
another host, or metric absent from the sample), `evaluateMetric` leaves the
rows of the rule and host and the tracker entry as they are, and the call
comes out as it does with the rule taken out of the table: the same throw
flag, the same state, and in particular the same events, so that no event
comes from that rule. -/
theorem skipped_rule_untouched (h : String) (m : String → Option ℚ) (now : Int) (rule : Rule)
    (s : State) (hmem : rule ∈ s.rules) (hnd : (s.rules.map (fun q => q.id)).Nodup)
    (hid : AlertIdsUnique s.alerts) (hskip : Skipped rule h m) :
    SameFor rule.id h s (evaluateMetric h m now s).state ∧
    (evaluateMetric h m now (withoutRule rule s)).threw = (evaluateMetric h m now s).threw ∧
    (evaluateMetric h m now (withoutRule rule s)).state =
      withoutRule rule (evaluateMetric h m now s).state ∧
    (evaluateMetric h m now (withoutRule rule s)).state.events =
      (evaluateMetric h m now s).state.events := by
  have hsk := evalRules_skip h m now rule s.rules s hskip
  have hout : evaluateMetric h m now (withoutRule rule s) =
      ⟨withoutRule rule (evaluateMetric h m now s).state, (evaluateMetric h m now s).threw⟩ := by
    unfold evaluateMetric withoutRule
    dsimp only
    rw [getRulesForServer_filter, evalRules_setRules, hsk, evalRules_rules]
  refine ⟨?_, ?_, ?_, ?_⟩
  · unfold evaluateMetric
    rw [← hsk]
    apply evalRules_others h m now _ s rule.id hid
    intro q hq hqr
    obtain ⟨hq1, hq2⟩ := List.mem_filter.mp hq
    have hq3 : q ∈ s.rules := (List.mem_filter.mp hq1).1
    have := eq_of_rule_id_eq hnd hq3 hmem hqr
    simp [this] at hq2
  · rw [hout]
  · rw [hout]
  · rw [hout]
    rfl

theorem skipped_rule_untouched_witness :
    SameFor memRule.id "h1" mixedState (evaluateMetric "h1" (cpuSample 10) 100 mixedState).state ∧
    (evaluateMetric "h1" (cpuSample 10) 100 (withoutRule memRule mixedState)).threw =
      (evaluateMetric "h1" (cpuSample 10) 100 mixedState).threw ∧
    (evaluateMetric "h1" (cpuSample 10) 100 (withoutRule memRule mixedState)).state =
      withoutRule memRule (evaluateMetric "h1" (cpuSample 10) 100 mixedState).state ∧
    (evaluateMetric "h1" (cpuSample 10) 100 (withoutRule memRule mixedState)).state.events =
      (evaluateMetric "h1" (cpuSample 10) 100 mixedState).state.events :=
  skipped_rule_untouched "h1" (cpuSample 10) 100 memRule mixedState (by decide) (by decide)
    (by decide) (Or.inr (Or.inr (by decide)))

/-- In `mixedState` the sample reports no mem_pct: the call resolves the
alert of `cpuRule` and emits its event, the warning alert of `memRule` stays
active and no event names it. -/
theorem skipped_rule_example :
    alertsFor memRule.id "h1" (evaluateMetric "h1" (cpuSample 10) 100 mixedState).state =
      [memAlert] ∧
    (evaluateMetric "h1" (cpuSample 10) 100 mixedState).state.events =
      [Event.alertResolved 1 "h1"] := by
  decide

/-! ## C25 -/

theorem hostStatus_statusOnFire (sev : String) (now : Int) (h : String) (servers : List Server)
    (old : HostStatus) (hold : hostStatus servers h = some old) :
    hostStatus (statusOnFire sev now h servers) h = some (fireStatus sev old) := by
  unfold hostStatus at hold
  cases hrow : getServer servers h with
  | none => rw [hrow] at hold; simp at hold
  | some row =>
    rw [hrow] at hold
    have hst : row.status = old := by simpa using hold
    have hsrv : h ∈ servers.map (fun x => x.id) :=
      (getServer_isSome_iff servers h).mp (by rw [hrow]; rfl)
    unfold statusOnFire fireStatus
    split
    · exact hostStatus_updateServerStatus _ now h servers hsrv
    · split
      · rw [hrow]
        dsimp only
        rw [hst]
        split
        · exact hostStatus_updateServerStatus _ now h servers hsrv
        · unfold hostStatus
          rw [hrow]
          simp [hst]
      · unfold hostStatus
        rw [hrow]
        simp [hst]

theorem fireStatus_twice (sev1 sev2 : String) :
    fireStatus sev2 (fireStatus sev1 HostStatus.online) =
      (if sev1 = "critical" ∨ sev2 = "critical" then HostStatus.critical
       else if sev1 = "warning" ∨ sev2 = "warning" then HostStatus.warning
       else HostStatus.online) := by
  unfold fireStatus
  by_cases h1 : sev1 = "critical" <;> by_cases h2 : sev2 = "critical" <;>
    by_cases h3 : sev1 = "warning" <;> by_cases h4 : sev2 = "warning" <;>
    simp [h1, h2, h3, h4]

theorem resolveStale_length (last : Option Alert) (now : Int) (l : List Alert) :
    (resolveStale last now l).length = l.length := by
  have := congrArg List.length (resolveStale_ids last now l)
  simpa using this

/-- Two rules with different ids that both fire in state `s`, run one after
the other. -/
theorem pair_fires (h : String) (m : String → Option ℚ) (now : Int) (r1 r2 : Rule) (s : State)
    (v1 v2 : ℚ) (hne : r1.id ≠ r2.id) (hf1 : Fires h m now r1 s v1)
    (hf2 : Fires h m now r2 s v2) (hid : AlertIdsUnique s.alerts)
    (hon : hostStatus s.servers h = some HostStatus.online) :
    (evalRules h m now [r1, r2] s).threw = false ∧
    (evalRules h m now [r1, r2] s).state.alerts.length = s.alerts.length + 2 ∧
    hostStatus (evalRules h m now [r1, r2] s).state.servers h =
      some (fireStatus r2.severity (fireStatus r1.severity HostStatus.online)) := by
  obtain ⟨hen1, hv1, hc1, hel1, hcool1⟩ := hf1
  obtain ⟨hen2, hv2, hc2, hel2, hcool2⟩ := hf2
  have hsrv : h ∈ s.servers.map (fun x => x.id) := by
    apply (getServer_isSome_iff s.servers h).mp
    unfold hostStatus at hon
    cases hrow : getServer s.servers h with
    | none => rw [hrow] at hon; simp at hon
    | some row => rfl
  have e1 := evalRule_fires h m now r1 s v1 hen1 hv1 hc1 hel1 hcool1 hsrv
  have hk : trackerKey r2.id h ≠ trackerKey r1.id h :=
    fun hk => hne (trackerKey_left_inj hk).symm
  have ht2 := evalRule_tracker_other h m now r1 s _ hk
  have ha2 := evalRule_alertsFor_other h m now r1 s r2.id h hid (fun hc => hne hc.1)
  have hl2 : getLastFiredAlert (evalRule h m now r1 s).state.alerts r2.id h =
      getLastFiredAlert s.alerts r2.id h := getLastFiredAlert_congr ha2
  have hsrv1 : h ∈ (evalRule h m now r1 s).state.servers.map (fun x => x.id) := by
    rw [evalRule_server_ids]; exact hsrv
  have e2 := evalRule_fires h m now r2 (evalRule h m now r1 s).state v2 hen2 hv2 hc2
    (by rw [ht2]; exact hel2) (by rw [hl2]; exact hcool2) hsrv1
  have hthrew1 : (evalRule h m now r1 s).threw = false := by rw [e1]
  have hserv1 : (evalRule h m now r1 s).state.servers =
      statusOnFire r1.severity now h s.servers := by rw [e1]
  have hlen1 : (evalRule h m now r1 s).state.alerts.length = s.alerts.length + 1 := by
    rw [e1]
    simp [resolveStale_length]
  have hrun : evalRules h m now [r1, r2] s = evalRule h m now r2 (evalRule h m now r1 s).state := by
    simp only [evalRules, hthrew1, Bool.false_eq_true, if_false]
    split
    · rfl
    · rename_i hnt
      rw [e2] at hnt ⊢
  rw [hrun, e2]
  refine ⟨rfl, ?_, ?_⟩
  · simp [resolveStale_length, hlen1]
  · dsimp only
    rw [hserv1]
    exact hostStatus_statusOnFire _ now h _ _ (hostStatus_statusOnFire _ now h _ _ hon)

theorem evalPair_fires (h : String) (m : String → Option ℚ) (now : Int) (r1 r2 : Rule)
    (s : State) (v1 v2 : ℚ) (hne : r1.id ≠ r2.id)
    (hsc1 : r1.server_id = none ∨ r1.server_id = some h)
    (hsc2 : r2.server_id = none ∨ r2.server_id = some h)
    (hf1 : Fires h m now r1 s v1) (hf2 : Fires h m now r2 s v2) (hid : AlertIdsUnique s.alerts)
    (hon : hostStatus s.servers h = some HostStatus.online) :
    TwoFired h now r1 r2 v1 v2 s (evalPair h m now r1 r2 s) ∧
    hostStatus (evalPair h m now r1 r2 s).state.servers h =
      some (fireStatus r2.severity (fireStatus r1.severity HostStatus.online)) := by
  have hget : getRulesForServer [r1, r2] h = [r1, r2] := by
    unfold getRulesForServer
    rw [List.filter_eq_self]
    intro q hq
    simp only [List.mem_cons, List.mem_singleton, List.not_mem_nil, or_false] at hq
    rcases hq with rfl | rfl
    · rcases hsc1 with e | e <;> simp [e]
    · rcases hsc2 with e | e <;> simp [e]
  have hev : evalPair h m now r1 r2 s =
      ⟨{ (evalRules h m now [r1, r2] s).state with rules := [r1, r2] },
        (evalRules h m now [r1, r2] s).threw⟩ := by
    unfold evalPair evaluateMetric
    dsimp only
    rw [hget, evalRules_setRules]
  obtain ⟨hthrew, hlen, hstat⟩ := pair_fires h m now r1 r2 s v1 v2 hne hf1 hf2 hid hon
  have hsrv : h ∈ s.servers.map (fun x => x.id) := by
    apply (getServer_isSome_iff s.servers h).mp
    unfold hostStatus at hon
    cases hrow : getServer s.servers h with
    | none => rw [hrow] at hon; simp at hon
    | some row => rfl
  have hnd : (([r1, r2] : List Rule).map (fun q => q.id)).Nodup := by
    simp [hne]
  obtain ⟨hen1, hv1, hc1, hel1, hcool1⟩ := hf1
  obtain ⟨hen2, hv2, hc2, hel2, hcool2⟩ := hf2
  obtain ⟨id1, hfresh1, hrows1, _⟩ := evaluateMetric_fire h m now r1
    { s with rules := [r1, r2] } v1 (by rw [hget]; simp) hnd hid hsrv hen1 hv1 hc1 hel1 hcool1
  obtain ⟨id2, hfresh2, hrows2, _⟩ := evaluateMetric_fire h m now r2
    { s with rules := [r1, r2] } v2 (by rw [hget]; simp) hnd hid hsrv hen2 hv2 hc2 hel2 hcool2
  have hm1 : mkAlert id1 r1 h v1 now ∈ (evalPair h m now r1 r2 s).state.alerts := by
    have : mkAlert id1 r1 h v1 now ∈
        alertsFor r1.id h (evaluateMetric h m now { s with rules := [r1, r2] }).state := by
      rw [hrows1]; simp
    exact (List.mem_filter.mp this).1
  have hm2 : mkAlert id2 r2 h v2 now ∈ (evalPair h m now r1 r2 s).state.alerts := by
    have : mkAlert id2 r2 h v2 now ∈
        alertsFor r2.id h (evaluateMetric h m now { s with rules := [r1, r2] }).state := by
      rw [hrows2]; simp
    exact (List.mem_filter.mp this).1
  have huniq : AlertIdsUnique (evalPair h m now r1 r2 s).state.alerts :=
    alertIdsUnique_evaluateMetric h m now { s with rules := [r1, r2] } hid
  have hids : id1 ≠ id2 := by
    intro hEq
    have := eq_of_id_eq huniq hm1 hm2 hEq
    have hr : (mkAlert id1 r1 h v1 now).rule_id = (mkAlert id2 r2 h v2 now).rule_id := by
      rw [this]
    simp only [mkAlert, Option.some.injEq] at hr
    exact hne hr
  refine ⟨⟨?_, ?_, id1, id2, hids, fun b hb => ⟨hfresh1 b hb, hfresh2 b hb⟩, hm1, hm2⟩, ?_⟩
  · rw [hev]; exact hthrew
  · rw [hev]; exact hlen
  · rw [hev]; exact hstat

/-- C25: two enabled rules with different ids that apply to the host and both
fire on the sample, from host status online.  Whichever of the two comes first
in the rule table, the call adds two rows, one per rule, with distinct fresh
ids, and the host status afterwards is critical if one of the severities is
critical, else warning if one is warning (else it is still online). -/
theorem two_rules_order_independent (h : String) (m : String → Option ℚ) (now : Int)
    (r1 r2 : Rule) (s : State) (v1 v2 : ℚ) (hne : r1.id ≠ r2.id)
    (hsc1 : r1.server_id = none ∨ r1.server_id = some h)
    (hsc2 : r2.server_id = none ∨ r2.server_id = some h)
    (hf1 : Fires h m now r1 s v1) (hf2 : Fires h m now r2 s v2) (hid : AlertIdsUnique s.alerts)
    (hon : hostStatus s.servers h = some HostStatus.online) :
    TwoFired h now r1 r2 v1 v2 s (evalPair h m now r1 r2 s) ∧
    TwoFired h now r2 r1 v2 v1 s (evalPair h m now r2 r1 s) ∧
    hostStatus (evalPair h m now r1 r2 s).state.servers h =
      some (if r1.severity = "critical" ∨ r2.severity = "critical" then HostStatus.critical
        else if r1.severity = "warning" ∨ r2.severity = "warning" then HostStatus.warning
        else HostStatus.online) ∧
    hostStatus (evalPair h m now r2 r1 s).state.servers h =
      hostStatus (evalPair h m now r1 r2 s).state.servers h := by
  obtain ⟨ha, hsa⟩ := evalPair_fires h m now r1 r2 s v1 v2 hne hsc1 hsc2 hf1 hf2 hid hon
  obtain ⟨hb, hsb⟩ := evalPair_fires h m now r2 r1 s v2 v1 (fun e => hne e.symm) hsc2 hsc1 hf2
    hf1 hid hon
  refine ⟨ha, hb, ?_, ?_⟩
  · rw [hsa, fireStatus_twice]
  · rw [hsa, hsb, fireStatus_twice, fireStatus_twice]
    congr 1
    by_cases h1 : r1.severity = "critical" <;> by_cases h2 : r2.severity = "critical" <;>
      by_cases h3 : r1.severity = "warning" <;> by_cases h4 : r2.severity = "warning" <;>
      simp [h1, h2, h3, h4]

theorem two_rules_order_independent_witness :
    TwoFired "h1" 10 quickRule memRule 95 85 pairState
      (evalPair "h1" bothSample 10 quickRule memRule pairState) ∧
    TwoFired "h1" 10 memRule quickRule 85 95 pairState
      (evalPair "h1" bothSample 10 memRule quickRule pairState) ∧
    hostStatus (evalPair "h1" bothSample 10 quickRule memRule pairState).state.servers "h1" =
      some (if quickRule.severity = "critical" ∨ memRule.severity = "critical"
        then HostStatus.critical
        else if quickRule.severity = "warning" ∨ memRule.severity = "warning"
          then HostStatus.warning
          else HostStatus.online) ∧
    hostStatus (evalPair "h1" bothSample 10 memRule quickRule pairState).state.servers "h1" =
      hostStatus (evalPair "h1" bothSample 10 quickRule memRule pairState).state.servers "h1" :=
  two_rules_order_independent "h1" bothSample 10 quickRule memRule pairState 95 85 (by decide)
    (Or.inl rfl) (Or.inl rfl) ⟨rfl, rfl, by decide, by decide, by decide⟩
    ⟨rfl, rfl, by decide, by decide, by decide⟩ (by decide) (by decide)

/-- The two orders on the scenario: the critical rule first gives rows 1
(critical) and 2 (warning), the warning rule first gives rows 1 (warning) and
2 (critical); the host is critical in both. -/
theorem two_rules_example :
    (evalPair "h1" bothSample 10 quickRule memRule pairState).state.alerts =
      [mkAlert 1 quickRule "h1" 95 10, mkAlert 2 memRule "h1" 85 10] ∧
    (evalPair "h1" bothSample 10 memRule quickRule pairState).state.alerts =
      [mkAlert 1 memRule "h1" 85 10, mkAlert 2 quickRule "h1" 95 10] ∧
    hostStatus (evalPair "h1" bothSample 10 quickRule memRule pairState).state.servers "h1" =
      some HostStatus.critical ∧
    hostStatus (evalPair "h1" bothSample 10 memRule quickRule pairState).state.servers "h1" =
      some HostStatus.critical := by
  decide

/-! ## C21 -/

/-- C21: at the end of `reconnectTrace` the last call has just fired the
warning rule for `h1` (row 2, event alert:new) while the critical row 1 is
still active, its rule being in cooldown; the fire branch writes warning on
the host, which the re-registration had set to online, although the maximum
severity among the active rows of `h1` is critical. -/
theorem status_after_fire_below_active :
    getActiveAlerts reconnectTrace.alerts =
      [mkAlert 2 memRule "h1" 85 8, mkAlert 1 quickRule "h1" 95 5] ∧
    Event.alertNew (mkAlert 2 memRule "h1" 85 8) ∈ reconnectTrace.events ∧
    hostStatus reconnectTrace.servers "h1" = some HostStatus.warning ∧
    severityStatus reconnectTrace.alerts "h1" = HostStatus.critical := by
  decide

/-! ## C10, on rows stamped by the clock -/

/-- C10: every write of `last_seen` is the clock in seconds, a positive
number.  For a host `x` with such a `last_seen = t`: if its status is not
offline and `now - t > 60`, the sweep sets it offline and emits exactly one
server:offline event for it, and any number of further sweeps with no message
in between emit no further one; if it is already offline or `now - t <= 60`,
the sweep leaves its row unchanged and emits no event for it. -/
theorem sweep_marks_silent (s : State) (now : Int)
    (hnd : (s.servers.map (fun x => x.id)).Nodup) (x : Server) (hx : x ∈ s.servers)
    (t : Int) (hls : x.last_seen = some t) (hpos : 0 < t) :
    (x.status ≠ HostStatus.offline → now - t > 60 →
      markOffline now x ∈ (heartbeatSweep now s).servers ∧
      (heartbeatSweep now s).events.count (Event.serverOffline x.id) =
        s.events.count (Event.serverOffline x.id) + 1 ∧
      ∀ times, (sweeps times (heartbeatSweep now s)).events.count (Event.serverOffline x.id) =
        (heartbeatSweep now s).events.count (Event.serverOffline x.id)) ∧
    (x.status = HostStatus.offline ∨ now - t ≤ 60 →
      x ∈ (heartbeatSweep now s).servers ∧
      (heartbeatSweep now s).events.count (Event.serverOffline x.id) =
        s.events.count (Event.serverOffline x.id)) := by
  obtain ⟨h1, h2, _⟩ := sweep_marks_stale s now hnd x hx
  refine ⟨fun hst hold => h1 t hst hls (ne_of_gt hpos) hold, ?_⟩
  intro hcase
  apply h2
  rcases hcase with hoff | hle
  · exact Or.inl hoff
  · exact Or.inr (Or.inr (Or.inr ⟨t, hls, hle⟩))

theorem sweep_marks_silent_witness :
    (silentHost.status ≠ HostStatus.offline → (161 : Int) - 100 > 60 →
      markOffline 161 silentHost ∈ (heartbeatSweep 161 silentState).servers ∧
      (heartbeatSweep 161 silentState).events.count (Event.serverOffline silentHost.id) =
        silentState.events.count (Event.serverOffline silentHost.id) + 1 ∧
      ∀ times, (sweeps times (heartbeatSweep 161 silentState)).events.count
          (Event.serverOffline silentHost.id) =
        (heartbeatSweep 161 silentState).events.count (Event.serverOffline silentHost.id)) ∧
    (silentHost.status = HostStatus.offline ∨ (161 : Int) - 100 ≤ 60 →
      silentHost ∈ (heartbeatSweep 161 silentState).servers ∧
      (heartbeatSweep 161 silentState).events.count (Event.serverOffline silentHost.id) =
        silentState.events.count (Event.serverOffline silentHost.id)) :=
  sweep_marks_silent silentState 161 (by decide) silentHost (by decide) 100 rfl (by decide)

/-- The scenario of 61 seconds of silence: sweeps at t = 161, 191 and 221 emit
one server:offline event for `h1` in all. -/
theorem sweep_silence_example :
    (sweeps [161, 191, 221] silentState).events.count (Event.serverOffline "h1") = 1 ∧
    (heartbeatSweep 160 silentState).events = [] ∧
    (heartbeatSweep 161 silentState).events = [Event.serverOffline "h1"] := by
  decide

/-! ## C27, the connection of a dropped register message -/

/-- C27, the code at the failing input: connection 2 is an agent connection
whose only register message, for `h1` with neither name nor hostname, was
dropped: the upsert threw, the host table and the registry are as before (the
registry maps `h1` to connection 1) and nothing was broadcast, so connection 2
has registered no host.  Yet its metrics message is stored as a sample of
`h1` and broadcast, its details, log and logs:snapshot messages write the
caches of `h1`, and its close deletes the registry entry of `h1`, marks `h1`
offline and broadcasts server:offline. -/
theorem dropped_register_connection_writes :
    namelessRegister.threw = true ∧
    namelessRegister.state.servers = loggingState.servers ∧
    namelessRegister.state.agentClients "h1" = some 1 ∧
    namelessRegister.state.events = [] ∧
    (onAgentMessage 2 (some (Msg.metrics (some { cpu_pct := some 50 }))) ⟨21, 21, 21000⟩
        namelessRegister.state).state.metrics =
      [{ server_id := "h1", ts := 21, data := { cpu_pct := some 50 } }] ∧
    (onAgentMessage 2 (some (Msg.metrics (some { cpu_pct := some 50 }))) ⟨21, 21, 21000⟩
        namelessRegister.state).state.events =
      [Event.metric "h1" { server_id := "h1", ts := 21, data := { cpu_pct := some 50 } }] ∧
    (onAgentMessage 2 (some (Msg.details (some "snapshot"))) ⟨21, 21, 21000⟩
        namelessRegister.state).state.serverDetails "h1" =
      some { data := some "snapshot", updated := 21000 } ∧
    (onAgentMessage 2 (some (Msg.details (some "snapshot"))) ⟨21, 21, 21000⟩
        namelessRegister.state).state.events = [Event.details "h1" (some "snapshot")] ∧
    (onAgentMessage 2 (some (Msg.log (logLine 1))) ⟨21, 21, 21000⟩
        namelessRegister.state).state.serverLogs "h1" = some [logLine 1] ∧
    (onAgentMessage 2 (some (Msg.log (logLine 1))) ⟨21, 21, 21000⟩
        namelessRegister.state).state.events = [Event.log "h1" (logLine 1)] ∧
    (onAgentMessage 2 (some (Msg.logsSnapshot (some [logLine 1, logLine 2]))) ⟨21, 21, 21000⟩
        namelessRegister.state).state.serverLogs "h1" = some [logLine 1, logLine 2] ∧
    (onConnectionClose 2 22 namelessRegister.state).servers.map
        (fun x => (x.id, x.status, x.last_seen)) = [("h1", HostStatus.offline, some 22)] ∧
    (onConnectionClose 2 22 namelessRegister.state).agentClients "h1" = none ∧
    (onConnectionClose 2 22 namelessRegister.state).events = [Event.serverOffline "h1"] := by
  decide

end WatchX
